import Mathlib

/-!
# libexword: device command surface and content engine

A shallow embedding of `src/exword.c` (device handle, status bitfield, the
device commands) and of `src/content.c` (selective encryption on transfer,
the admini scan), followed by the theorems settled about them.

Conventions of the embedding

* C strings are lists of characters without the terminating NUL; byte
  buffers are lists of natural numbers (each a byte value).
* `self->status` is a C `int` that only ever holds the bits `0x80` and
  `0x07`; it is a natural number here and `~0x07` is the 32-bit mask
  `0xFFFFFFF8`.
* Every call into libusb or into the OBEX framer is recorded in the ghost
  field `io` of the handle, every invocation of the disconnect callback in
  the ghost field `events`.  What the outside world answers (allocation
  results, response codes, response bodies) is an explicit argument.
* `exword_handle_interrupt` runs when libusb delivers a completion of the
  interrupt transfer: as a call of its own between two API calls, or inside
  the event pump of `exword_poll_disconnect`.
* A read past the end of a heap buffer yields the bytes of an explicit
  `heap` argument.
-/

namespace Exword

/-! ## Constants -/

/-- Modelled from the spec: `EXWORD_SUCCESS` of the error enumeration in `exword.h`
(not under src); the spec lists SUCCESS, FORBIDDEN, NOT_FOUND, INTERNAL, NO_MEM,
OTHER in this order and states that SUCCESS is 0 and every failure non-zero. -/
def EXWORD_SUCCESS : Nat := 0
/-- Modelled from the spec: second entry of the error taxonomy. -/
def EXWORD_ERROR_FORBIDDEN : Nat := 1
/-- Modelled from the spec: third entry of the error taxonomy. -/
def EXWORD_ERROR_NOT_FOUND : Nat := 2
/-- Modelled from the spec: fourth entry of the error taxonomy. -/
def EXWORD_ERROR_INTERNAL : Nat := 3
/-- Modelled from the spec: fifth entry of the error taxonomy. -/
def EXWORD_ERROR_NO_MEM : Nat := 4
/-- Modelled from the spec: sixth entry of the error taxonomy. -/
def EXWORD_ERROR_OTHER : Nat := 5

/-- Modelled from the spec: the disconnect reasons of `exword.h` (not under src) are
the low three status bits "normal, error, unplugged"; normal is the lowest bit. -/
def EXWORD_DISCONNECT_NORMAL : Nat := 0x01
/-- Modelled from the spec: the error reason, one of the two fatal sticky bits `0x06`. -/
def EXWORD_DISCONNECT_ERROR : Nat := 0x02
/-- Modelled from the spec: the "physically unplugged" reason is bit 3, that is `0x04`. -/
def EXWORD_DISCONNECT_UNPLUGGED : Nat := 0x04

/-- Modelled from the spec: OBEX response code SUCCESS of `obex.h` (not under src). -/
def OBEX_RSP_SUCCESS : Int := 0x20
/-- Modelled from the spec: OBEX response code FORBIDDEN. -/
def OBEX_RSP_FORBIDDEN : Int := 0x43
/-- Modelled from the spec: OBEX response code NOT_FOUND. -/
def OBEX_RSP_NOT_FOUND : Int := 0x44
/-- Modelled from the spec: OBEX response code INTERNAL_SERVER_ERROR. -/
def OBEX_RSP_INTERNAL_SERVER_ERROR : Int := 0x50

/-- Modelled from the spec: opcode CONNECT (0x80). -/
def OBEX_CMD_CONNECT : Nat := 0x80
/-- Modelled from the spec: opcode DISCONNECT (0x81). -/
def OBEX_CMD_DISCONNECT : Nat := 0x81
/-- Modelled from the spec: opcode PUT (0x02). -/
def OBEX_CMD_PUT : Nat := 0x02
/-- Modelled from the spec: opcode GET (0x03). -/
def OBEX_CMD_GET : Nat := 0x03
/-- Modelled from the spec: opcode SETPATH (0x85). -/
def OBEX_CMD_SETPATH : Nat := 0x85

/-! ## The device handle -/

/-- Calls into the transport (libusb and the OBEX framer) made by `exword.c`. -/
inductive io_event where
  | libusb_alloc_transfer
  | libusb_free_transfer
  | libusb_submit_transfer
  | libusb_cancel_transfer
  | libusb_handle_events_timeout
  | obex_init
  | obex_cleanup
  | obex_request (opcode : Nat)
  deriving DecidableEq

/-- The fields of `struct exword_t` that the commands read or write, with two
ghost logs: `io` (transport calls, oldest first) and `events` (arguments of the
disconnect callback invocations, oldest first). -/
structure exword_t where
  status : Nat
  obex_ctx : Bool
  disconnect_callback : Bool
  io : List io_event
  events : List Nat
  deriving DecidableEq

/-- What a command hands back: the handle afterwards and the return value. -/
structure cmd_result where
  self : exword_t
  ret : Nat
  deriving DecidableEq

/-- The answers of the outside world to one device command: whether
`convert_from_locale` produced a string, whether `obex_object_new` and `malloc`
succeeded, the value returned by `obex_request`, the LENGTH and BODY headers of
the response, and whether the `obex_object_new` inside `obex_to_exword_error`
succeeded. -/
structure outcome where
  unicode_ok : Bool
  obj_ok : Bool
  buf_ok : Bool
  rsp : Int
  hdr_length : Nat
  hdr_body : List Nat
  disc_obj_ok : Bool
  deriving DecidableEq

/-- Record one transport call. -/
def log (self : exword_t) (e : io_event) : exword_t :=
  { self with io := self.io ++ [e] }

/-- The handle made by `exword_init`: everything zeroed, status `0x80`. -/
def exword_init : exword_t :=
  { status := 0x80, obex_ctx := false, disconnect_callback := false, io := [], events := [] }

/-- `exword_is_connected`: `!(self->status & 0x80)`. -/
def exword_is_connected (self : exword_t) : Bool :=
  self.status &&& 0x80 == 0

/-- `exword_register_disconnect_callback`: a NULL pointer removes the callback. -/
def exword_register_disconnect_callback (self : exword_t) (disconnect : Bool) : exword_t :=
  { self with disconnect_callback := disconnect }

/-- `obex_to_exword_error`: map the OBEX response; on INTERNAL_SERVER_ERROR mark the
handle disconnected, latch the error reason when none is latched, cancel the
interrupt transfer and send a best-effort DISCONNECT. -/
def obex_to_exword_error (self : exword_t) (obex_rsp : Int) (disc_obj_ok : Bool) : cmd_result :=
  if obex_rsp = OBEX_RSP_SUCCESS then ⟨self, EXWORD_SUCCESS⟩
  else if obex_rsp = OBEX_RSP_FORBIDDEN then ⟨self, EXWORD_ERROR_FORBIDDEN⟩
  else if obex_rsp = OBEX_RSP_NOT_FOUND then ⟨self, EXWORD_ERROR_NOT_FOUND⟩
  else if obex_rsp = OBEX_RSP_INTERNAL_SERVER_ERROR then
    let s1 := self.status ||| 0x80
    let s2 := if s1 &&& 0x07 = 0 then s1 ||| EXWORD_DISCONNECT_ERROR else s1
    let self1 := log { self with status := s2 } io_event.libusb_cancel_transfer
    let self2 := if disc_obj_ok then log self1 (io_event.obex_request OBEX_CMD_DISCONNECT) else self1
    ⟨self2, EXWORD_ERROR_INTERNAL⟩
  else ⟨self, EXWORD_ERROR_OTHER⟩

/-- `send_disconnect_event`: call the disconnect callback when one is registered. -/
def send_disconnect_event (self : exword_t) (reason : Nat) : exword_t :=
  if self.disconnect_callback then { self with events := self.events ++ [reason] } else self

/-- Completion status of the interrupt transfer (`transfer->status`); the four
values the switch of `exword_handle_interrupt` names, and every other one. -/
inductive libusb_transfer_status where
  | COMPLETED
  | TIMED_OUT
  | NO_DEVICE
  | ERROR
  | OTHER
  deriving DecidableEq

/-- `exword_handle_interrupt`: resubmit on completion or timeout; on NO_DEVICE or
ERROR latch the unplugged reason when no reason is latched. -/
def exword_handle_interrupt (self : exword_t) (st : libusb_transfer_status) : exword_t :=
  match st with
  | .TIMED_OUT => log self io_event.libusb_submit_transfer
  | .COMPLETED => log self io_event.libusb_submit_transfer
  | .NO_DEVICE =>
    if self.status &&& 0x07 = 0 then { self with status := self.status ||| EXWORD_DISCONNECT_UNPLUGGED }
    else self
  | .ERROR =>
    if self.status &&& 0x07 = 0 then { self with status := self.status ||| EXWORD_DISCONNECT_UNPLUGGED }
    else self
  | .OTHER => self

/-- The answers of the outside world to `exword_connect`. -/
structure connect_outcome where
  alloc_ok : Bool
  init_ok : Bool
  obj_ok : Bool
  rsp : Int
  deriving DecidableEq

/-- `exword_connect`.  The version and locale bytes derived from `options` are
handed to the framer and touch neither the status nor the control flow. -/
def exword_connect (self : exword_t) (_options : Nat) (o : connect_outcome) : cmd_result :=
  if exword_is_connected self then ⟨self, EXWORD_ERROR_OTHER⟩
  else
    let s1 := log self io_event.libusb_alloc_transfer
    if !o.alloc_ok then ⟨s1, EXWORD_ERROR_OTHER⟩
    else
      let s2 := log s1 io_event.obex_init
      if !o.init_ok then
        ⟨log { s2 with obex_ctx := false } io_event.libusb_free_transfer, EXWORD_ERROR_OTHER⟩
      else
        let s3 := { s2 with obex_ctx := true }
        let free_context := fun (s : exword_t) =>
          log { (log s io_event.obex_cleanup) with obex_ctx := false } io_event.libusb_free_transfer
        if !o.obj_ok then ⟨free_context s3, EXWORD_ERROR_OTHER⟩
        else
          let s4 := log s3 (io_event.obex_request OBEX_CMD_CONNECT)
          if o.rsp ≠ OBEX_RSP_SUCCESS then ⟨free_context s4, EXWORD_ERROR_OTHER⟩
          else
            ⟨{ (log s4 io_event.libusb_submit_transfer) with status := 0x00 }, EXWORD_SUCCESS⟩

/-- `exword_disconnect`; `obj_ok` tells whether `obex_object_new` succeeded. -/
def exword_disconnect (self : exword_t) (obj_ok : Bool) : cmd_result :=
  if exword_is_connected self then
    let s1 := self.status ||| 0x80
    let s2 := if s1 &&& 0x07 = 0 then s1 ||| EXWORD_DISCONNECT_NORMAL else s1
    let self1 := { self with status := s2 }
    if !obj_ok then ⟨self1, EXWORD_ERROR_NO_MEM⟩
    else
      let self2 := log self1 io_event.libusb_cancel_transfer
      let self3 := log self2 (io_event.obex_request OBEX_CMD_DISCONNECT)
      let self4 := log self3 io_event.libusb_free_transfer
      let self5 := log self4 io_event.obex_cleanup
      ⟨{ self5 with obex_ctx := false }, EXWORD_SUCCESS⟩
  else ⟨self, EXWORD_SUCCESS⟩

/-- The first statement of `exword_poll_disconnect`: on a connected handle
`libusb_handle_events_timeout` runs, and libusb delivers the interrupt completions
`pumped` to `exword_handle_interrupt`. -/
def after_pump (self : exword_t) (pumped : List libusb_transfer_status) : exword_t :=
  if exword_is_connected self then
    pumped.foldl exword_handle_interrupt (log self io_event.libusb_handle_events_timeout)
  else self

/-- `exword_poll_disconnect`.  `pumped` lists the interrupt completions delivered
during the event pump; `obj_ok` is the allocation result inside
`exword_disconnect`. -/
def exword_poll_disconnect (self : exword_t) (pumped : List libusb_transfer_status)
    (obj_ok : Bool) : exword_t :=
  let self1 := after_pump self pumped
  if self1.status &&& 0x07 ≠ 0 then
    let self2 := send_disconnect_event self1 (self1.status &&& 0x07)
    let self3 := (exword_disconnect self2 obj_ok).self
    { self3 with status := self3.status &&& 0xFFFFFFF8 }
  else self1

/-! ## Device commands

Every command starts with the same two checks and ends in
`obex_to_exword_error`; what lies between differs in which allocations can
fail before the request is sent. -/

/-- `exword_send_file`: PUT of a file. -/
def exword_send_file (self : exword_t) (_filename : List Char) (_buffer : List Nat)
    (o : outcome) : cmd_result :=
  if self.status &&& 0x06 ≠ 0 then ⟨self, EXWORD_ERROR_INTERNAL⟩
  else if !exword_is_connected self then ⟨self, EXWORD_ERROR_NOT_FOUND⟩
  else if !o.unicode_ok then ⟨self, EXWORD_ERROR_OTHER⟩
  else if !o.obj_ok then ⟨self, EXWORD_ERROR_NO_MEM⟩
  else obex_to_exword_error (log self (io_event.obex_request OBEX_CMD_PUT)) o.rsp o.disc_obj_ok

/-- What `exword_get_file` hands back: handle, return value, and the out-parameters
`*buffer` (`none` for NULL) and `*len`. -/
structure get_file_result where
  self : exword_t
  ret : Nat
  buffer : Option (List Nat)
  len : Nat
  deriving DecidableEq

/-- `exword_get_file`: GET of a file.  On a SUCCESS response (final bit `0x80`
masked off) the LENGTH header sets `*len` and allocates, the BODY header is
copied into the buffer (`*len` bytes).  The response is taken to carry both
headers, LENGTH first, as the device sends them, with a LENGTH below 2^31 that
does not exceed the size of the BODY: for a larger LENGTH the `memcpy` of the
code reads `*len` bytes past the end of the BODY header and from 2^31 on `*len`
is negative as an `int`; the buffer here then holds the BODY bytes only. -/
def exword_get_file (self : exword_t) (_filename : List Char) (o : outcome) : get_file_result :=
  if self.status &&& 0x06 ≠ 0 then ⟨self, EXWORD_ERROR_INTERNAL, none, 0⟩
  else if !exword_is_connected self then ⟨self, EXWORD_ERROR_NOT_FOUND, none, 0⟩
  else if !o.unicode_ok then ⟨self, EXWORD_ERROR_OTHER, none, 0⟩
  else if !o.obj_ok then ⟨self, EXWORD_ERROR_NO_MEM, none, 0⟩
  else
    let r := obex_to_exword_error (log self (io_event.obex_request OBEX_CMD_GET)) o.rsp o.disc_obj_ok
    if o.rsp = OBEX_RSP_SUCCESS ∨ o.rsp = OBEX_RSP_SUCCESS + 0x80 then
      ⟨r.self, r.ret, some (o.hdr_body.take o.hdr_length), o.hdr_length⟩
    else ⟨r.self, r.ret, none, 0⟩

/-- `exword_remove_file`: PUT `_Remove`; the file name is converted only on request. -/
def exword_remove_file (self : exword_t) (_filename : List Char) (convert_to_unicode : Bool)
    (o : outcome) : cmd_result :=
  if self.status &&& 0x06 ≠ 0 then ⟨self, EXWORD_ERROR_INTERNAL⟩
  else if !exword_is_connected self then ⟨self, EXWORD_ERROR_NOT_FOUND⟩
  else if convert_to_unicode && !o.unicode_ok then ⟨self, EXWORD_ERROR_OTHER⟩
  else if !o.obj_ok then ⟨self, EXWORD_ERROR_NO_MEM⟩
  else obex_to_exword_error (log self (io_event.obex_request OBEX_CMD_PUT)) o.rsp o.disc_obj_ok

/-- `exword_sd_format`: PUT `_SdFormat`. -/
def exword_sd_format (self : exword_t) (o : outcome) : cmd_result :=
  if self.status &&& 0x06 ≠ 0 then ⟨self, EXWORD_ERROR_INTERNAL⟩
  else if !exword_is_connected self then ⟨self, EXWORD_ERROR_NOT_FOUND⟩
  else if !o.obj_ok then ⟨self, EXWORD_ERROR_NO_MEM⟩
  else obex_to_exword_error (log self (io_event.obex_request OBEX_CMD_PUT)) o.rsp o.disc_obj_ok

/-- `exword_setpath`: SETPATH with the create-if-missing flag. -/
def exword_setpath (self : exword_t) (_path : List Char) (_mkdir : Bool) (o : outcome) : cmd_result :=
  if self.status &&& 0x06 ≠ 0 then ⟨self, EXWORD_ERROR_INTERNAL⟩
  else if !exword_is_connected self then ⟨self, EXWORD_ERROR_NOT_FOUND⟩
  else if !o.unicode_ok then ⟨self, EXWORD_ERROR_OTHER⟩
  else if !o.obj_ok then ⟨self, EXWORD_ERROR_NO_MEM⟩
  else obex_to_exword_error (log self (io_event.obex_request OBEX_CMD_SETPATH)) o.rsp o.disc_obj_ok

/-- `exword_get_model`: GET `_Model` (handle and return value). -/
def exword_get_model (self : exword_t) (o : outcome) : cmd_result :=
  if self.status &&& 0x06 ≠ 0 then ⟨self, EXWORD_ERROR_INTERNAL⟩
  else if !exword_is_connected self then ⟨self, EXWORD_ERROR_NOT_FOUND⟩
  else if !o.obj_ok then ⟨self, EXWORD_ERROR_NO_MEM⟩
  else obex_to_exword_error (log self (io_event.obex_request OBEX_CMD_GET)) o.rsp o.disc_obj_ok

/-- `exword_get_capacity`: GET `_Cap` (handle and return value). -/
def exword_get_capacity (self : exword_t) (o : outcome) : cmd_result :=
  if self.status &&& 0x06 ≠ 0 then ⟨self, EXWORD_ERROR_INTERNAL⟩
  else if !exword_is_connected self then ⟨self, EXWORD_ERROR_NOT_FOUND⟩
  else if !o.obj_ok then ⟨self, EXWORD_ERROR_NO_MEM⟩
  else obex_to_exword_error (log self (io_event.obex_request OBEX_CMD_GET)) o.rsp o.disc_obj_ok

/-- `exword_list`: GET `_List` (handle and return value). -/
def exword_list (self : exword_t) (o : outcome) : cmd_result :=
  if self.status &&& 0x06 ≠ 0 then ⟨self, EXWORD_ERROR_INTERNAL⟩
  else if !exword_is_connected self then ⟨self, EXWORD_ERROR_NOT_FOUND⟩
  else if !o.obj_ok then ⟨self, EXWORD_ERROR_NO_MEM⟩
  else obex_to_exword_error (log self (io_event.obex_request OBEX_CMD_GET)) o.rsp o.disc_obj_ok

/-- `exword_userid`: PUT `_UserId`. -/
def exword_userid (self : exword_t) (o : outcome) : cmd_result :=
  if self.status &&& 0x06 ≠ 0 then ⟨self, EXWORD_ERROR_INTERNAL⟩
  else if !exword_is_connected self then ⟨self, EXWORD_ERROR_NOT_FOUND⟩
  else if !o.obj_ok then ⟨self, EXWORD_ERROR_NO_MEM⟩
  else obex_to_exword_error (log self (io_event.obex_request OBEX_CMD_PUT)) o.rsp o.disc_obj_ok

/-- `exword_cryptkey`: GET `_CryptKey` (handle and return value). -/
def exword_cryptkey (self : exword_t) (o : outcome) : cmd_result :=
  if self.status &&& 0x06 ≠ 0 then ⟨self, EXWORD_ERROR_INTERNAL⟩
  else if !exword_is_connected self then ⟨self, EXWORD_ERROR_NOT_FOUND⟩
  else if !o.obj_ok then ⟨self, EXWORD_ERROR_NO_MEM⟩
  else obex_to_exword_error (log self (io_event.obex_request OBEX_CMD_GET)) o.rsp o.disc_obj_ok

/-- `exword_cname`: PUT `_CName`; the body buffer is allocated after the object. -/
def exword_cname (self : exword_t) (_name : List Char) (_dir : List Char) (o : outcome) : cmd_result :=
  if self.status &&& 0x06 ≠ 0 then ⟨self, EXWORD_ERROR_INTERNAL⟩
  else if !exword_is_connected self then ⟨self, EXWORD_ERROR_NOT_FOUND⟩
  else if !o.obj_ok then ⟨self, EXWORD_ERROR_NO_MEM⟩
  else if !o.buf_ok then ⟨self, EXWORD_ERROR_NO_MEM⟩
  else obex_to_exword_error (log self (io_event.obex_request OBEX_CMD_PUT)) o.rsp o.disc_obj_ok

/-- `exword_unlock`: PUT `_Unlock`. -/
def exword_unlock (self : exword_t) (o : outcome) : cmd_result :=
  if self.status &&& 0x06 ≠ 0 then ⟨self, EXWORD_ERROR_INTERNAL⟩
  else if !exword_is_connected self then ⟨self, EXWORD_ERROR_NOT_FOUND⟩
  else if !o.obj_ok then ⟨self, EXWORD_ERROR_NO_MEM⟩
  else obex_to_exword_error (log self (io_event.obex_request OBEX_CMD_PUT)) o.rsp o.disc_obj_ok

/-- `exword_lock`: PUT `_Lock`. -/
def exword_lock (self : exword_t) (o : outcome) : cmd_result :=
  if self.status &&& 0x06 ≠ 0 then ⟨self, EXWORD_ERROR_INTERNAL⟩
  else if !exword_is_connected self then ⟨self, EXWORD_ERROR_NOT_FOUND⟩
  else if !o.obj_ok then ⟨self, EXWORD_ERROR_NO_MEM⟩
  else obex_to_exword_error (log self (io_event.obex_request OBEX_CMD_PUT)) o.rsp o.disc_obj_ok

/-- `exword_authchallenge`: PUT `_AuthChallenge`. -/
def exword_authchallenge (self : exword_t) (_challenge : List Nat) (o : outcome) : cmd_result :=
  if self.status &&& 0x06 ≠ 0 then ⟨self, EXWORD_ERROR_INTERNAL⟩
  else if !exword_is_connected self then ⟨self, EXWORD_ERROR_NOT_FOUND⟩
  else if !o.obj_ok then ⟨self, EXWORD_ERROR_NO_MEM⟩
  else obex_to_exword_error (log self (io_event.obex_request OBEX_CMD_PUT)) o.rsp o.disc_obj_ok

/-- `exword_authinfo`: GET `_AuthInfo` (handle and return value). -/
def exword_authinfo (self : exword_t) (o : outcome) : cmd_result :=
  if self.status &&& 0x06 ≠ 0 then ⟨self, EXWORD_ERROR_INTERNAL⟩
  else if !exword_is_connected self then ⟨self, EXWORD_ERROR_NOT_FOUND⟩
  else if !o.obj_ok then ⟨self, EXWORD_ERROR_NO_MEM⟩
  else obex_to_exword_error (log self (io_event.obex_request OBEX_CMD_GET)) o.rsp o.disc_obj_ok

/-- The fifteen device commands with their arguments. -/
inductive command where
  | send_file (filename : List Char) (buffer : List Nat)
  | get_file (filename : List Char)
  | remove_file (filename : List Char) (convert_to_unicode : Bool)
  | sd_format
  | setpath (path : List Char) (mkdir : Bool)
  | get_model
  | get_capacity
  | list
  | userid
  | cryptkey
  | cname (name : List Char) (dir : List Char)
  | unlock
  | lock
  | authchallenge (challenge : List Nat)
  | authinfo
  deriving DecidableEq

/-- Issue one device command. -/
def run_command (self : exword_t) (c : command) (o : outcome) : cmd_result :=
  match c with
  | .send_file f b => exword_send_file self f b o
  | .get_file f => let r := exword_get_file self f o; ⟨r.self, r.ret⟩
  | .remove_file f u => exword_remove_file self f u o
  | .sd_format => exword_sd_format self o
  | .setpath p m => exword_setpath self p m o
  | .get_model => exword_get_model self o
  | .get_capacity => exword_get_capacity self o
  | .list => exword_list self o
  | .userid => exword_userid self o
  | .cryptkey => exword_cryptkey self o
  | .cname n d => exword_cname self n d o
  | .unlock => exword_unlock self o
  | .lock => exword_lock self o
  | .authchallenge c => exword_authchallenge self c o
  | .authinfo => exword_authinfo self o

/-- One call of the API on a handle, with the answers of the outside world. -/
inductive api_call where
  | connect (options : Nat) (o : connect_outcome)
  | disconnect (obj_ok : Bool)
  | cmd (c : command) (o : outcome)
  | handle_interrupt (st : libusb_transfer_status)
  | poll_disconnect (pumped : List libusb_transfer_status) (obj_ok : Bool)
  | register_disconnect_callback (disconnect : Bool)
  deriving DecidableEq

/-- The handle after one API call. -/
def step (self : exword_t) : api_call → exword_t
  | .connect options o => (exword_connect self options o).self
  | .disconnect obj_ok => (exword_disconnect self obj_ok).self
  | .cmd c o => (run_command self c o).self
  | .handle_interrupt st => exword_handle_interrupt self st
  | .poll_disconnect pumped obj_ok => exword_poll_disconnect self pumped obj_ok
  | .register_disconnect_callback disconnect =>
    exword_register_disconnect_callback self disconnect

/-- The handle after a sequence of API calls. -/
def run (self : exword_t) (calls : List api_call) : exword_t :=
  calls.foldl step self

/-- A handle that the API can produce: `exword_init` followed by any calls. -/
def reachable (self : exword_t) : Prop :=
  ∃ calls : List api_call, run exword_init calls = self

/-- The handle after a sequence of device commands. -/
def run_commands (self : exword_t) (cs : List (command × outcome)) : exword_t :=
  cs.foldl (fun h co => (run_command h co.1 co.2).self) self

/-! ## Content engine: selective encryption on transfer -/

/-- `strrchr(s, c)` for a character `c` other than NUL: the tail of `s` that starts
at the last occurrence of `c`, or `none` (NULL) when `c` does not occur. -/
def strrchr : List Char → Char → Option (List Char)
  | [], _ => none
  | x :: xs, c =>
    match strrchr xs c with
    | some r => some r
    | none => if x = c then some (x :: xs) else none

/-- `strcmp(a, b) == 0` on NUL-terminated strings. -/
def strcmp_eq (a b : List Char) : Bool :=
  decide (a = b)

/-- Modelled from the spec: `PATH_SEP` of `util.h` (not under src); the host paths of
the spec (`<data_dir>/users.dat`) are joined with a slash. -/
def PATH_SEP : List Char := ['/']

/-- Modelled from the spec: `mkpath(sep, …parts)` of `util.c` (not under src) joins the
parts with the given separator. -/
def mkpath (separator : List Char) (base : List Char) (parts : List (List Char)) : List Char :=
  parts.foldl (fun path part => path ++ separator ++ part) base

/-- Modelled from the spec: `crypt_data(bytes, len, xor_stream)` of `util.c` (not under
src) XORs in place with the 16-byte stream, repeating; `i` is the offset of the
first byte of `data` in the buffer. -/
def crypt_from (key : List Nat) : Nat → List Nat → List Nat
  | _, [] => []
  | i, b :: bs => (b ^^^ key.getD (i % 16) 0) :: crypt_from key (i + 1) bs

/-- Modelled from the spec: `crypt_data` of `util.c` (not under src) on a whole buffer. -/
def crypt_data (data : List Nat) (key : List Nat) : List Nat :=
  crypt_from key 0 data

/-- The condition of `_upload_file` (lines 97-103) on the joined path. -/
def upload_selects (filename : List Char) : Bool :=
  match strrchr filename '.' with
  | none => false
  | some ext =>
    strcmp_eq ext ".txt".toList || strcmp_eq ext ".bmp".toList || strcmp_eq ext ".htm".toList ||
    strcmp_eq ext ".TXT".toList || strcmp_eq ext ".BMP".toList || strcmp_eq ext ".HTM".toList

/-- The condition of `_download_file` (lines 118, 124-129) on the joined path. -/
def download_selects (filename : List Char) : Bool :=
  match strrchr filename '.' with
  | none => false
  | some ext =>
    strcmp_eq ext ".htm".toList || strcmp_eq ext ".bmp".toList || strcmp_eq ext ".txt".toList ||
    strcmp_eq ext ".TXT".toList || strcmp_eq ext ".BMP".toList || strcmp_eq ext ".HTM".toList

/-- What `_upload_file` did: the handle afterwards, the body passed to
`exword_send_file` (`none` when the local file could not be read) and the return
value. -/
structure upload_result where
  self : exword_t
  sent : Option (List Nat)
  ret : Nat
  deriving DecidableEq

/-- `_upload_file`; `file` is what `read_file` finds at the joined path (`none` when
it fails). -/
def _upload_file (device : exword_t) (dir : List Char) (name : List Char) (key : List Nat)
    (file : Option (List Nat)) (o : outcome) : upload_result :=
  let filename := mkpath PATH_SEP dir [name]
  match file with
  | none => ⟨device, none, 0⟩
  | some buffer =>
    let buffer1 := if upload_selects filename then crypt_data buffer key else buffer
    let r := exword_send_file device name buffer1 o
    ⟨r.self, some buffer1, if r.ret = EXWORD_SUCCESS then 1 else 0⟩

/-- What `_download_file` did: the handle afterwards, the bytes passed to
`write_file` (`none` when the download failed) and the return value. -/
structure download_result where
  self : exword_t
  written : Option (List Nat)
  ret : Nat
  deriving DecidableEq

/-- `_download_file`; `write_rsp` is the value returned by `write_file`. -/
def _download_file (device : exword_t) (dir : List Char) (name : List Char) (key : List Nat)
    (o : outcome) (write_rsp : Int) : download_result :=
  let filename := mkpath PATH_SEP dir [name]
  let g := exword_get_file device name o
  if g.ret ≠ EXWORD_SUCCESS then ⟨g.self, none, 0⟩
  else
    let buffer := g.buffer.getD []
    let buffer1 := if download_selects filename then crypt_data buffer key else buffer
    ⟨g.self, some buffer1, if write_rsp = (EXWORD_SUCCESS : Int) then 1 else 0⟩

/-- The extension of a name: the text from the last `.` onwards. -/
def extension (name : List Char) : Option (List Char) :=
  strrchr name '.'

/-- Case-insensitive equality of two strings (`strcasecmp(a, b) == 0`). -/
def strcasecmp_eq (a b : List Char) : Bool :=
  decide (a.map Char.toLower = b.map Char.toLower)

/-- The policy in the words of the spec: the extension, compared without regard to
case, is one of `.txt`, `.bmp`, `.htm`. -/
def spec_selects (name : List Char) : Bool :=
  match extension name with
  | none => false
  | some ext =>
    strcasecmp_eq ext ".txt".toList || strcasecmp_eq ext ".bmp".toList ||
    strcasecmp_eq ext ".htm".toList

/-- The policy the code implements: the extension is spelled all lower-case or all
upper-case. -/
def exact_selects (name : List Char) : Bool :=
  match extension name with
  | none => false
  | some ext =>
    decide (ext ∈ [".txt".toList, ".bmp".toList, ".htm".toList,
                   ".TXT".toList, ".BMP".toList, ".HTM".toList])

/-! ## Content engine: the admini scan -/

/-- The byte at address `buffer + k`: inside the allocation the byte of the file,
past its end whatever the heap holds there (`heap j` is the byte `j` positions
after the end). -/
def peek (buffer : List Nat) (heap : Nat → Nat) (k : Nat) : Nat :=
  if k < buffer.length then buffer.getD k 0 else heap (k - buffer.length)

/-- `strncmp(buffer + i, id, n) == 0`, with `k` characters already compared equal:
compare byte by byte, stop with "equal" at a common NUL or after `n` characters.
The character of `id` at its length is the terminating NUL. -/
def strncmp_from (buffer : List Nat) (heap : Nat → Nat) (i : Nat) (id : List Nat) :
    Nat → Nat → Bool
  | 0, _ => true
  | n + 1, k =>
    let c1 := peek buffer heap (i + k)
    let c2 := id.getD k 0
    if c1 ≠ c2 then false
    else if c1 = 0 then true
    else strncmp_from buffer heap i id n (k + 1)

/-- `strncmp(buffer + i, id, 32) == 0`. -/
def strncmp32_eq (buffer : List Nat) (heap : Nat → Nat) (i : Nat) (id : List Nat) : Bool :=
  strncmp_from buffer heap i id 32 0

/-- The loop `for (i = 0; i < len; i += 180)` of `_find` from index `i` on, with at
most `fuel` iterations left: the value of `i` when the loop is left. -/
def find_scan (buffer : List Nat) (heap : Nat → Nat) (id : List Nat) (len : Nat) :
    Nat → Nat → Nat
  | 0, i => i
  | fuel + 1, i =>
    if i < len then
      if strncmp32_eq buffer heap i id then i
      else find_scan buffer heap id len fuel (i + 180)
    else i

/-- `memcpy(ini, buffer + i, 180)`. -/
def memcpy180 (buffer : List Nat) (heap : Nat → Nat) (i : Nat) : List Nat :=
  (List.range 180).map (fun k => peek buffer heap (i + k))

/-- What `_find` hands back: the return value, the offset the descriptor was copied
from and the descriptor (`none` when nothing was copied). -/
structure find_result where
  ret : Nat
  offset : Nat
  ini : Option (List Nat)

/-- `_find` after `exword_setpath`, whose result it ignores: `rsp` is the value
returned by `_read_admini` and `buffer` the file it read (`len` is its length).
The loop is given `len + 1` iterations, more than it can use. -/
def _find (rsp : Int) (buffer : List Nat) (heap : Nat → Nat) (id : List Nat) : find_result :=
  if rsp < 0 then ⟨0, 0, none⟩
  else
    let len := buffer.length
    let i := find_scan buffer heap id len (len + 1) 0
    if i ≥ len then ⟨0, i, none⟩
    else ⟨1, i, some (memcpy180 buffer heap i)⟩

/-- The id as the first 32 bytes of a descriptor hold it: padded with NUL bytes. -/
def pad32 (id : List Nat) : List Nat :=
  id ++ List.replicate (32 - id.length) 0

/-- The first 32 bytes of the record with index `j`. -/
def record_id (buffer : List Nat) (j : Nat) : List Nat :=
  (buffer.drop (180 * j)).take 32

/-- The record with index `j`. -/
def record (buffer : List Nat) (j : Nat) : List Nat :=
  (buffer.drop (180 * j)).take 180

/-- An id field is NUL-padded: after its first NUL byte only NUL bytes follow. -/
def nul_padded (field : List Nat) : Prop :=
  ∀ b, b < field.length → ∀ a, a ≤ b → field.getD a 0 = 0 → field.getD b 0 = 0

instance (field : List Nat) : Decidable (nul_padded field) := by
  unfold nul_padded; infer_instance

/-- One whole record whose id field holds `AB`, a NUL, and then the byte `X`. -/
def admini_unpadded : List Nat :=
  [65, 66, 0, 88] ++ List.replicate 176 0

/-- Two whole records with NUL-padded ids `X` and `AB`. -/
def admini_two : List Nat :=
  (88 :: List.replicate 179 0) ++ ([65, 66] ++ List.replicate 178 0)

/-- One whole record with id `X`, followed by the three bytes `AB` and NUL of a
record that was cut off. -/
def admini_partial : List Nat :=
  (88 :: List.replicate 179 0) ++ [65, 66, 0]

/-! ## Auxiliary notions used by the statements -/

/-- The values the status takes on a handle made by `exword_init`: disconnected
without reason (0x80), connected (0x00), connected with the unplugged reason
latched (0x04), disconnected with reason normal, error or unplugged. -/
def valid_status (s : Nat) : Prop :=
  s = 0x80 ∨ s = 0x00 ∨ s = 0x04 ∨ s = 0x81 ∨ s = 0x82 ∨ s = 0x84

instance : DecidablePred valid_status := fun s => by
  unfold valid_status; infer_instance

/-- The transport steps of `exword_connect` all succeed: transfer allocation,
`obex_init`, object creation, and the CONNECT request answered with
`OBEX_RSP_SUCCESS`. -/
def transport_ok (o : connect_outcome) : Prop :=
  o.alloc_ok = true ∧ o.init_ok = true ∧ o.obj_ok = true ∧ o.rsp = OBEX_RSP_SUCCESS

instance (o : connect_outcome) : Decidable (transport_ok o) := by
  unfold transport_ok; infer_instance

/-- A call that can reinitialise the handle: `exword_connect` whose transport
steps all succeed. -/
def is_reinit : api_call → Bool
  | .connect _ o => decide (transport_ok o)
  | _ => false

/-- The call is `exword_poll_disconnect`. -/
def is_poll : api_call → Bool
  | .poll_disconnect _ _ => true
  | _ => false

/-- The call is `exword_handle_interrupt`. -/
def is_interrupt : api_call → Bool
  | .handle_interrupt _ => true
  | _ => false

/-- The call is `exword_handle_interrupt` with one of the two completion statuses
that latch the unplugged reason: NO_DEVICE or ERROR. -/
def is_unplug : api_call → Bool
  | .handle_interrupt libusb_transfer_status.NO_DEVICE => true
  | .handle_interrupt libusb_transfer_status.ERROR => true
  | _ => false

/-- Whether an unplug completion stands behind the last `exword_poll_disconnect` of
the calls; `latched` is the answer for the empty list. -/
def latched_after (latched : Bool) : List api_call → Bool
  | [] => latched
  | a :: rest => latched_after (if is_poll a then false else latched || is_unplug a) rest

/-- Whether, among the calls, an unplug completion came after the last
`exword_poll_disconnect`. -/
def unplugged_since_poll (calls : List api_call) : Bool :=
  latched_after false calls

/-- A handle connected by `exword_init` and a successful `exword_connect`. -/
def connected_handle : exword_t :=
  (exword_connect exword_init 0 ⟨true, true, true, 0x20⟩).self

/-- An answer of the device: every allocation succeeds, `obex_request` returns
`rsp`, no headers. -/
def answer (rsp : Int) : outcome :=
  ⟨true, true, true, rsp, 0, [], true⟩

/-- The valid status values with one of the fatal bits `0x06`. -/
def fatal_status (s : Nat) : Prop :=
  s = 0x04 ∨ s = 0x82 ∨ s = 0x84

instance : DecidablePred fatal_status := fun s => by
  unfold fatal_status; infer_instance

/-- The status values reached when `exword_handle_interrupt` runs only inside the
event pump of `exword_poll_disconnect`. -/
def quiet_status (s : Nat) : Prop :=
  s = 0x80 ∨ s = 0x00 ∨ s = 0x81 ∨ s = 0x82

instance : DecidablePred quiet_status := fun s => by
  unfold quiet_status; infer_instance

/-! ## Content engine: reading the admini -/

/-- `admini_list`: the ten names tried in turn (the C array ends with NULL). -/
def admini_list : List (List Char) :=
  ["admini.inf".toList, "adminikr.inf".toList, "adminicn.inf".toList, "adminiin.inf".toList,
   "adminiit.inf".toList, "adminide.inf".toList, "adminies.inf".toList, "adminifr.inf".toList,
   "adminiru.inf".toList, "sound.inf".toList]

/-- What `_read_admini` hands back: the handle afterwards, the return value, the
out-parameters `*buffer` (`none` for NULL) and `*length`, and the names it passed
to `exword_get_file`, oldest first. -/
structure read_admini_result where
  self : exword_t
  ret : Int
  buffer : Option (List Nat)
  length : Nat
  requested : List (List Char)
  deriving DecidableEq

/-- The loop of `_read_admini` from index `i` on, `names` being the entries of
`admini_list` from `i` on; `os k` answers the request for the name with index `k`.
`length` is the value the last call left in `*length`, `requested` the names
requested so far. -/
def _read_admini_from (os : Nat → outcome) :
    List (List Char) → Nat → exword_t → Nat → List (List Char) → read_admini_result
  | [], _, device, length, requested => ⟨device, -1, none, length, requested⟩
  | name :: rest, i, device, _, requested =>
    let g := exword_get_file device name (os i)
    if g.ret = EXWORD_SUCCESS ∧ g.len > 0 then
      ⟨g.self, (i : Int), g.buffer, g.len, requested ++ [name]⟩
    else
      _read_admini_from os rest (i + 1) g.self g.len (requested ++ [name])

/-- `_read_admini`. -/
def _read_admini (device : exword_t) (os : Nat → outcome) : read_admini_result :=
  _read_admini_from os admini_list 0 device 0 []

/-- The handle on which `_read_admini` makes its request number `i`, when no earlier
request ended the loop. -/
def admini_device (device : exword_t) (os : Nat → outcome) : Nat → exword_t
  | 0 => device
  | i + 1 =>
    (exword_get_file (admini_device device os i) (admini_list.getD i []) (os i)).self

/-- The request number `i` of `_read_admini`. -/
def admini_attempt (device : exword_t) (os : Nat → outcome) (i : Nat) : get_file_result :=
  exword_get_file (admini_device device os i) (admini_list.getD i []) (os i)

/-- The request number `i` returns success with a length above zero. -/
def admini_qualifies (device : exword_t) (os : Nat → outcome) (i : Nat) : Prop :=
  (admini_attempt device os i).ret = EXWORD_SUCCESS ∧ (admini_attempt device os i).len > 0

instance (device : exword_t) (os : Nat → outcome) (i : Nat) :
    Decidable (admini_qualifies device os i) := by
  unfold admini_qualifies; infer_instance

/-! ## Content engine: the CryptKey input and `content_remove` -/

/-- `key1`, the fixed master key of `content.c`. -/
def key1 : List Nat :=
  [0x42, 0x72, 0xb7, 0xb5, 0x9e, 0x30, 0x83, 0x45, 0xc3, 0xb5, 0x41, 0x53, 0x71, 0xc4, 0x95, 0x00]

/-- Modelled from the spec: `exword_cryptkey_t` of `exword.h` (not under src), the
CryptKey exchange block with the two input half-keys `blk1` (16 bytes) and `blk2`
(16 bytes), the output key (16 bytes) and the derived xor stream (16 bytes). -/
structure exword_cryptkey_t where
  blk1 : List Nat
  blk2 : List Nat
  key : List Nat
  xorkey : List Nat
  deriving DecidableEq

/-- `memcpy(dst + off, src, n)` with `n` the length of `src`, inside the array `dst`. -/
def memcpy_at (dst : List Nat) (off : Nat) (src : List Nat) : List Nat :=
  dst.take off ++ src ++ dst.drop (off + src.length)

/-- The first statements of `content_remove` (lines 461-465) and of `content_install`
(lines 494-498): `memset` of the block, then four `memcpy` from the master key. -/
def cryptkey_input (key : List Nat) : exword_cryptkey_t :=
  let z : List Nat := List.replicate 16 0
  let blk1a := memcpy_at z 0 (key.take 2)
  let blk1b := memcpy_at blk1a 10 ((key.drop 10).take 2)
  let blk2a := memcpy_at z 0 ((key.drop 2).take 8)
  let blk2b := memcpy_at blk2a 8 ((key.drop 12).take 4)
  ⟨blk1b, blk2b, z, z⟩

/-- `exword_cryptkey` on the block: when the command gets as far as its request, the
first 12 bytes of `key` come from the response body (on a SUCCESS response), the
last four from `blk2 + 8`, and `xorkey` is `get_xor_key` of the key.  `get_xor_key`
is a function of `util.c`, which is not under src. -/
def cryptkey_output (get_xor_key : List Nat → List Nat) (self : exword_t)
    (ck : exword_cryptkey_t) (o : outcome) : exword_cryptkey_t :=
  if self.status &&& 0x06 ≠ 0 then ck
  else if !exword_is_connected self then ck
  else if !o.obj_ok then ck
  else
    let key12 :=
      if o.rsp = OBEX_RSP_SUCCESS ∨ o.rsp = OBEX_RSP_SUCCESS + 0x80 then
        memcpy_at ck.key 0 (o.hdr_body.take 12)
      else ck.key
    let key16 := memcpy_at key12 12 ((ck.blk2.drop 8).take 4)
    { ck with key := key16, xorkey := get_xor_key key16 }

/-- Modelled from the spec: `admini_t` of `main.h` (not under src), a 180-byte record
holding the 32-byte content id, the display name and the 16-byte master key; the
three fields are taken to lie in this order, the key in the last 16 bytes. -/
def admini_key (ini : List Nat) : List Nat :=
  (ini.drop 164).take 16

/-- Modelled from the spec: the display name of an `admini_t`, the C string that
starts behind the 32-byte id. -/
def admini_name (ini : List Nat) : List Char :=
  (((ini.drop 32).take 132).takeWhile (fun b => b != 0)).map Char.ofNat

/-- What `_find` hands back when it runs on a device: the handle afterwards, the
commands it issued with their return values, and the result of the scan. -/
structure find_device_result where
  self : exword_t
  steps : List (command × Nat)
  found : find_result

/-- `_find` on a device: `exword_setpath` to the root (its result is ignored),
`_read_admini`, then the scan of the buffer. -/
def _find_device (device : exword_t) (root : List Char) (id : List Char)
    (o_setpath : outcome) (o_admini : Nat → outcome) (heap : Nat → Nat) : find_device_result :=
  let r := exword_setpath device root false o_setpath
  let a := _read_admini r.self o_admini
  ⟨a.self,
   (command.setpath root false, r.ret) ::
     (List.range a.requested.length).map
       (fun k => (command.get_file (admini_list.getD k []), (admini_attempt r.self o_admini k).ret)),
   _find a.ret (a.buffer.getD []) heap (id.map Char.toNat)⟩

/-- The answers of the outside world to one run of `content_remove`. -/
structure remove_env where
  o_setpath : outcome
  o_admini : Nat → outcome
  heap : Nat → Nat
  o_unlock : outcome
  o_cname : outcome
  o_cryptkey : outcome
  o_remove : outcome
  o_lock : outcome

/-- What a workflow of the content engine did: the handle afterwards, the return
value, the device commands it issued with their return values, oldest first, and
the CryptKey block it built (`none` when it returned before building one). -/
structure workflow_result where
  self : exword_t
  ret : Nat
  steps : List (command × Nat)
  ck : Option exword_cryptkey_t

/-- `content_remove`. -/
def content_remove (device : exword_t) (root : List Char) (id : List Char)
    (env : remove_env) : workflow_result :=
  let f := _find_device device root id env.o_setpath env.o_admini env.heap
  if f.found.ret = 0 then ⟨f.self, 0, f.steps, none⟩
  else
    let info := f.found.ini.getD []
    let ck := cryptkey_input (admini_key info)
    let r1 := exword_unlock f.self env.o_unlock
    let r2 := exword_cname r1.self (admini_name info) id env.o_cname
    let r3 := exword_cryptkey r2.self env.o_cryptkey
    let rsp3 := r1.ret ||| r2.ret ||| r3.ret
    let steps3 := f.steps ++ [(command.unlock, r1.ret),
      (command.cname (admini_name info) id, r2.ret), (command.cryptkey, r3.ret)]
    if rsp3 = EXWORD_SUCCESS then
      let r4 := exword_remove_file r3.self id false env.o_remove
      let r5 := exword_lock r4.self env.o_lock
      ⟨r5.self, if rsp3 ||| r4.ret ||| r5.ret = EXWORD_SUCCESS then 1 else 0,
        steps3 ++ [(command.remove_file id false, r4.ret), (command.lock, r5.ret)], some ck⟩
    else
      let r5 := exword_lock r3.self env.o_lock
      ⟨r5.self, if rsp3 ||| r5.ret = EXWORD_SUCCESS then 1 else 0,
        steps3 ++ [(command.lock, r5.ret)], some ck⟩

/-- The steps of a workflow that follow those of `_find`. -/
def workflow_steps (device : exword_t) (root : List Char) (id : List Char)
    (o_setpath : outcome) (o_admini : Nat → outcome) (heap : Nat → Nat)
    (r : workflow_result) : List (command × Nat) :=
  r.steps.drop (_find_device device root id o_setpath o_admini heap).steps.length

/-! ## Content engine: `content_install` -/

/-- The operating mode `s->mode`. -/
inductive exword_mode where
  | LIBRARY
  | TEXT
  | CD
  deriving DecidableEq

/-- One entry of the local source directory as `readdir` returns it: its name,
whether `stat` succeeds and reports a regular file, and what `open` and `read_file`
find (`none` when the file cannot be opened).  The size `st_size` reported for a
regular file is the length of its content. -/
structure dir_entry where
  d_name : List Char
  regular : Bool
  data : Option (List Nat)
  deriving DecidableEq

/-- Conversion of a value to C `int`: wrap-around modulo 2^32 into the signed range. -/
def wrap32 (x : Int) : Int :=
  (x + 2 ^ 31) % 2 ^ 32 - 2 ^ 31

/-- Conversion of a C `int` to the unsigned 64-bit type of `cap.free` for the
comparison `size >= cap.free`. -/
def to_u64 (x : Int) : Nat :=
  (x % 2 ^ 64).toNat

/-- The loop of `_get_size`: `size += buf.st_size` for every entry that can be opened
and is a regular file, the sum being stored in an `int`. -/
def get_size_loop : List dir_entry → Int → Int
  | [], size => size
  | e :: es, size =>
    match e.data with
    | some d => if e.regular then get_size_loop es (wrap32 (size + d.length))
                else get_size_loop es size
    | none => get_size_loop es size

/-- `_get_size`: -1 when the directory cannot be opened (`none`). -/
def _get_size (entries : Option (List dir_entry)) : Int :=
  match entries with
  | none => -1
  | some es => get_size_loop es 0

/-- The answers of the outside world to one run of `content_install`: those to
`_find`, the local source directory (its path and its entries, `none` when
`opendir` fails), the answer to the capacity query and the free capacity it leaves
in `cap.free`, the name found by `_get_cd_name` or `_get_dict_name` (`none` for
NULL), the answers to the commands (`o_file k` for the upload of entry number
`k`), and the two helpers `is_valid_sfn` and `get_xor_key`, which are not under
src. -/
structure install_env where
  o_setpath_find : outcome
  o_admini : Nat → outcome
  heap : Nat → Nat
  dir : List Char
  entries : Option (List dir_entry)
  o_cap : outcome
  cap_free : Nat
  name : Option (List Char)
  o_unlock : outcome
  o_cname : outcome
  o_cryptkey : outcome
  o_setpath : outcome
  o_file : Nat → outcome
  o_setpath_user : outcome
  o_lock : outcome
  is_valid_sfn : List Char → Bool
  get_xor_key : List Nat → List Nat

/-- The `readdir` loop of `content_install` (lines 541-553) from entry number `i`
on: every entry with a valid short file name that is a regular file goes through
`_upload_file`; `exword_send_file` is called when the file could be read. -/
def install_files (env : install_env) (key : List Nat) :
    List dir_entry → Nat → exword_t → List (command × Nat) → exword_t × List (command × Nat)
  | [], _, device, steps => (device, steps)
  | e :: es, i, device, steps =>
    if !env.is_valid_sfn e.d_name then install_files env key es (i + 1) device steps
    else if e.regular then
      let u := _upload_file device env.dir e.d_name key e.data (env.o_file i)
      match u.sent with
      | some body =>
        install_files env key es (i + 1) u.self
          (steps ++ [(command.send_file e.d_name body,
            (exword_send_file device e.d_name body (env.o_file i)).ret)])
      | none => install_files env key es (i + 1) u.self steps
    else install_files env key es (i + 1) device steps

/-- `content_install`. -/
def content_install (device : exword_t) (mode : exword_mode) (root : List Char)
    (id : List Char) (env : install_env) : workflow_result :=
  let ck := cryptkey_input key1
  let f := _find_device device root id env.o_setpath_find env.o_admini env.heap
  if f.found.ret ≠ 0 then ⟨f.self, 0, f.steps, some ck⟩
  else
    match env.entries with
    | none => ⟨f.self, 0, f.steps, some ck⟩
    | some entries =>
      let size := _get_size (some entries)
      let c := exword_get_capacity f.self env.o_cap
      let steps1 := f.steps ++ [(command.get_capacity, c.ret)]
      if c.ret ≠ EXWORD_SUCCESS ∨ to_u64 size ≥ env.cap_free ∨ size < 0 then
        ⟨c.self, 0, steps1, some ck⟩
      else
        match env.name with
        | none => ⟨c.self, 0, steps1, some ck⟩
        | some name =>
          let r1 := exword_unlock c.self env.o_unlock
          let r2 := exword_cname r1.self name id env.o_cname
          let r3 := exword_cryptkey r2.self env.o_cryptkey
          let ck3 := cryptkey_output env.get_xor_key r2.self ck env.o_cryptkey
          let rsp3 := r1.ret ||| r2.ret ||| r3.ret
          let steps3 := steps1 ++ [(command.unlock, r1.ret),
            (command.cname name id, r2.ret), (command.cryptkey, r3.ret)]
          if rsp3 = EXWORD_SUCCESS then
            let path :=
              if mode = exword_mode.CD then mkpath ['\\'] root [id]
              else mkpath ['\\'] root [id, "_CONTENT".toList]
            let r4 := exword_setpath r3.self path true env.o_setpath
            let up := install_files env ck3.xorkey entries 0 r4.self
              (steps3 ++ [(command.setpath path true, r4.ret)])
            if mode = exword_mode.LIBRARY then
              let path_user := mkpath ['\\'] root [id, "_USER".toList]
              let r6 := exword_setpath up.1 path_user true env.o_setpath_user
              let r7 := exword_lock r6.self env.o_lock
              ⟨r7.self, if rsp3 ||| r7.ret = EXWORD_SUCCESS then 1 else 0,
                up.2 ++ [(command.setpath path_user true, r6.ret), (command.lock, r7.ret)],
                some ck3⟩
            else
              let r7 := exword_lock up.1 env.o_lock
              ⟨r7.self, if rsp3 ||| r7.ret = EXWORD_SUCCESS then 1 else 0,
                up.2 ++ [(command.lock, r7.ret)], some ck3⟩
          else
            let r7 := exword_lock r3.self env.o_lock
            ⟨r7.self, if rsp3 ||| r7.ret = EXWORD_SUCCESS then 1 else 0,
              steps3 ++ [(command.lock, r7.ret)], some ck3⟩

/-- The length of the body of a command: that of the buffer passed to
`exword_send_file`, zero for every other command. -/
def body_length : command → Nat
  | .send_file _ buffer => buffer.length
  | _ => 0

/-- The sum of the body lengths passed to `exword_send_file` in a list of steps. -/
def uploaded_total (steps : List (command × Nat)) : Nat :=
  (steps.map (fun s => body_length s.1)).sum

/-- The commands of a list of steps. -/
def commands_of (steps : List (command × Nat)) : List command :=
  steps.map Prod.fst

/-- The command is one of those the install workflow issues behind the capacity
check: UNLOCK, CNAME, CRYPTKEY, SETPATH or a PUT of a file. -/
def is_install_command : command → Bool
  | .unlock => true
  | .cname _ _ => true
  | .cryptkey => true
  | .setpath _ _ => true
  | .send_file _ _ => true
  | _ => false

/-! ## Content engine: the user-key store `users.dat` -/

/-- The value of a byte read through the C type `char`: where `char` is signed, the
bytes from 0x80 on are negative. -/
def char_value (char_signed : Bool) (b : Nat) : Int :=
  if char_signed && decide (128 ≤ b) then (b : Int) - 256 else (b : Int)

/-- The byte at address `buffer + k` for a signed offset `k`: inside the allocation
the byte of the file, outside whatever the memory holds there (`mem k`). -/
def peek_at (buffer : List Nat) (mem : Int → Nat) (k : Int) : Nat :=
  if 0 ≤ k ∧ k < (buffer.length : Int) then buffer.getD k.toNat 0 else mem k

/-- `strcmp(name, buffer + k) == 0`; `name` holds the characters of the C string in
front of its terminating NUL. -/
def strcmp_at (buffer : List Nat) (mem : Int → Nat) : List Nat → Int → Bool
  | [], k => peek_at buffer mem k == 0
  | c :: cs, k => peek_at buffer mem k == c && strcmp_at buffer mem cs (k + 1)

/-- How the record scan ended: `found i` at the `return` inside the loop, `absent`
when `i < length` failed, `running` when the iterations given were used up. -/
inductive scan_result where
  | found (i : Int)
  | absent
  | running
  deriving DecidableEq

/-- The loop `while (i < length)` of `_save_user_key` (lines 230-237) and of
`_load_user_key` (lines 264-271) from index `i` on, given `fuel` iterations. -/
def user_scan (char_signed : Bool) (name : List Nat) (buffer : List Nat) (mem : Int → Nat) :
    Nat → Int → scan_result
  | 0, _ => scan_result.running
  | fuel + 1, i =>
    if i < (buffer.length : Int) then
      if strcmp_at buffer mem name (i + 1) then scan_result.found i
      else user_scan char_signed name buffer mem fuel
        (i + (21 + char_value char_signed (peek_at buffer mem i)))
    else scan_result.absent

/-- What `read_file` finds at the path of `users.dat`: the bytes of the file, no
file (`errno` is ENOENT), or another I/O error. -/
inductive read_file_result where
  | ok (buffer : List Nat)
  | missing
  | failed
  deriving DecidableEq

/-- What `_save_user_key` did: its return value and the bytes passed to `write_file`
(`none` when it was not called). -/
structure save_result where
  ret : Nat
  written : Option (List Nat)
  deriving DecidableEq

/-- `_save_user_key`.  `dir_ok` is false when `get_data_dir` returns NULL, `name`
holds the characters of the name in front of its NUL, `key` the 20 bytes of the
key, `write_ret` is the value returned by `write_file`; the result is `none` when
the scan has not ended within `fuel` iterations.  After a failed read of a missing
file the buffer is empty (Modelled from the spec: reading a missing file is not an
error; `read_file` is not under src).  `buffer[length] = str_len` stores the `int`
in a `char`, which keeps its low 8 bits. -/
def _save_user_key (char_signed : Bool) (dir_ok : Bool) (file : read_file_result)
    (mem : Int → Nat) (name : List Nat) (key : List Nat) (write_ret : Int) (fuel : Nat) :
    Option save_result :=
  if !dir_ok then some ⟨0, none⟩
  else
    match file with
    | read_file_result.failed => some ⟨0, none⟩
    | file =>
      let buffer := match file with
        | read_file_result.ok b => b
        | _ => []
      match user_scan char_signed name buffer mem fuel 0 with
      | scan_result.running => none
      | scan_result.found _ => some ⟨1, none⟩
      | scan_result.absent =>
        let str_len := name.length + 1
        some ⟨if write_ret = 0 then 1 else 0,
          some (buffer ++ [str_len % 256] ++ (name ++ [0]) ++ key.take 20)⟩

/-- What `_load_user_key` did: its return value and the 20 bytes copied to `key`
(`none` when nothing was copied). -/
structure load_result where
  ret : Nat
  key : Option (List Nat)
  deriving DecidableEq

/-- `_load_user_key`; the result is `none` when the scan has not ended within `fuel`
iterations. -/
def _load_user_key (char_signed : Bool) (dir_ok : Bool) (file : read_file_result)
    (mem : Int → Nat) (name : List Nat) (fuel : Nat) : Option load_result :=
  if !dir_ok then some ⟨0, none⟩
  else
    match file with
    | read_file_result.ok buffer =>
      match user_scan char_signed name buffer mem fuel 0 with
      | scan_result.running => none
      | scan_result.found i =>
        some ⟨1, some ((List.range 20).map (fun (k : Nat) =>
          peek_at buffer mem (i + 1 + char_value char_signed (peek_at buffer mem i) + (k : Int))))⟩
      | scan_result.absent => some ⟨0, none⟩
    | _ => some ⟨0, none⟩

/-- One record of the store as the spec describes it: a name and a key. -/
structure user_record where
  name : List Nat
  key : List Nat
  deriving DecidableEq

/-- The bytes of a record as the spec lays it out: the length byte `len` (the length
of the name with its NUL), the `len` bytes of the name with its NUL, the key. -/
def encode_record (r : user_record) : List Nat :=
  [r.name.length + 1] ++ (r.name ++ [0]) ++ r.key

/-- The bytes of a store holding the records `rs` in this order. -/
def store_bytes : List user_record → List Nat
  | [] => []
  | r :: rs => encode_record r ++ store_bytes rs

/-- The length of a name with its NUL lies in the range that a `char` holds as a
positive value: up to 127 where `char` is signed, up to 255 where it is not. -/
def name_fits (char_signed : Bool) (name : List Nat) : Prop :=
  name.length + 1 < (if char_signed then 128 else 256)

instance (char_signed : Bool) (name : List Nat) : Decidable (name_fits char_signed name) := by
  unfold name_fits; infer_instance

/-- A record the scan reads as it was written: the name holds no NUL, its length fits
the length byte as `char`, the key has 20 bytes. -/
def well_formed (char_signed : Bool) (r : user_record) : Prop :=
  0 ∉ r.name ∧ name_fits char_signed r.name ∧ r.key.length = 20

instance (char_signed : Bool) (r : user_record) : Decidable (well_formed char_signed r) := by
  unfold well_formed; infer_instance

/-- The names of the records of a store are pairwise distinct. -/
def distinct_names (rs : List user_record) : Prop :=
  (rs.map user_record.name).Nodup

/-! ## Content engine: `content_reset` -/

/-- The 20 bytes of `info->challenge` after `exword_authinfo`: on a SUCCESS response
the first 20 bytes at the BODY header (the response is taken to carry it; `heap`
holds the bytes behind a shorter body), otherwise what it held before. -/
def authinfo_challenge (self : exword_t) (challenge : List Nat) (o : outcome)
    (heap : Nat → Nat) : List Nat :=
  if self.status &&& 0x06 ≠ 0 then challenge
  else if !exword_is_connected self then challenge
  else if !o.obj_ok then challenge
  else if o.rsp = OBEX_RSP_SUCCESS ∨ o.rsp = OBEX_RSP_SUCCESS + 0x80 then
    (List.range 20).map (fun (k : Nat) => peek o.hdr_body heap k)
  else challenge

/-- The answers of the outside world to one run of `content_reset`: those of the
device to the three commands, the bytes behind the BODY header, and what
`_save_user_key` meets on the host. -/
structure reset_env where
  o_setpath : outcome
  o_authinfo : outcome
  o_userid : outcome
  heap : Nat → Nat
  char_signed : Bool
  dir_ok : Bool
  file : read_file_result
  mem : Int → Nat
  write_ret : Int
  fuel : Nat

/-- What `content_reset` did: the handle afterwards, the device commands issued in
front of `content_auth` with their return values, the challenge, what
`_save_user_key` did, and the return value. -/
structure reset_result where
  self : exword_t
  steps : List (command × Nat)
  challenge : List Nat
  saved : save_result
  ret : Nat

/-- `content_reset`; `content_auth` is passed the handle, the user and the
challenge, and its handle and value are returned.  The result is `none` when the
scan of `_save_user_key` has not ended within `env.fuel` iterations. -/
def content_reset (device : exword_t) (user : List Char) (env : reset_env)
    (content_auth : exword_t → List Char → List Nat → cmd_result) : Option reset_result :=
  let r1 := exword_setpath device "\\_INTERNAL_00".toList false env.o_setpath
  let r2 := exword_authinfo r1.self env.o_authinfo
  let challenge := authinfo_challenge r1.self (List.replicate 20 0) env.o_authinfo env.heap
  let r3 := exword_userid r2.self env.o_userid
  match _save_user_key env.char_signed env.dir_ok env.file env.mem (user.map Char.toNat)
      challenge env.write_ret env.fuel with
  | none => none
  | some saved =>
    let a := content_auth r3.self user challenge
    some ⟨a.self,
      [(command.setpath "\\_INTERNAL_00".toList false, r1.ret), (command.authinfo, r2.ret),
       (command.userid, r3.ret)],
      challenge, saved, a.ret⟩

/-! ## Device commands: the body of `exword_get_model` -/

/-- Modelled from the spec: the capability bits `CAP_*` of `exword.h` (not under
src), which the spec names without their values; they are taken as distinct bits. -/
def CAP_P : Nat := 0x0001

/-- Modelled from the spec: see `CAP_P`. -/
def CAP_F : Nat := 0x0004

/-- Modelled from the spec: see `CAP_P`. -/
def CAP_C : Nat := 0x0008

/-- Modelled from the spec: see `CAP_P`. -/
def CAP_C2 : Nat := 0x0010

/-- Modelled from the spec: see `CAP_P`. -/
def CAP_C3 : Nat := 0x0020

/-- Modelled from the spec: see `CAP_P`. -/
def CAP_T : Nat := 0x0040

/-- Modelled from the spec: see `CAP_P`. -/
def CAP_SW : Nat := 0x2000

/-- Modelled from the spec: see `CAP_P`. -/
def CAP_ST : Nat := 0x4000

/-- Modelled from the spec: see `CAP_P`. -/
def CAP_EXT : Nat := 0x8000

/-- Modelled from the spec: `exword_model_t` of `exword.h` (not under src): 14 bytes
of model, 6 of sub-model, 6 of extended model, and the capabilities. -/
structure exword_model_t where
  model : List Nat
  sub_model : List Nat
  ext_model : List Nat
  capabilities : Nat
  deriving DecidableEq

/-- The bytes of a string literal. -/
def str (s : String) : List Nat :=
  s.toList.map Char.toNat

/-- The `n` bytes at `body + p`, as `memcpy` and `memcmp` read them. -/
def window (body : List Nat) (heap : Nat → Nat) (p n : Nat) : List Nat :=
  (List.range n).map (fun (k : Nat) => peek body heap (p + k))

/-- `strlen(body + p)`, given `fuel` bytes to look at (`none` when no NUL is among
them). -/
def strlen_at (body : List Nat) (heap : Nat → Nat) : Nat → Nat → Option Nat
  | 0, _ => none
  | fuel + 1, p =>
    if peek body heap p = 0 then some 0
    else (strlen_at body heap fuel (p + 1)).map (fun n => n + 1)

/-- The `if` chain of `exword_get_model` (lines 883-903) for the token at `ptr =
body + p`. -/
def model_token (body : List Nat) (heap : Nat → Nat) (model : exword_model_t) (p : Nat) :
    exword_model_t :=
  if window body heap p 2 = str "SW" then
    { model with capabilities := model.capabilities ||| CAP_SW }
  else if window body heap p 2 = str "ST" then
    { model with capabilities := model.capabilities ||| CAP_ST }
  else if window body heap p 1 = str "T" then
    { model with capabilities := model.capabilities ||| CAP_T }
  else if window body heap p 1 = str "P" then
    { model with capabilities := model.capabilities ||| CAP_P }
  else if window body heap p 1 = str "F" then
    { model with capabilities := model.capabilities ||| CAP_F }
  else if window body heap p 2 = str "CY" then
    { model with ext_model := window body heap p 6,
                 capabilities := model.capabilities ||| CAP_EXT }
  else if window body heap p 1 = str "C" then
    if model.capabilities &&& CAP_C2 ≠ 0 then
      { model with capabilities := model.capabilities ||| CAP_C3 }
    else if model.capabilities &&& CAP_C ≠ 0 then
      { model with capabilities := model.capabilities ||| CAP_C2 }
    else
      { model with capabilities := model.capabilities ||| CAP_C }
  else model

/-- The loop `while (ptr < hv.bs + hv_size)` of `exword_get_model` from `ptr = body +
p` on, given `fuel` iterations, each `strlen` being given `fuel` bytes. -/
def model_tokens (body : List Nat) (heap : Nat → Nat) (fuel : Nat) :
    Nat → Nat → exword_model_t → Option exword_model_t
  | 0, _, _ => none
  | n + 1, p, model =>
    if p < body.length then
      match strlen_at body heap fuel p with
      | none => none
      | some len => model_tokens body heap fuel n (p + len + 1) (model_token body heap model p)
    else some model

/-- What `exword_get_model` leaves in `*model`: on a SUCCESS response (final bit
masked off; the response is taken to carry the BODY header) the parsed body,
otherwise what it held.  `heap` holds the bytes behind the body; the result is
`none` when the parse has not ended within `fuel` iterations. -/
def exword_get_model_data (self : exword_t) (model : exword_model_t) (o : outcome)
    (heap : Nat → Nat) (fuel : Nat) : Option exword_model_t :=
  if self.status &&& 0x06 ≠ 0 then some model
  else if !exword_is_connected self then some model
  else if !o.obj_ok then some model
  else if o.rsp = OBEX_RSP_SUCCESS ∨ o.rsp = OBEX_RSP_SUCCESS + 0x80 then
    model_tokens o.hdr_body heap fuel fuel 23
      { model with capabilities := 0,
                   model := window o.hdr_body heap 0 14,
                   sub_model := window o.hdr_body heap 14 6 }
  else some model

/-- The body of a `_Model` response as the spec lays it out: 23 bytes in front of the
tokens, then every token followed by a NUL. -/
def model_body (front : List Nat) : List (List Nat) → List Nat
  | [] => front
  | t :: ts => model_body (front ++ (t ++ [0])) ts

/-- The token begins with the string `s`. -/
def begins_with (s : String) (t : List Nat) : Bool :=
  (str s).isPrefixOf t

/-- The number of tokens beginning with `C` but not with `CY`. -/
def c_count (tokens : List (List Nat)) : Nat :=
  (tokens.filter (fun t => begins_with "C" t && !begins_with "CY" t)).length

/-- The last token beginning with `CY`, if any. -/
def last_cy (tokens : List (List Nat)) : Option (List Nat) :=
  (tokens.filter (fun t => begins_with "CY" t)).getLast?

/-- The capability `cap` is set in `capabilities`. -/
def has_cap (capabilities cap : Nat) : Bool :=
  capabilities &&& cap != 0

/-- The effect of the `if` chain on `*model` in terms of the token `t` at `ptr`:
the same chain with "the token begins with" for each `memcmp`. -/
def token_update (t : List Nat) (model : exword_model_t) : exword_model_t :=
  if begins_with "SW" t then
    { model with capabilities := model.capabilities ||| CAP_SW }
  else if begins_with "ST" t then
    { model with capabilities := model.capabilities ||| CAP_ST }
  else if begins_with "T" t then
    { model with capabilities := model.capabilities ||| CAP_T }
  else if begins_with "P" t then
    { model with capabilities := model.capabilities ||| CAP_P }
  else if begins_with "F" t then
    { model with capabilities := model.capabilities ||| CAP_F }
  else if begins_with "CY" t then
    { model with ext_model := t.take 6,
                 capabilities := model.capabilities ||| CAP_EXT }
  else if begins_with "C" t then
    if model.capabilities &&& CAP_C2 ≠ 0 then
      { model with capabilities := model.capabilities ||| CAP_C3 }
    else if model.capabilities &&& CAP_C ≠ 0 then
      { model with capabilities := model.capabilities ||| CAP_C2 }
    else
      { model with capabilities := model.capabilities ||| CAP_C }
  else model

/-- What a list of tokens asks for: which of the named tokens occur, and the number
of `C` tokens. -/
structure cap_flags where
  sw : Bool
  st : Bool
  t : Bool
  p : Bool
  f : Bool
  ext : Bool
  n : Nat

/-- The union of the bits mapped to the flags, the `C` tokens counting up through
`CAP_C`, `CAP_C2`, `CAP_C3`. -/
def caps_of (fl : cap_flags) : Nat :=
  (if fl.sw then CAP_SW else 0) ||| (if fl.st then CAP_ST else 0) |||
  (if fl.t then CAP_T else 0) ||| (if fl.p then CAP_P else 0) |||
  (if fl.f then CAP_F else 0) ||| (if fl.ext then CAP_EXT else 0) |||
  (if 1 ≤ fl.n then CAP_C else 0) ||| (if 2 ≤ fl.n then CAP_C2 else 0) |||
  (if 3 ≤ fl.n then CAP_C3 else 0)

/-- The flags of a list of tokens. -/
def token_flags (tokens : List (List Nat)) : cap_flags :=
  { sw := tokens.any (begins_with "SW"),
    st := tokens.any (begins_with "ST"),
    t := tokens.any (begins_with "T"),
    p := tokens.any (begins_with "P"),
    f := tokens.any (begins_with "F"),
    ext := tokens.any (begins_with "CY"),
    n := c_count tokens }

/-- The flags after one more token. -/
def flag_step (t : List Nat) (fl : cap_flags) : cap_flags :=
  { sw := fl.sw || begins_with "SW" t,
    st := fl.st || begins_with "ST" t,
    t := fl.t || begins_with "T" t,
    p := fl.p || begins_with "P" t,
    f := fl.f || begins_with "F" t,
    ext := fl.ext || begins_with "CY" t,
    n := fl.n + (if begins_with "C" t && !begins_with "CY" t then 1 else 0) }

/-! ## The aggregate result of `content_install` -/

/-- The command is one of those whose result `content_install` ORs into `rsp`:
UNLOCK, CNAME, CRYPTKEY or LOCK. -/
def is_aggregated : command → Bool
  | .unlock => true
  | .cname _ _ => true
  | .cryptkey => true
  | .lock => true
  | _ => false

/-! ## Device commands: the bodies of `exword_get_capacity` and `exword_list` -/

/-- The bytes read as one big-endian number. -/
def be_value (bs : List Nat) : Nat :=
  bs.foldl (fun acc b => acc * 256 + b) 0

/-- The `n` bytes an unsigned integer `v` has in memory, lowest address first, on a
big-endian or a little-endian host. -/
def store_uint (big_endian : Bool) (n : Nat) (v : Nat) : List Nat :=
  let be := (List.range n).map (fun (k : Nat) => v / 256 ^ (n - 1 - k) % 256)
  if big_endian then be else be.reverse

/-- The unsigned integer whose bytes in memory are `bs`, as `*(uint64_t*)p` and
`*(uint32_t*)p` read it on the host. -/
def load_uint (big_endian : Bool) (bs : List Nat) : Nat :=
  if big_endian then be_value bs else be_value bs.reverse

/-- Conversion of a byte to `int8_t`. -/
def to_int8 (b : Nat) : Int :=
  if b % 256 < 128 then ((b % 256 : Nat) : Int) else ((b % 256 : Nat) : Int) - 256

/-- Conversion of an `int8_t` to `uint8_t`. -/
def to_uint8 (c : Int) : Nat :=
  (c % 256).toNat

/-- The three statements `c = x.c[i]; x.c[i] = x.c[j]; x.c[j] = c;` of `ntohll`, the
temporary `c` being an `int8_t`. -/
def swap_bytes (x : List Nat) (i j : Nat) : List Nat :=
  let c := to_int8 (x.getD i 0)
  let x1 := x.set i (x.getD j 0)
  x1.set j (to_uint8 c)

/-- `ntohll`: the host is taken for big-endian when byte 7 of the stored value 1 is 1
(the value kept in the static `typ`); otherwise the eight bytes are swapped. -/
def ntohll (big_endian : Bool) (value : Nat) : Nat :=
  if (store_uint big_endian 8 0x01).getD 7 0 = 0x01 then value
  else
    let x := store_uint big_endian 8 value
    let x := swap_bytes x 0 7
    let x := swap_bytes x 1 6
    let x := swap_bytes x 2 5
    let x := swap_bytes x 3 4
    load_uint big_endian x

/-- `ntohl` of the C library: the number that the four bytes of `value` in memory
spell in network (big-endian) order. -/
def ntohl (big_endian : Bool) (value : Nat) : Nat :=
  be_value (store_uint big_endian 4 value)

/-- `ntohs` of the C library: the number that the two bytes of `value` in memory
spell in network (big-endian) order. -/
def ntohs (big_endian : Bool) (value : Nat) : Nat :=
  be_value (store_uint big_endian 2 value)

/-- Modelled from the spec: `exword_capacity_t` of `exword.h` (not under src), the
total and the free capacity, 64 bits each. -/
structure exword_capacity_t where
  total : Nat
  free : Nat
  deriving DecidableEq

/-- What `exword_get_capacity` leaves in `*cap`: on a SUCCESS response (final bit
masked off; the response is taken to carry the BODY header) the two numbers of the
body, read at offsets 8 and 16 through `ntohll` when the body has 24 bytes and at
offsets 0 and 4 through `ntohl` otherwise; in every other case what it held.
`heap` holds the bytes behind the body. -/
def exword_get_capacity_data (big_endian : Bool) (self : exword_t) (cap : exword_capacity_t)
    (o : outcome) (heap : Nat → Nat) : exword_capacity_t :=
  if self.status &&& 0x06 ≠ 0 then cap
  else if !exword_is_connected self then cap
  else if !o.obj_ok then cap
  else if o.rsp = OBEX_RSP_SUCCESS ∨ o.rsp = OBEX_RSP_SUCCESS + 0x80 then
    if o.hdr_body.length = 24 then
      ⟨ntohll big_endian (load_uint big_endian (window o.hdr_body heap 8 8)),
       ntohll big_endian (load_uint big_endian (window o.hdr_body heap 16 8))⟩
    else
      ⟨ntohl big_endian (load_uint big_endian (window o.hdr_body heap 0 4)),
       ntohl big_endian (load_uint big_endian (window o.hdr_body heap 4 4))⟩
  else cap

/-- Modelled from the spec: `exword_dirent_t` of `exword.h` (not under src): size,
flags and the pointer to the name (`none` for NULL). -/
structure exword_dirent_t where
  size : Nat
  flags : Nat
  name : Option (List Nat)
  deriving DecidableEq

/-- The loop `for (i = 0; i < *count; i++)` of `exword_list` with `n` entries left and
`hv.bs` at `body + p`.  `malloc(size - 3)` is taken to succeed; for a size of 3
it returns NULL when `malloc0_null` says so, and for a size below 3, where
`size - 3` is negative, the result is `none`. -/
def list_entries (big_endian : Bool) (malloc0_null : Bool) (body : List Nat)
    (heap : Nat → Nat) : Nat → Nat → Option (List exword_dirent_t)
  | 0, _ => some []
  | n + 1, p =>
    let size := ntohs big_endian (load_uint big_endian (window body heap p 2))
    if size < 3 then none
    else
      let name := if size = 3 ∧ malloc0_null then none
        else some (window body heap (p + 3) (size - 3))
      (list_entries big_endian malloc0_null body heap n (p + size)).map
        (fun es => ⟨size, peek body heap (p + 2), name⟩ :: es)

/-- What `exword_list` leaves in `*entries` (`none` for NULL) and `*count`. -/
structure list_result where
  entries : Option (List exword_dirent_t)
  count : Nat
  deriving DecidableEq

/-- What `exword_list` hands back: NULL and 0 unless a SUCCESS response was received
(final bit masked off; the response is taken to carry the BODY header); then the
count of the first two bytes and an array of `count + 1` zeroed entries of which the
first `count` are filled by the loop.  The result is `none` when the loop meets a
size below 3. -/
def exword_list_data (big_endian : Bool) (malloc0_null : Bool) (self : exword_t)
    (o : outcome) (heap : Nat → Nat) : Option list_result :=
  if self.status &&& 0x06 ≠ 0 then some ⟨none, 0⟩
  else if !exword_is_connected self then some ⟨none, 0⟩
  else if !o.obj_ok then some ⟨none, 0⟩
  else if o.rsp = OBEX_RSP_SUCCESS ∨ o.rsp = OBEX_RSP_SUCCESS + 0x80 then
    let count := ntohs big_endian (load_uint big_endian (window o.hdr_body heap 0 2))
    (list_entries big_endian malloc0_null o.hdr_body heap count 2).map
      (fun es => ⟨some (es ++ [⟨0, 0, none⟩]), count⟩)
  else some ⟨none, 0⟩

/-- `exword_free_list`: the names it frees, in order; it stops at the first entry
whose name is NULL, and the result is `none` when it runs past the array. -/
def exword_free_list : List exword_dirent_t → Option (List (List Nat))
  | [] => none
  | e :: es =>
    match e.name with
    | none => some []
    | some name => (exword_free_list es).map (fun ns => name :: ns)

/-- One entry of a `_List` body as the spec lays it out: the flags byte and the name
bytes, the NUL included. -/
structure list_entry where
  flags : Nat
  name : List Nat
  deriving DecidableEq

/-- The two bytes of a big-endian u16. -/
def be_u16 (v : Nat) : List Nat :=
  [v / 256 % 256, v % 256]

/-- The bytes of the entries of a `_List` body: for each the size (the length of the
name plus 3) as a big-endian u16, the flags byte, the name bytes. -/
def list_entry_bytes : List list_entry → List Nat
  | [] => []
  | e :: es => be_u16 (e.name.length + 3) ++ [e.flags] ++ e.name ++ list_entry_bytes es

/-- A `_List` body as the spec lays it out: the count as a big-endian u16, then the
entries. -/
def list_body (es : List list_entry) : List Nat :=
  be_u16 es.length ++ list_entry_bytes es

/-- The entry is well-formed: its size fits a u16 and its name ends in NUL. -/
def list_entry_ok (e : list_entry) : Prop :=
  e.name.length + 3 < 65536 ∧ e.name.getLast? = some 0

instance (e : list_entry) : Decidable (list_entry_ok e) := by
  unfold list_entry_ok; infer_instance

/-! ## Content engine: `content_auth` -/

/-- The C string at a name pointer: the bytes in front of the first NUL. -/
def cstr (name : List Nat) : List Nat :=
  name.takeWhile (fun b => b != 0)

/-- The answers of the outside world to one run of `content_auth`: what
`_load_user_key` meets on the host, the answers of the device to the commands
(`o_sd_setpath i`, `o_sd_challenge i`, `o_sd_authinfo i` for entry number `i` of
the list), the byte order of the host and the bytes behind the `_List` body. -/
structure auth_env where
  char_signed : Bool
  dir_ok : Bool
  file : read_file_result
  mem : Int → Nat
  fuel : Nat
  o_setpath_internal : outcome
  o_challenge : outcome
  o_setpath_root : outcome
  o_list : outcome
  big_endian : Bool
  malloc0_null : Bool
  heap : Nat → Nat
  o_sd_setpath : Nat → outcome
  o_sd_challenge : Nat → outcome
  o_sd_authinfo : Nat → outcome
  o_userid : outcome

/-- What `content_auth` did: the handle afterwards, the return value and the device
commands issued with their return values. -/
structure auth_result where
  self : exword_t
  ret : Nat
  steps : List (command × Nat)

/-- The loop `for (i = 0; i < count; i++)` of `content_auth` (lines 358-367) with `n`
iterations left, at entry number `i`, the rest of the array being the list.  The
result is `none` when `strcmp` is handed a NULL name or the loop leaves the array. -/
def auth_entries (env : auth_env) (challenge : List Nat) :
    List exword_dirent_t → Nat → Nat → exword_t → List (command × Nat) →
    Option (exword_t × List (command × Nat))
  | _, 0, _, device, steps => some (device, steps)
  | [], _ + 1, _, _, _ => none
  | e :: es, n + 1, i, device, steps =>
    match e.name with
    | none => none
    | some name =>
      if cstr name = str "_SD_00" ∨ cstr name = str "_SD_01" then
        let r1 := exword_setpath device "\\_SD_00".toList false (env.o_sd_setpath i)
        let r2 := exword_authchallenge r1.self challenge (env.o_sd_challenge i)
        let steps2 := steps ++ [(command.setpath "\\_SD_00".toList false, r1.ret),
          (command.authchallenge challenge, r2.ret)]
        if r2.ret ≠ EXWORD_SUCCESS then
          let r3 := exword_authinfo r2.self (env.o_sd_authinfo i)
          auth_entries env challenge es n (i + 1) r3.self (steps2 ++ [(command.authinfo, r3.ret)])
        else auth_entries env challenge es n (i + 1) r2.self steps2
      else auth_entries env challenge es n (i + 1) device steps

/-- `content_auth`; `auth` is the challenge passed in (`none` for NULL, the challenge
then comes from `_load_user_key`).  The result is `none` when the scan of
`_load_user_key` has not ended within `env.fuel` iterations, when `exword_list`
meets a size below 3, and when `exword_list` left `entries` NULL, which
`exword_free_list` dereferences. -/
def content_auth (device : exword_t) (user : List Char) (auth : Option (List Nat))
    (env : auth_env) : Option auth_result :=
  let loaded : Option (Option (List Nat)) :=
    match auth with
    | some a => some (some (a.take 20))
    | none =>
      match _load_user_key env.char_signed env.dir_ok env.file env.mem
          (user.map Char.toNat) env.fuel with
      | none => none
      | some l => if l.ret = 0 then some none else some (some (l.key.getD []))
  match loaded with
  | none => none
  | some none => some ⟨device, 0, []⟩
  | some (some challenge) =>
    let r1 := exword_setpath device "\\_INTERNAL_00".toList false env.o_setpath_internal
    let r2 := exword_authchallenge r1.self challenge env.o_challenge
    let steps2 := [(command.setpath "\\_INTERNAL_00".toList false, r1.ret),
      (command.authchallenge challenge, r2.ret)]
    if r2.ret ≠ EXWORD_SUCCESS then some ⟨r2.self, 0, steps2⟩
    else
      let r3 := exword_setpath r2.self [] false env.o_setpath_root
      let r4 := exword_list r3.self env.o_list
      let steps4 := steps2 ++ [(command.setpath [] false, r3.ret), (command.list, r4.ret)]
      match exword_list_data env.big_endian env.malloc0_null r3.self env.o_list env.heap with
      | none => none
      | some l =>
        match l.entries with
        | none => none
        | some entries =>
          match auth_entries env challenge entries l.count 0 r4.self steps4 with
          | none => none
          | some (dev, steps) =>
            let r5 := exword_userid dev env.o_userid
            some ⟨r5.self, 1, steps ++ [(command.userid, r5.ret)]⟩

/-! ## Content engine: the name of the content (`_get_cd_name`, `_get_dict_name`) -/

/-- The C string that starts at `buffer`: the bytes of the buffer, and of the memory
behind it (`behind`), in front of the first NUL. -/
def c_string (buffer behind : List Nat) : List Nat :=
  (buffer ++ behind).takeWhile (fun b => b != 0)

/-- `strstr(s, pat)` on a C string: the offset of the first occurrence of `pat`,
`none` for NULL. -/
def strstr : List Nat → List Nat → Option Nat
  | [], pat => if pat = [] then some 0 else none
  | b :: t, pat =>
    if pat.isPrefixOf (b :: t) then some 0
    else (strstr t pat).map (fun k => k + 1)

/-- What `read_file` finds for the file `name` of the directory: the content of the
first entry of that name, `none` when there is none or it cannot be read. -/
def dir_file (entries : List dir_entry) (name : List Char) : Option (List Nat) :=
  match entries.find? (fun e => decide (e.d_name = name)) with
  | some e => e.data
  | none => none

/-- `_get_cd_name` on the content of `playlist.htm` (`none` when `read_file` fails):
the characters in front of the first carriage return, NULL when there is none. -/
def _get_cd_name (file : Option (List Nat)) (behind : List Nat) : Option (List Char) :=
  match file with
  | none => none
  | some buffer =>
    let s := c_string buffer behind
    if 0x0d ∈ s then some ((s.takeWhile (fun b => b != 0x0d)).map Char.ofNat)
    else none

/-- `_get_dict_name` on the content of `diction.htm` (`none` when `read_file` fails):
the `len = end - (start + 7)` characters between the first `<title>` and the first
`</title>`, NULL when one of them is missing or `len` is negative. -/
def _get_dict_name (file : Option (List Nat)) (behind : List Nat) : Option (List Char) :=
  match file with
  | none => none
  | some buffer =>
    let s := c_string buffer behind
    match strstr s (str "<title>"), strstr s (str "</title>") with
    | some start, some e =>
      if (e : Int) - ((start : Int) + 7) < 0 then none
      else some (((s.drop (start + 7)).take (e - (start + 7))).map Char.ofNat)
    | _, _ => none

/-- The name `content_install` determines for the source directory (lines 521-524):
`_get_cd_name` in CD mode, `_get_dict_name` otherwise. -/
def install_name (mode : exword_mode) (entries : List dir_entry) (behind : List Nat) :
    Option (List Char) :=
  if mode = exword_mode.CD then _get_cd_name (dir_file entries "playlist.htm".toList) behind
  else _get_dict_name (dir_file entries "diction.htm".toList) behind

/-! ## Example runs -/

/-- Answers to `content_remove`: the first admini name is answered with the two
records of `admini_two`, UNLOCK with `unlock_rsp`, every other command with
success. -/
def remove_env_example (unlock_rsp : Int) : remove_env :=
  { o_setpath := answer 0x20,
    o_admini := fun _ => ⟨true, true, true, 0x20, 360, admini_two, true⟩,
    heap := fun _ => 0,
    o_unlock := answer unlock_rsp,
    o_cname := answer 0x20,
    o_cryptkey := answer 0x20,
    o_remove := answer 0x20,
    o_lock := answer 0x20 }

/-- Answers to `content_install` outside CD mode: no admini file exists on the device
(every GET is answered with NOT_FOUND), the source directory holds `entries`, the
name of the content is what `_get_dict_name` finds in the `diction.htm` of that
directory, the capacity query succeeds and leaves `cap_free` in `cap.free`, every
file name is a valid short file name, and every other command is answered with
success. -/
def install_env_example (entries : List dir_entry) (cap_free : Nat) : install_env :=
  { o_setpath_find := answer 0x20,
    o_admini := fun _ => answer 0x44,
    heap := fun _ => 0,
    dir := "dict".toList,
    entries := some entries,
    o_cap := answer 0x20,
    cap_free := cap_free,
    name := install_name exword_mode.LIBRARY entries [],
    o_unlock := answer 0x20,
    o_cname := answer 0x20,
    o_cryptkey := answer 0x20,
    o_setpath := answer 0x20,
    o_file := fun _ => answer 0x20,
    o_setpath_user := answer 0x20,
    o_lock := answer 0x20,
    is_valid_sfn := fun _ => true,
    get_xor_key := fun key => key }

/-- The file `diction.htm` of a dictionary named `Dict`: 19 bytes. -/
def diction_htm : dir_entry :=
  ⟨"diction.htm".toList, true, some (str "<title>Dict</title>")⟩

/-- A source directory as `readdir` lists it: the two directories `.` and `..`,
`diction.htm` and one regular file of 5 bytes; 24 bytes of regular files. -/
def small_directory : List dir_entry :=
  [⟨".".toList, false, none⟩, ⟨"..".toList, false, none⟩, diction_htm,
   ⟨"A.DAT".toList, true, some [1, 2, 3, 4, 5]⟩]

/-- A source directory as `readdir` lists it: the two directories `.` and `..`,
`diction.htm` and four regular files, each with the content `d`. -/
def big_directory (d : List Nat) : List dir_entry :=
  [⟨".".toList, false, none⟩, ⟨"..".toList, false, none⟩, diction_htm,
   ⟨"A.DAT".toList, true, some d⟩, ⟨"B.DAT".toList, true, some d⟩,
   ⟨"C.DAT".toList, true, some d⟩, ⟨"D.DAT".toList, true, some d⟩]

/-- The name `alice` as bytes. -/
def name_alice : List Nat :=
  "alice".toList.map Char.toNat

/-- The name `bob` as bytes. -/
def name_bob : List Nat :=
  "bob".toList.map Char.toNat

/-- The 20 bytes 0x01..0x14. -/
def key_0x01_0x14 : List Nat :=
  (List.range 20).map (fun k => k + 1)

/-- The 20 bytes 0x55. -/
def key_0x55 : List Nat :=
  List.replicate 20 0x55

/-- A name of 255 characters `a`. -/
def long_name : List Nat :=
  List.replicate 255 97

/-- Answers to `content_reset`: every command succeeds, AUTHINFO returns the
challenge 0x01..0x14, the store is an empty file and `write_file` succeeds. -/
def reset_env_example : reset_env :=
  { o_setpath := answer 0x20,
    o_authinfo := ⟨true, true, true, 0x20, 20, key_0x01_0x14, true⟩,
    o_userid := answer 0x20,
    heap := fun _ => 0,
    char_signed := true,
    dir_ok := true,
    file := read_file_result.ok [],
    mem := fun _ => 0,
    write_ret := 0,
    fuel := 1 }

/-- A `_Model` response: SUCCESS with a body of 23 bytes `A` followed by the tokens
`SW`, `ST`, `C`, `C`, `CYABCD`. -/
def model_outcome_example : outcome :=
  ⟨true, true, true, 0x20, 0,
    model_body (List.replicate 23 65) [str "SW", str "ST", str "C", str "C", str "CYABCD"], true⟩

/-- The store `_save_user_key` writes on an empty file for a name of 234 characters
`a` with the key 0x01..0x14: the length byte is 235. -/
def store_name_234 : List Nat :=
  store_bytes [⟨List.replicate 234 97, key_0x01_0x14⟩]

/-- A `_Cap` response: SUCCESS with a body of 24 bytes, the number 256 at offset 8
and the number 128 at offset 16. -/
def cap_outcome_example : outcome :=
  ⟨true, true, true, 0x20, 0,
    [0, 0, 0, 0, 0, 0, 0, 0, 0, 0, 0, 0, 0, 0, 1, 0, 0, 0, 0, 0, 0, 0, 0, 128], true⟩

/-- Two entries of a `_List` body: the directory `_SD_00` (flags 1) and the file
`a.txt` (flags 0). -/
def list_entries_example : List list_entry :=
  [⟨1, str "_SD_00" ++ [0]⟩, ⟨0, str "a.txt" ++ [0]⟩]

/-- Answers to `content_auth`: every command succeeds except the challenge on the
storage entries, which is answered with `sd_rsp`; the list holds the one entry
`name`. -/
def auth_env_example (name : String) (sd_rsp : Int) : auth_env :=
  { char_signed := true,
    dir_ok := true,
    file := read_file_result.ok [],
    mem := fun _ => 0,
    fuel := 1,
    o_setpath_internal := answer 0x20,
    o_challenge := answer 0x20,
    o_setpath_root := answer 0x20,
    o_list := ⟨true, true, true, 0x20, 0, list_body [⟨1, str name ++ [0]⟩], true⟩,
    big_endian := false,
    malloc0_null := false,
    heap := fun _ => 0,
    o_sd_setpath := fun _ => answer 0x20,
    o_sd_challenge := fun _ => answer sd_rsp,
    o_sd_authinfo := fun _ => answer 0x20,
    o_userid := answer 0x20 }

end Exword

/-! # Theorems -/

namespace Exword

/-! ## Selective encryption on transfer -/

theorem strrchr_append_of_some (xs ys : List Char) (c : Char) (r : List Char)
    (h : strrchr ys c = some r) : strrchr (xs ++ ys) c = some r := by
  induction xs with
  | nil => simpa using h
  | cons x xs ih => simp [strrchr, ih]

theorem strrchr_append_of_none (xs ys : List Char) (c : Char)
    (h : strrchr ys c = none) :
    strrchr (xs ++ ys) c = (strrchr xs c).map (fun r => r ++ ys) := by
  induction xs with
  | nil => simpa [strrchr] using h
  | cons x xs ih =>
    cases h2 : strrchr xs c with
    | some r => rw [h2] at ih; simp [strrchr, ih, h2]
    | none =>
      rw [h2] at ih
      by_cases hx : x = c <;> simp [strrchr, ih, h2, hx]

theorem upload_selects_eq_mem (f : List Char) :
    upload_selects f = match strrchr f '.' with
      | none => false
      | some ext => decide (ext ∈ [".txt".toList, ".bmp".toList, ".htm".toList,
                   ".TXT".toList, ".BMP".toList, ".HTM".toList]) := by
  unfold upload_selects
  cases strrchr f '.' with
  | none => rfl
  | some ext =>
    simp only [strcmp_eq, List.mem_cons, List.mem_singleton, Bool.decide_or, List.not_mem_nil,
      or_false, Bool.or_assoc, Bool.decide_false, Bool.or_false]

theorem download_selects_eq_upload (f : List Char) : download_selects f = upload_selects f := by
  unfold upload_selects download_selects
  cases strrchr f '.' with
  | none => rfl
  | some ext =>
    simp only [strcmp_eq]
    cases decide (ext = ".txt".toList) <;> cases decide (ext = ".bmp".toList) <;>
      cases decide (ext = ".htm".toList) <;> rfl

/-- The test on the joined path `dir/name` depends on `name` alone: a dot in the
directory part is followed by the separator, which no extension contains. -/
theorem upload_selects_mkpath (dir name : List Char) :
    upload_selects (mkpath PATH_SEP dir [name]) = exact_selects name := by
  rw [upload_selects_eq_mem]
  unfold exact_selects extension
  have hp : mkpath PATH_SEP dir [name] = (dir ++ ['/']) ++ name := by
    simp [mkpath, PATH_SEP]
  rw [hp]
  cases h : strrchr name '.' with
  | some e => rw [strrchr_append_of_some _ _ _ _ h]
  | none =>
    rw [strrchr_append_of_none _ _ _ h]
    have h2 : strrchr (dir ++ ['/']) '.' = (strrchr dir '.').map (fun r => r ++ ['/']) := by
      apply strrchr_append_of_none
      simp [strrchr]
    rw [h2]
    cases h3 : strrchr dir '.' with
    | none => rfl
    | some r =>
      simp only [Option.map_some']
      have hmem : ('/' : Char) ∈ r ++ ['/'] ++ name := by simp
      generalize r ++ ['/'] ++ name = e at hmem
      simp only [List.mem_cons, List.mem_singleton, List.not_mem_nil, or_false]
      rw [decide_eq_false_iff_not]
      rintro (h | h | h | h | h | h) <;> (subst h; revert hmem; decide)

theorem crypt_from_involutive (key : List Nat) (i : Nat) (data : List Nat) :
    crypt_from key i (crypt_from key i data) = data := by
  induction data generalizing i with
  | nil => rfl
  | cons b bs ih => simp [crypt_from, ih, Nat.xor_cancel_right]

/-- C1 (as stated, refuted): the extension `.Txt` equals `.txt` when case is
ignored, yet neither `_upload_file` nor `_download_file` XORs `NOTES.Txt`: the
bytes go out and come in unchanged although the XOR would change them. -/
theorem selective_xor_mixed_case_untouched :
    spec_selects "NOTES.Txt".toList = true ∧
    (_upload_file exword_init "sound".toList "NOTES.Txt".toList
        [1, 2, 3, 4, 5, 6, 7, 8, 9, 10, 11, 12, 13, 14, 15, 16] (some [72, 105, 33])
        ⟨true, true, true, 0x20, 0, [], true⟩).sent = some [72, 105, 33] ∧
    (_download_file connected_handle "sound".toList "NOTES.Txt".toList
        [1, 2, 3, 4, 5, 6, 7, 8, 9, 10, 11, 12, 13, 14, 15, 16]
        ⟨true, true, true, 0x20, 3, [72, 105, 33], true⟩ 0).written = some [72, 105, 33] ∧
    crypt_data [72, 105, 33] [1, 2, 3, 4, 5, 6, 7, 8, 9, 10, 11, 12, 13, 14, 15, 16]
      ≠ [72, 105, 33] := by
  decide

theorem upload_sent (device : exword_t) (dir name : List Char) (key buffer : List Nat)
    (o : outcome) :
    (_upload_file device dir name key (some buffer) o).sent =
      some (if exact_selects name then crypt_data buffer key else buffer) := by
  simp only [_upload_file, upload_selects_mkpath]

theorem download_written (device : exword_t) (dir name : List Char) (key : List Nat)
    (o : outcome) (write_rsp : Int) :
    (_download_file device dir name key o write_rsp).written =
      (if (exword_get_file device name o).ret = EXWORD_SUCCESS then
        some (if exact_selects name
              then crypt_data ((exword_get_file device name o).buffer.getD []) key
              else (exword_get_file device name o).buffer.getD [])
       else none) := by
  simp only [_download_file, download_selects_eq_upload, upload_selects_mkpath]
  split_ifs <;> simp_all

/-- C1 (amended): for every directory, file name, key and content, `_upload_file`
hands to `exword_send_file` the content XOR-ed with the stream exactly when the
extension of the name (the text from its last `.` onwards) is spelled `.txt`,
`.bmp`, `.htm`, `.TXT`, `.BMP` or `.HTM`, and the unchanged content otherwise;
`_download_file` writes the received bytes under the same rule. -/
theorem selective_xor_exact_extension (device : exword_t) (dir name : List Char)
    (key buffer : List Nat) (o : outcome) (write_rsp : Int) :
    (_upload_file device dir name key (some buffer) o).sent =
        some (if exact_selects name then crypt_data buffer key else buffer) ∧
    (_download_file device dir name key o write_rsp).written =
        (if (exword_get_file device name o).ret = EXWORD_SUCCESS then
          some (if exact_selects name
                then crypt_data ((exword_get_file device name o).buffer.getD []) key
                else (exword_get_file device name o).buffer.getD [])
         else none) :=
  ⟨upload_sent device dir name key buffer o, download_written device dir name key o write_rsp⟩

/-- C2: for every name, content `b` and 16-byte stream `k`, and whatever the two
local directories are, when the device returns the bytes that `_upload_file`
sent, `_download_file` writes `b` again; `crypt_data` applied twice with the
same stream is the identity, and both functions select the same paths. -/
theorem upload_download_round_trip (dev1 dev2 : exword_t) (dir1 dir2 name : List Char)
    (b k : List Nat) (o1 o2 : outcome) (write_rsp : Int)
    (_hk : k.length = 16)
    (hget : (exword_get_file dev2 name o2).ret = EXWORD_SUCCESS)
    (hbody : (exword_get_file dev2 name o2).buffer =
      (_upload_file dev1 dir1 name k (some b) o1).sent) :
    (_download_file dev2 dir2 name k o2 write_rsp).written = some b ∧
    crypt_data (crypt_data b k) k = b ∧
    (∀ filename : List Char, upload_selects filename = download_selects filename) := by
  refine ⟨?_, crypt_from_involutive k 0 b, fun f => (download_selects_eq_upload f).symm⟩
  rw [download_written, if_pos hget, hbody, upload_sent]
  by_cases hs : exact_selects name = true
  · simp [hs, crypt_data, crypt_from_involutive]
  · simp [hs]

/-- C2 witness: `notes.txt` with three bytes, uploaded from `sound` and fetched
back into `mirror`. -/
theorem upload_download_round_trip_witness :
    (_download_file connected_handle "mirror".toList "notes.txt".toList
        [1, 2, 3, 4, 5, 6, 7, 8, 9, 10, 11, 12, 13, 14, 15, 16]
        ⟨true, true, true, 0x20, 3, [73, 107, 34], true⟩ 0).written = some [72, 105, 33] ∧
    crypt_data (crypt_data [72, 105, 33] [1, 2, 3, 4, 5, 6, 7, 8, 9, 10, 11, 12, 13, 14, 15, 16])
        [1, 2, 3, 4, 5, 6, 7, 8, 9, 10, 11, 12, 13, 14, 15, 16] = [72, 105, 33] ∧
    (∀ filename : List Char, upload_selects filename = download_selects filename) :=
  upload_download_round_trip connected_handle connected_handle
    "sound".toList "mirror".toList "notes.txt".toList [72, 105, 33]
    [1, 2, 3, 4, 5, 6, 7, 8, 9, 10, 11, 12, 13, 14, 15, 16]
    ⟨true, true, true, 0x20, 0, [], true⟩ ⟨true, true, true, 0x20, 3, [73, 107, 34], true⟩ 0
    (by decide) (by decide) (by decide)

/-! ## The status bitfield -/

theorem or80_and80 (s : Nat) : (s ||| 0x80) &&& 0x80 ≠ 0 := by
  intro h
  have h2 := congrArg (fun x => x.testBit 7) h
  have h3 : Nat.testBit 128 7 = true := by decide
  simp [Nat.testBit_or, Nat.testBit_and, h3] at h2
theorem or80_and7 (s : Nat) : (s ||| 0x80) &&& 0x07 = s &&& 0x07 := by
  rw [Nat.and_distrib_right, show (0x80 : Nat) &&& 0x07 = 0 from rfl, Nat.or_zero]
theorem or80_and6 (s : Nat) : (s ||| 0x80) &&& 0x06 = s &&& 0x06 := by
  rw [Nat.and_distrib_right, show (0x80 : Nat) &&& 0x06 = 0 from rfl, Nat.or_zero]
theorem or81_and7 (s : Nat) (h : s &&& 0x07 = 0) : (s ||| 0x80 ||| 0x01) &&& 0x07 = 1 := by
  rw [Nat.and_distrib_right, or80_and7, h]; rfl
theorem or1_and80 (s : Nat) : (s ||| 0x01) &&& 0x80 = s &&& 0x80 := by
  rw [Nat.and_distrib_right, show (0x01 : Nat) &&& 0x80 = 0 from rfl, Nat.or_zero]
theorem mask_and7 (s : Nat) : (s &&& 0xFFFFFFF8) &&& 0x07 = 0 := by
  rw [Nat.and_assoc, show (0xFFFFFFF8 : Nat) &&& 0x07 = 0 from rfl, Nat.and_zero]
theorem mask_and80 (s : Nat) : (s &&& 0xFFFFFFF8) &&& 0x80 = s &&& 0x80 := by
  rw [Nat.and_assoc, show (0xFFFFFFF8 : Nat) &&& 0x80 = 0x80 from rfl]
theorem and7_of_and6 (s : Nat) (h : s &&& 0x06 ≠ 0) : s &&& 0x07 ≠ 0 := by
  intro h7; apply h
  have : s &&& 0x06 = (s &&& 0x07) &&& 0x06 := by
    rw [Nat.and_assoc, show (0x07 : Nat) &&& 0x06 = 0x06 from rfl]
  rw [this, h7]; rfl

theorem obex_to_exword_error_of_ne (self : exword_t) (rsp : Int) (b : Bool)
    (h : rsp ≠ OBEX_RSP_INTERNAL_SERVER_ERROR) :
    (obex_to_exword_error self rsp b).self = self ∧
    (obex_to_exword_error self rsp b).ret ≠ EXWORD_ERROR_INTERNAL := by
  unfold obex_to_exword_error
  split_ifs <;> simp_all [EXWORD_SUCCESS, EXWORD_ERROR_INTERNAL, EXWORD_ERROR_NOT_FOUND,
    EXWORD_ERROR_OTHER, EXWORD_ERROR_NO_MEM, EXWORD_ERROR_FORBIDDEN]

theorem obex_to_exword_error_internal (self : exword_t) (b : Bool) :
    (obex_to_exword_error self OBEX_RSP_INTERNAL_SERVER_ERROR b).ret = EXWORD_ERROR_INTERNAL ∧
    (obex_to_exword_error self OBEX_RSP_INTERNAL_SERVER_ERROR b).self.status =
      (if (self.status ||| 0x80) &&& 0x07 = 0 then self.status ||| 0x80 ||| EXWORD_DISCONNECT_ERROR
       else self.status ||| 0x80) := by
  unfold obex_to_exword_error
  simp only [OBEX_RSP_INTERNAL_SERVER_ERROR, OBEX_RSP_SUCCESS, OBEX_RSP_FORBIDDEN, OBEX_RSP_NOT_FOUND]
  cases b <;> simp [log]

/-- Every command either returns at one of its guards, leaving the handle as it
was, or sends one request and maps the response. -/
theorem run_command_cases (self : exword_t) (c : command) (o : outcome) :
    (self.status &&& 0x06 ≠ 0 ∧ run_command self c o = ⟨self, EXWORD_ERROR_INTERNAL⟩) ∨
    (self.status &&& 0x06 = 0 ∧ exword_is_connected self = false ∧
      run_command self c o = ⟨self, EXWORD_ERROR_NOT_FOUND⟩) ∨
    (self.status &&& 0x06 = 0 ∧ exword_is_connected self = true ∧
      (run_command self c o = ⟨self, EXWORD_ERROR_OTHER⟩ ∨
       run_command self c o = ⟨self, EXWORD_ERROR_NO_MEM⟩)) ∨
    (self.status &&& 0x06 = 0 ∧ exword_is_connected self = true ∧
      ∃ op, run_command self c o =
        obex_to_exword_error (log self (io_event.obex_request op)) o.rsp o.disc_obj_ok) := by
  by_cases h6 : self.status &&& 0x06 = 0
  · by_cases hc : exword_is_connected self = true
    · cases c <;>
        simp only [run_command, exword_send_file, exword_get_file, exword_remove_file,
          exword_sd_format, exword_setpath, exword_get_model, exword_get_capacity, exword_list,
          exword_userid, exword_cryptkey, exword_cname, exword_unlock, exword_lock,
          exword_authchallenge, exword_authinfo] <;>
        split_ifs <;>
        first
        | exact Or.inr (Or.inr (Or.inr ⟨h6, hc, _, rfl⟩))
        | exact Or.inr (Or.inr (Or.inl ⟨h6, hc, Or.inl rfl⟩))
        | exact Or.inr (Or.inr (Or.inl ⟨h6, hc, Or.inr rfl⟩))
        | (exfalso; simp_all)
    · have hc2 : exword_is_connected self = false := by simpa using hc
      refine Or.inr (Or.inl ⟨h6, hc2, ?_⟩)
      cases c <;>
        simp [run_command, exword_send_file, exword_get_file, exword_remove_file,
          exword_sd_format, exword_setpath, exword_get_model, exword_get_capacity, exword_list,
          exword_userid, exword_cryptkey, exword_cname, exword_unlock, exword_lock,
          exword_authchallenge, exword_authinfo, h6, hc2]
  · refine Or.inl ⟨h6, ?_⟩
    cases c <;>
      simp [run_command, exword_send_file, exword_get_file, exword_remove_file,
        exword_sd_format, exword_setpath, exword_get_model, exword_get_capacity, exword_list,
        exword_userid, exword_cryptkey, exword_cname, exword_unlock, exword_lock,
        exword_authchallenge, exword_authinfo, h6]

theorem log_status (self : exword_t) (e : io_event) : (log self e).status = self.status := rfl

theorem exword_disconnect_status (self : exword_t) (ok : Bool) :
    (exword_disconnect self ok).self.status =
      (if self.status &&& 0x80 = 0 then
        (if (self.status ||| 0x80) &&& 0x07 = 0 then self.status ||| 0x80 ||| EXWORD_DISCONNECT_NORMAL
         else self.status ||| 0x80)
       else self.status) := by
  unfold exword_disconnect exword_is_connected
  cases ok <;> simp [log] <;> split_ifs <;> simp_all

theorem exword_connect_status (self : exword_t) (options : Nat) (o : connect_outcome) :
    (exword_connect self options o).self.status = self.status ∨
    (exword_connect self options o).self.status = 0 := by
  unfold exword_connect
  split_ifs <;> simp [log]

theorem exword_handle_interrupt_status (self : exword_t) (st : libusb_transfer_status) :
    (exword_handle_interrupt self st).status = self.status ∨
    (self.status &&& 0x07 = 0 ∧
      (exword_handle_interrupt self st).status = self.status ||| EXWORD_DISCONNECT_UNPLUGGED) := by
  cases st <;> simp [exword_handle_interrupt, log] <;> split_ifs <;> simp_all

theorem valid_disconnect (self : exword_t) (ok : Bool) (hv : valid_status self.status) :
    valid_status (exword_disconnect self ok).self.status := by
  rw [exword_disconnect_status]
  rcases hv with h | h | h | h | h | h <;> rw [h] <;> decide

theorem valid_handle_interrupt (self : exword_t) (st : libusb_transfer_status)
    (hv : valid_status self.status) : valid_status (exword_handle_interrupt self st).status := by
  rcases exword_handle_interrupt_status self st with h | ⟨h0, h⟩
  · rw [h]; exact hv
  · rw [h]
    rcases hv with h | h | h | h | h | h <;> rw [h] at h0 ⊢ <;> revert h0 <;> decide

theorem valid_connect (self : exword_t) (options : Nat) (o : connect_outcome)
    (hv : valid_status self.status) : valid_status (exword_connect self options o).self.status := by
  rcases exword_connect_status self options o with h | h
  · rw [h]; exact hv
  · rw [h]; decide

theorem valid_run_command (self : exword_t) (c : command) (o : outcome)
    (hv : valid_status self.status) : valid_status (run_command self c o).self.status := by
  rcases run_command_cases self c o with ⟨_, h⟩ | ⟨_, _, h⟩ | ⟨_, _, h | h⟩ | ⟨h6, hc, op, h⟩
  · rw [h]; exact hv
  · rw [h]; exact hv
  · rw [h]; exact hv
  · rw [h]; exact hv
  · rw [h]
    by_cases hr : o.rsp = OBEX_RSP_INTERNAL_SERVER_ERROR
    · rw [hr, (obex_to_exword_error_internal _ _).2, log_status]
      rcases hv with h | h | h | h | h | h <;> rw [h] <;> decide
    · rw [(obex_to_exword_error_of_ne _ _ _ hr).1, log_status]; exact hv

theorem send_disconnect_event_status (self : exword_t) (r : Nat) :
    (send_disconnect_event self r).status = self.status := by
  unfold send_disconnect_event; split_ifs <;> rfl

theorem valid_pump (pumped : List libusb_transfer_status) (self : exword_t)
    (hv : valid_status self.status) :
    valid_status (pumped.foldl exword_handle_interrupt self).status := by
  induction pumped generalizing self with
  | nil => exact hv
  | cons st rest ih => exact ih _ (valid_handle_interrupt self st hv)

/-- The handle at the check of `exword_poll_disconnect`, after the event pump. -/
theorem exword_poll_disconnect_status (self : exword_t) (pumped : List libusb_transfer_status)
    (ok : Bool) :
    (exword_poll_disconnect self pumped ok).status =
      (if (after_pump self pumped).status &&& 0x07 ≠ 0 then
        (if (after_pump self pumped).status &&& 0x80 = 0 then
          (if ((after_pump self pumped).status ||| 0x80) &&& 0x07 = 0
            then (after_pump self pumped).status ||| 0x80 ||| EXWORD_DISCONNECT_NORMAL
            else (after_pump self pumped).status ||| 0x80)
         else (after_pump self pumped).status) &&& 0xFFFFFFF8
       else (after_pump self pumped).status) := by
  unfold exword_poll_disconnect
  generalize after_pump self pumped = s1
  by_cases h : s1.status &&& 0x07 = 0
  · simp [h]
  · simp only [ne_eq, h, not_false_eq_true, if_true, exword_disconnect_status,
      send_disconnect_event_status]

theorem valid_after_pump (self : exword_t) (pumped : List libusb_transfer_status)
    (hv : valid_status self.status) : valid_status (after_pump self pumped).status := by
  unfold after_pump
  split_ifs
  · exact valid_pump _ _ (by rw [log_status]; exact hv)
  · exact hv

theorem valid_poll_disconnect (self : exword_t) (pumped : List libusb_transfer_status)
    (ok : Bool) (hv : valid_status self.status) :
    valid_status (exword_poll_disconnect self pumped ok).status := by
  rw [exword_poll_disconnect_status]
  rcases valid_after_pump self pumped hv with h | h | h | h | h | h <;> rw [h] <;> decide

theorem valid_step (self : exword_t) (a : api_call) (hv : valid_status self.status) :
    valid_status (step self a).status := by
  cases a with
  | connect options o => exact valid_connect self options o hv
  | disconnect ok => exact valid_disconnect self ok hv
  | cmd c o => exact valid_run_command self c o hv
  | handle_interrupt st => exact valid_handle_interrupt self st hv
  | poll_disconnect pumped ok => exact valid_poll_disconnect self pumped ok hv
  | register_disconnect_callback cb => exact hv

theorem valid_run (calls : List api_call) (self : exword_t) (hv : valid_status self.status) :
    valid_status (run self calls).status := by
  induction calls generalizing self with
  | nil => exact hv
  | cons a rest ih => exact ih _ (valid_step self a hv)

/-- On every handle the API can produce the status is one of six values. -/
theorem reachable_valid (self : exword_t) (hr : reachable self) : valid_status self.status := by
  obtain ⟨calls, rfl⟩ := hr
  exact valid_run calls _ (by decide)

/-! ## Sticky internal error -/

theorem run_command_poisoned (self : exword_t) (c : command) (o : outcome)
    (h6 : self.status &&& 0x06 ≠ 0) :
    run_command self c o = ⟨self, EXWORD_ERROR_INTERNAL⟩ := by
  rcases run_command_cases self c o with ⟨_, h⟩ | ⟨h, _⟩ | ⟨h, _⟩ | ⟨h, _⟩
  · exact h
  · exact absurd h h6
  · exact absurd h h6
  · exact absurd h h6

theorem run_commands_poisoned (cs : List (command × outcome)) (self : exword_t)
    (h6 : self.status &&& 0x06 ≠ 0) : run_commands self cs = self := by
  induction cs with
  | nil => rfl
  | cons co rest ih =>
    show run_commands (run_command self co.1 co.2).self rest = self
    rw [run_command_poisoned self co.1 co.2 h6]
    exact ih

/-- A command that returns EXWORD_ERROR_INTERNAL leaves a fatal bit in the status. -/
theorem poisoned_after_internal (self : exword_t) (c : command) (o : outcome)
    (hv : valid_status self.status)
    (hint : (run_command self c o).ret = EXWORD_ERROR_INTERNAL) :
    (run_command self c o).self.status &&& 0x06 ≠ 0 := by
  rcases run_command_cases self c o with ⟨h6, h⟩ | ⟨_, _, h⟩ | ⟨_, _, h | h⟩ | ⟨h6, hc, op, h⟩
  · rw [h]; exact h6
  · rw [h] at hint; revert hint; simp [EXWORD_ERROR_INTERNAL, EXWORD_ERROR_NOT_FOUND, EXWORD_ERROR_OTHER, EXWORD_ERROR_NO_MEM]
  · rw [h] at hint; revert hint; simp [EXWORD_ERROR_INTERNAL, EXWORD_ERROR_NOT_FOUND, EXWORD_ERROR_OTHER, EXWORD_ERROR_NO_MEM]
  · rw [h] at hint; revert hint; simp [EXWORD_ERROR_INTERNAL, EXWORD_ERROR_NOT_FOUND, EXWORD_ERROR_OTHER, EXWORD_ERROR_NO_MEM]
  · rw [h] at hint ⊢
    by_cases hr : o.rsp = OBEX_RSP_INTERNAL_SERVER_ERROR
    · rw [hr, (obex_to_exword_error_internal _ _).2, log_status]
      simp only [exword_is_connected, beq_iff_eq] at hc
      rcases hv with h | h | h | h | h | h <;> rw [h] at h6 hc ⊢ <;> revert h6 hc <;> decide
    · exact absurd hint (obex_to_exword_error_of_ne _ _ _ hr).2

theorem run_append (self : exword_t) (xs ys : List api_call) :
    run self (xs ++ ys) = run (run self xs) ys := by
  simp [run, List.foldl_append]

theorem reachable_run (self : exword_t) (calls : List api_call) (hr : reachable self) :
    reachable (run self calls) := by
  obtain ⟨calls0, rfl⟩ := hr
  exact ⟨calls0 ++ calls, run_append _ _ _⟩

theorem run_commands_eq_run (cs : List (command × outcome)) (self : exword_t) :
    run_commands self cs = run self (cs.map (fun co => api_call.cmd co.1 co.2)) := by
  induction cs generalizing self with
  | nil => rfl
  | cons co rest ih =>
    show run_commands (run_command self co.1 co.2).self rest = _
    rw [ih]; rfl

theorem reachable_run_commands (self : exword_t) (cs : List (command × outcome))
    (hr : reachable self) : reachable (run_commands self cs) := by
  rw [run_commands_eq_run]; exact reachable_run _ _ hr

/-- C3: on a handle made by the API, in every sequence of device commands
`pre ++ [c] ++ mid ++ [c2]`: when `c` returned EXWORD_ERROR_INTERNAL, the later
command `c2` returns EXWORD_ERROR_INTERNAL, adds nothing to the transport log
and leaves the status as it was. -/
theorem internal_error_is_sticky (h : exword_t) (hr : reachable h)
    (pre mid : List (command × outcome)) (c c2 : command) (o o2 : outcome)
    (hint : (run_command (run_commands h pre) c o).ret = EXWORD_ERROR_INTERNAL) :
    (run_command (run_commands (run_command (run_commands h pre) c o).self mid) c2 o2).ret
      = EXWORD_ERROR_INTERNAL ∧
    (run_command (run_commands (run_command (run_commands h pre) c o).self mid) c2 o2).self.io
      = (run_commands (run_command (run_commands h pre) c o).self mid).io ∧
    (run_command (run_commands (run_command (run_commands h pre) c o).self mid) c2 o2).self.status
      = (run_commands (run_command (run_commands h pre) c o).self mid).status := by
  have hv := reachable_valid _ (reachable_run_commands h pre hr)
  have hp := poisoned_after_internal _ c o hv hint
  rw [run_commands_poisoned mid _ hp, run_command_poisoned _ c2 o2 hp]
  exact ⟨rfl, rfl, rfl⟩

/-- C3 witness: after a successful connect, a PUT answered with
INTERNAL_SERVER_ERROR, then a LIST, then an UNLOCK. -/
theorem internal_error_is_sticky_witness :
    (run_command (run_commands (run_command (run_commands connected_handle [])
        (command.send_file "a.txt".toList [1, 2]) (answer 0x50)).self
        [(command.list, answer 0x20)]) command.unlock (answer 0x20)).ret
      = EXWORD_ERROR_INTERNAL ∧
    (run_command (run_commands (run_command (run_commands connected_handle [])
        (command.send_file "a.txt".toList [1, 2]) (answer 0x50)).self
        [(command.list, answer 0x20)]) command.unlock (answer 0x20)).self.io
      = (run_commands (run_command (run_commands connected_handle [])
        (command.send_file "a.txt".toList [1, 2]) (answer 0x50)).self
        [(command.list, answer 0x20)]).io ∧
    (run_command (run_commands (run_command (run_commands connected_handle [])
        (command.send_file "a.txt".toList [1, 2]) (answer 0x50)).self
        [(command.list, answer 0x20)]) command.unlock (answer 0x20)).self.status
      = (run_commands (run_command (run_commands connected_handle [])
        (command.send_file "a.txt".toList [1, 2]) (answer 0x50)).self
        [(command.list, answer 0x20)]).status :=
  internal_error_is_sticky connected_handle
    ⟨[api_call.connect 0 ⟨true, true, true, 0x20⟩], rfl⟩ [] [(command.list, answer 0x20)]
    (command.send_file "a.txt".toList [1, 2]) command.unlock (answer 0x50) (answer 0x20)
    (by decide)

/-! ## Poll, connect, disconnect -/

theorem exword_connect_failed (self : exword_t) (options : Nat) (o : connect_outcome)
    (h : ¬ transport_ok o) :
    (exword_connect self options o).self.status = self.status ∧
    (exword_connect self options o).ret = EXWORD_ERROR_OTHER := by
  unfold transport_ok at h
  unfold exword_connect
  split_ifs <;> simp_all [log]

theorem pump_status_of_reason (pumped : List libusb_transfer_status) (self : exword_t)
    (h7 : self.status &&& 0x07 ≠ 0) :
    (pumped.foldl exword_handle_interrupt self).status = self.status := by
  induction pumped generalizing self with
  | nil => rfl
  | cons st rest ih =>
    have hs : (exword_handle_interrupt self st).status = self.status := by
      rcases exword_handle_interrupt_status self st with h | ⟨h0, _⟩
      · exact h
      · exact absurd h0 h7
    show (rest.foldl exword_handle_interrupt (exword_handle_interrupt self st)).status = _
    rw [ih _ (by rw [hs]; exact h7), hs]

theorem after_pump_status_of_reason (self : exword_t) (pumped : List libusb_transfer_status)
    (h7 : self.status &&& 0x07 ≠ 0) : (after_pump self pumped).status = self.status := by
  unfold after_pump
  split_ifs
  · rw [pump_status_of_reason _ _ (by rw [log_status]; exact h7), log_status]
  · rfl

/-- The three status values with a fatal bit. -/
theorem poisoned_values (s : Nat) (hv : valid_status s) (h6 : s &&& 0x06 ≠ 0) :
    fatal_status s := by
  rcases hv with h | h | h | h | h | h <;> subst h <;> revert h6 <;> decide

theorem poisoned_step (self : exword_t) (a : api_call)
    (hp : fatal_status self.status)
    (ha : is_reinit a = false ∧ is_poll a = false) :
    fatal_status (step self a).status := by
  have h6 : self.status &&& 0x06 ≠ 0 := by
    rcases hp with h | h | h <;> rw [h] <;> decide
  cases a with
  | connect options o =>
    have hn : ¬ transport_ok o := by simpa [is_reinit] using ha.1
    show fatal_status (exword_connect self options o).self.status
    rw [(exword_connect_failed self options o hn).1]; exact hp
  | disconnect ok =>
    show fatal_status (exword_disconnect self ok).self.status
    rw [exword_disconnect_status]
    rcases hp with h | h | h <;> rw [h] <;> decide
  | cmd c o =>
    show fatal_status (run_command self c o).self.status
    rw [run_command_poisoned self c o h6]; exact hp
  | handle_interrupt st =>
    show fatal_status (exword_handle_interrupt self st).status
    rcases exword_handle_interrupt_status self st with h | ⟨h0, _⟩
    · rw [h]; exact hp
    · exact absurd h0 (and7_of_and6 _ h6)
  | poll_disconnect pumped ok => exact absurd ha.2 (by simp [is_poll])
  | register_disconnect_callback cb => exact hp

theorem poisoned_run (calls : List api_call) (self : exword_t)
    (hp : fatal_status self.status)
    (ha : ∀ a ∈ calls, is_reinit a = false ∧ is_poll a = false) :
    fatal_status (run self calls).status := by
  induction calls generalizing self with
  | nil => exact hp
  | cons a rest ih =>
    exact ih _ (poisoned_step self a hp (ha a (List.mem_cons_self _ _)))
      (fun b hb => ha b (List.mem_cons_of_mem _ hb))

theorem poll_clears_poison (self : exword_t) (pumped : List libusb_transfer_status) (ok : Bool)
    (hp : fatal_status self.status) :
    (exword_poll_disconnect self pumped ok).status = 0x80 := by
  have h7 : self.status &&& 0x07 ≠ 0 := by
    rcases hp with h | h | h <;> rw [h] <;> decide
  rw [exword_poll_disconnect_status, after_pump_status_of_reason self pumped h7]
  rcases hp with h | h | h <;> rw [h] <;> decide

theorem cleared_step (self : exword_t) (a : api_call) (hs : self.status = 0x80)
    (ha : is_reinit a = false ∧ is_interrupt a = false) : (step self a).status = 0x80 := by
  cases a with
  | connect options o =>
    have hn : ¬ transport_ok o := by simpa [is_reinit] using ha.1
    show (exword_connect self options o).self.status = _
    rw [(exword_connect_failed self options o hn).1]; exact hs
  | disconnect ok =>
    show (exword_disconnect self ok).self.status = _
    rw [exword_disconnect_status, hs]; decide
  | cmd c o =>
    show (run_command self c o).self.status = _
    rcases run_command_cases self c o with ⟨_, h⟩ | ⟨_, _, h⟩ | ⟨_, hc, _⟩ | ⟨_, hc, _⟩
    · rw [h]; exact hs
    · rw [h]; exact hs
    · simp [exword_is_connected, hs] at hc
    · simp [exword_is_connected, hs] at hc
  | handle_interrupt st => exact absurd ha.2 (by simp [is_interrupt])
  | poll_disconnect pumped ok =>
    show (exword_poll_disconnect self pumped ok).status = _
    have hap : after_pump self pumped = self := by
      simp [after_pump, exword_is_connected, hs]
    rw [exword_poll_disconnect_status, hap, hs]; decide
  | register_disconnect_callback cb => exact hs

theorem cleared_run (calls : List api_call) (self : exword_t) (hs : self.status = 0x80)
    (ha : ∀ a ∈ calls, is_reinit a = false ∧ is_interrupt a = false) :
    (run self calls).status = 0x80 := by
  induction calls generalizing self with
  | nil => exact hs
  | cons a rest ih =>
    exact ih _ (cleared_step self a hs (ha a (List.mem_cons_self _ _)))
      (fun b hb => ha b (List.mem_cons_of_mem _ hb))

theorem run_command_cleared (self : exword_t) (c : command) (o : outcome)
    (hs : self.status = 0x80) : run_command self c o = ⟨self, EXWORD_ERROR_NOT_FOUND⟩ := by
  rcases run_command_cases self c o with ⟨h6, _⟩ | ⟨_, _, h⟩ | ⟨_, hc, _⟩ | ⟨_, hc, _⟩
  · rw [hs] at h6; exact absurd rfl h6
  · exact h
  · simp [exword_is_connected, hs] at hc
  · simp [exword_is_connected, hs] at hc

/-- The status of a disconnected handle without fatal bit: 0x80, or 0x84 once an
unplug completion was latched. -/
theorem disconnected_step (self : exword_t) (a : api_call) (b : Bool)
    (hs : self.status = if b then 0x84 else 0x80) (ha : is_reinit a = false) :
    (step self a).status
      = if (if is_poll a then false else b || is_unplug a) then 0x84 else 0x80 := by
  have h80 : self.status &&& 0x80 ≠ 0 := by
    rw [hs]; cases b <;> decide
  have hnc : exword_is_connected self = false := by
    simp only [exword_is_connected, beq_eq_false_iff_ne, ne_eq]; exact h80
  cases a with
  | connect options o =>
    have hn : ¬ transport_ok o := by simpa [is_reinit] using ha
    show (exword_connect self options o).self.status = _
    rw [(exword_connect_failed self options o hn).1, hs]
    cases b <;> rfl
  | disconnect ok =>
    show (exword_disconnect self ok).self.status = _
    rw [exword_disconnect_status, if_neg h80, hs]
    cases b <;> rfl
  | cmd c o =>
    show (run_command self c o).self.status = _
    rcases run_command_cases self c o with ⟨_, h⟩ | ⟨_, _, h⟩ | ⟨_, hc, _⟩ | ⟨_, hc, _⟩
    · rw [h, hs]; cases b <;> rfl
    · rw [h, hs]; cases b <;> rfl
    · rw [hnc] at hc; exact absurd hc (by decide)
    · rw [hnc] at hc; exact absurd hc (by decide)
  | handle_interrupt st =>
    show (exword_handle_interrupt self st).status = _
    cases b
    · have h0 : self.status = 0x80 := hs
      cases st
      · exact h0
      · exact h0
      · show (if self.status &&& 0x07 = 0 then
            ({ self with status := self.status ||| EXWORD_DISCONNECT_UNPLUGGED } : exword_t)
          else self).status = 0x84
        rw [if_pos (by rw [h0]; decide)]
        show self.status ||| EXWORD_DISCONNECT_UNPLUGGED = 0x84
        rw [h0]; decide
      · show (if self.status &&& 0x07 = 0 then
            ({ self with status := self.status ||| EXWORD_DISCONNECT_UNPLUGGED } : exword_t)
          else self).status = 0x84
        rw [if_pos (by rw [h0]; decide)]
        show self.status ||| EXWORD_DISCONNECT_UNPLUGGED = 0x84
        rw [h0]; decide
      · exact h0
    · have h4 : self.status = 0x84 := hs
      have h7 : self.status &&& 0x07 ≠ 0 := by rw [h4]; decide
      rcases exword_handle_interrupt_status self st with h | ⟨h, _⟩
      · rw [h, h4]; cases st <;> rfl
      · exact absurd h h7
  | poll_disconnect pumped ok =>
    show (exword_poll_disconnect self pumped ok).status = 0x80
    have hap : after_pump self pumped = self := by
      simp [after_pump, hnc]
    rw [exword_poll_disconnect_status, hap, hs]
    cases b <;> decide
  | register_disconnect_callback cb =>
    show self.status = _
    rw [hs]; cases b <;> rfl

theorem disconnected_run (calls : List api_call) (self : exword_t) (b : Bool)
    (hs : self.status = if b then 0x84 else 0x80) (ha : ∀ a ∈ calls, is_reinit a = false) :
    (run self calls).status = if latched_after b calls then 0x84 else 0x80 := by
  induction calls generalizing self b with
  | nil => exact hs
  | cons a rest ih =>
    exact ih (step self a) _ (disconnected_step self a b hs (ha a (List.mem_cons_self _ _)))
      (fun x hx => ha x (List.mem_cons_of_mem _ hx))

theorem latched_after_quiet (calls : List api_call)
    (ha : ∀ a ∈ calls, is_interrupt a = false) : latched_after false calls = false := by
  induction calls with
  | nil => rfl
  | cons a rest ih =>
    have hu : is_unplug a = false := by
      have := ha a (List.mem_cons_self _ _)
      cases a <;> first | rfl | exact absurd this (by simp [is_interrupt])
    show latched_after (if is_poll a then false else false || is_unplug a) rest = false
    rw [hu]
    simp only [Bool.or_false, ite_self]
    exact ih (fun x hx => ha x (List.mem_cons_of_mem _ hx))

/-- A command on a disconnected handle with status 0x80 or 0x84 leaves the handle as it
is and returns NOT_FOUND or INTERNAL. -/
theorem run_command_disconnected (self : exword_t) (c : command) (o : outcome) (b : Bool)
    (hs : self.status = if b then 0x84 else 0x80) :
    run_command self c o
      = ⟨self, if b then EXWORD_ERROR_INTERNAL else EXWORD_ERROR_NOT_FOUND⟩ := by
  cases b
  · exact run_command_cleared self c o hs
  · have h4 : self.status = 0x84 := hs
    exact run_command_poisoned self c o (by rw [h4]; decide)

theorem exword_handle_interrupt_events (self : exword_t) (st : libusb_transfer_status) :
    (exword_handle_interrupt self st).events = self.events ∧
    (exword_handle_interrupt self st).disconnect_callback = self.disconnect_callback := by
  cases st <;> simp [exword_handle_interrupt, log] <;> split_ifs <;> simp

theorem pump_events (pumped : List libusb_transfer_status) (self : exword_t) :
    (pumped.foldl exword_handle_interrupt self).events = self.events ∧
    (pumped.foldl exword_handle_interrupt self).disconnect_callback
      = self.disconnect_callback := by
  induction pumped generalizing self with
  | nil => exact ⟨rfl, rfl⟩
  | cons st rest ih =>
    show (rest.foldl exword_handle_interrupt (exword_handle_interrupt self st)).events = _ ∧
      (rest.foldl exword_handle_interrupt (exword_handle_interrupt self st)).disconnect_callback
        = _
    rw [(ih _).1, (ih _).2, (exword_handle_interrupt_events self st).1,
      (exword_handle_interrupt_events self st).2]
    exact ⟨rfl, rfl⟩

theorem after_pump_events (self : exword_t) (pumped : List libusb_transfer_status) :
    (after_pump self pumped).events = self.events ∧
    (after_pump self pumped).disconnect_callback = self.disconnect_callback := by
  unfold after_pump
  split_ifs
  · rw [(pump_events _ _).1, (pump_events _ _).2]; exact ⟨rfl, rfl⟩
  · exact ⟨rfl, rfl⟩

theorem exword_disconnect_events (self : exword_t) (ok : Bool) :
    (exword_disconnect self ok).self.events = self.events := by
  unfold exword_disconnect
  cases ok <;> simp [log] <;> split_ifs <;> rfl

/-- The event `exword_poll_disconnect` hands to a registered callback when a reason
bit is set on entry. -/
theorem poll_event_of_reason (self : exword_t) (pumped : List libusb_transfer_status)
    (ok : Bool) (hcb : self.disconnect_callback = true) (h7 : self.status &&& 0x07 ≠ 0) :
    (exword_poll_disconnect self pumped ok).events = self.events ++ [self.status &&& 0x07] := by
  have hst := after_pump_status_of_reason self pumped h7
  have h7p : (after_pump self pumped).status &&& 0x07 ≠ 0 := by rw [hst]; exact h7
  unfold exword_poll_disconnect
  simp only [ne_eq, h7p, not_false_eq_true, if_true, exword_disconnect_events]
  simp [send_disconnect_event, (after_pump_events self pumped).2, hcb,
    (after_pump_events self pumped).1, hst]

/-- C4 (as stated, refuted): after a PUT answered with INTERNAL_SERVER_ERROR has
returned EXWORD_ERROR_INTERNAL, one `exword_poll_disconnect` clears the reason
bits, and the next command returns EXWORD_ERROR_NOT_FOUND although the handle
was not reinitialised. -/
theorem internal_error_cleared_by_poll :
    (run_command connected_handle (command.send_file "a.txt".toList [1, 2]) (answer 0x50)).ret
      = EXWORD_ERROR_INTERNAL ∧
    (exword_poll_disconnect
      (run_command connected_handle (command.send_file "a.txt".toList [1, 2])
        (answer 0x50)).self [] true).status = 0x80 ∧
    (run_command
      (exword_poll_disconnect
        (run_command connected_handle (command.send_file "a.txt".toList [1, 2])
          (answer 0x50)).self [] true)
      command.list (answer 0x20)).ret = EXWORD_ERROR_NOT_FOUND ∧
    EXWORD_ERROR_NOT_FOUND ≠ EXWORD_ERROR_INTERNAL := by
  decide

/-- C4 (amended): after a command has returned EXWORD_ERROR_INTERNAL on a handle
made by the API, every later command returns EXWORD_ERROR_INTERNAL and leaves
the handle untouched as long as neither `exword_poll_disconnect` nor a
successful `exword_connect` was called in between (`calls1`); one
`exword_poll_disconnect` sets the status to 0x80 and hands the reason to a
registered callback; from then on, until a successful `exword_connect`
(`calls2`, any calls but that), every command leaves the handle untouched and
returns EXWORD_ERROR_NOT_FOUND, or EXWORD_ERROR_INTERNAL when
`exword_handle_interrupt` has latched the unplugged reason after the last
`exword_poll_disconnect`; without interrupt completions in `calls2` it is
EXWORD_ERROR_NOT_FOUND. -/
theorem internal_error_until_poll (h : exword_t) (hr : reachable h) (c c2 : command)
    (o o2 : outcome) (calls1 calls2 : List api_call) (pumped : List libusb_transfer_status)
    (ok : Bool)
    (hint : (run_command h c o).ret = EXWORD_ERROR_INTERNAL)
    (h1 : ∀ a ∈ calls1, is_reinit a = false ∧ is_poll a = false)
    (h2 : ∀ a ∈ calls2, is_reinit a = false) :
    run_command (run (run_command h c o).self calls1) c2 o2
      = ⟨run (run_command h c o).self calls1, EXWORD_ERROR_INTERNAL⟩ ∧
    (exword_poll_disconnect (run (run_command h c o).self calls1) pumped ok).status = 0x80 ∧
    ((run (run_command h c o).self calls1).disconnect_callback = true →
      (exword_poll_disconnect (run (run_command h c o).self calls1) pumped ok).events
        = (run (run_command h c o).self calls1).events
          ++ [(run (run_command h c o).self calls1).status &&& 0x07]) ∧
    run_command
        (run (exword_poll_disconnect (run (run_command h c o).self calls1) pumped ok) calls2) c2 o2
      = ⟨run (exword_poll_disconnect (run (run_command h c o).self calls1) pumped ok) calls2,
          if unplugged_since_poll calls2 then EXWORD_ERROR_INTERNAL
          else EXWORD_ERROR_NOT_FOUND⟩ ∧
    ((∀ a ∈ calls2, is_interrupt a = false) →
      run_command
          (run (exword_poll_disconnect (run (run_command h c o).self calls1) pumped ok) calls2)
          c2 o2
        = ⟨run (exword_poll_disconnect (run (run_command h c o).self calls1) pumped ok) calls2,
            EXWORD_ERROR_NOT_FOUND⟩) := by
  have hv := reachable_valid _ hr
  have hp0 := poisoned_after_internal h c o hv hint
  have hf0 : fatal_status (run_command h c o).self.status :=
    poisoned_values _ (valid_run_command h c o hv) hp0
  have hf1 := poisoned_run calls1 _ hf0 h1
  have h6 : (run (run_command h c o).self calls1).status &&& 0x06 ≠ 0 := by
    rcases hf1 with e | e | e <;> rw [e] <;> decide
  have hc := poll_clears_poison _ pumped ok hf1
  have hrun := disconnected_run calls2 _ false hc h2
  have hcmd := run_command_disconnected _ c2 o2 (latched_after false calls2) hrun
  refine ⟨run_command_poisoned _ c2 o2 h6, hc,
    fun hcb => poll_event_of_reason _ pumped ok hcb (and7_of_and6 _ h6), hcmd, ?_⟩
  intro hq
  rw [hcmd, latched_after_quiet calls2 hq]
  rfl

/-- C4 witness: INTERNAL on a PUT, then a disconnect and an interrupt completion,
then the poll; after a failed connect a command returns NOT_FOUND, and after a
failed connect and one more interrupt completion with NO_DEVICE it returns
INTERNAL again. -/
theorem internal_error_until_poll_witness :
    run_command (run (run_command connected_handle (command.send_file "a.txt".toList [1, 2])
        (answer 0x50)).self
        [api_call.disconnect true, api_call.handle_interrupt libusb_transfer_status.NO_DEVICE])
        command.list (answer 0x20)
      = ⟨run (run_command connected_handle (command.send_file "a.txt".toList [1, 2])
        (answer 0x50)).self
        [api_call.disconnect true, api_call.handle_interrupt libusb_transfer_status.NO_DEVICE],
        EXWORD_ERROR_INTERNAL⟩ ∧
    (exword_poll_disconnect (run (run_command connected_handle (command.send_file "a.txt".toList [1, 2])
        (answer 0x50)).self
        [api_call.disconnect true, api_call.handle_interrupt libusb_transfer_status.NO_DEVICE]) [] true).status = 0x80 ∧
    run_command
        (run (exword_poll_disconnect (run (run_command connected_handle (command.send_file "a.txt".toList [1, 2])
        (answer 0x50)).self
        [api_call.disconnect true, api_call.handle_interrupt libusb_transfer_status.NO_DEVICE]) [] true)
          [api_call.connect 0 ⟨true, false, true, 0x20⟩]) command.list (answer 0x20)
      = ⟨run (exword_poll_disconnect (run (run_command connected_handle (command.send_file "a.txt".toList [1, 2])
        (answer 0x50)).self
        [api_call.disconnect true, api_call.handle_interrupt libusb_transfer_status.NO_DEVICE]) [] true)
          [api_call.connect 0 ⟨true, false, true, 0x20⟩],
          EXWORD_ERROR_NOT_FOUND⟩ ∧
    run_command
        (run (exword_poll_disconnect (run (run_command connected_handle (command.send_file "a.txt".toList [1, 2])
        (answer 0x50)).self
        [api_call.disconnect true, api_call.handle_interrupt libusb_transfer_status.NO_DEVICE]) [] true)
          [api_call.connect 0 ⟨true, false, true, 0x20⟩,
          api_call.handle_interrupt libusb_transfer_status.NO_DEVICE]) command.list (answer 0x20)
      = ⟨run (exword_poll_disconnect (run (run_command connected_handle (command.send_file "a.txt".toList [1, 2])
        (answer 0x50)).self
        [api_call.disconnect true, api_call.handle_interrupt libusb_transfer_status.NO_DEVICE]) [] true)
          [api_call.connect 0 ⟨true, false, true, 0x20⟩,
          api_call.handle_interrupt libusb_transfer_status.NO_DEVICE],
          EXWORD_ERROR_INTERNAL⟩ :=
  ⟨(internal_error_until_poll connected_handle
      ⟨[api_call.connect 0 ⟨true, true, true, 0x20⟩], rfl⟩
      (command.send_file "a.txt".toList [1, 2]) command.list (answer 0x50) (answer 0x20)
      [api_call.disconnect true, api_call.handle_interrupt libusb_transfer_status.NO_DEVICE]
      [api_call.connect 0 ⟨true, false, true, 0x20⟩] [] true
      (by decide) (by decide) (by decide)).1,
    (internal_error_until_poll connected_handle
      ⟨[api_call.connect 0 ⟨true, true, true, 0x20⟩], rfl⟩
      (command.send_file "a.txt".toList [1, 2]) command.list (answer 0x50) (answer 0x20)
      [api_call.disconnect true, api_call.handle_interrupt libusb_transfer_status.NO_DEVICE]
      [api_call.connect 0 ⟨true, false, true, 0x20⟩] [] true
      (by decide) (by decide) (by decide)).2.1,
    (internal_error_until_poll connected_handle
      ⟨[api_call.connect 0 ⟨true, true, true, 0x20⟩], rfl⟩
      (command.send_file "a.txt".toList [1, 2]) command.list (answer 0x50) (answer 0x20)
      [api_call.disconnect true, api_call.handle_interrupt libusb_transfer_status.NO_DEVICE]
      [api_call.connect 0 ⟨true, false, true, 0x20⟩] [] true
      (by decide) (by decide) (by decide)).2.2.2.2 (by decide),
    (internal_error_until_poll connected_handle
      ⟨[api_call.connect 0 ⟨true, true, true, 0x20⟩], rfl⟩
      (command.send_file "a.txt".toList [1, 2]) command.list (answer 0x50) (answer 0x20)
      [api_call.disconnect true, api_call.handle_interrupt libusb_transfer_status.NO_DEVICE]
      [api_call.connect 0 ⟨true, false, true, 0x20⟩,
          api_call.handle_interrupt libusb_transfer_status.NO_DEVICE] [] true
      (by decide) (by decide) (by decide)).2.2.2.1⟩

/-! ## Connected and reason bits -/

/-- Every call other than `exword_handle_interrupt` keeps the status among the four
values of `quiet_status`. -/
theorem quiet_step (self : exword_t) (a : api_call) (hq : quiet_status self.status)
    (ha : is_interrupt a = false) : quiet_status (step self a).status := by
  have hv : valid_status self.status := by
    rcases hq with h | h | h | h <;> rw [h] <;> decide
  cases a with
  | connect options o =>
    show quiet_status (exword_connect self options o).self.status
    rcases exword_connect_status self options o with h | h
    · rw [h]; exact hq
    · rw [h]; decide
  | disconnect ok =>
    show quiet_status (exword_disconnect self ok).self.status
    rw [exword_disconnect_status]
    rcases hq with h | h | h | h <;> rw [h] <;> decide
  | cmd c o =>
    show quiet_status (run_command self c o).self.status
    rcases run_command_cases self c o with ⟨_, h⟩ | ⟨_, _, h⟩ | ⟨_, _, h | h⟩ | ⟨h6, hc, op, h⟩
    · rw [h]; exact hq
    · rw [h]; exact hq
    · rw [h]; exact hq
    · rw [h]; exact hq
    · rw [h]
      by_cases hr : o.rsp = OBEX_RSP_INTERNAL_SERVER_ERROR
      · rw [hr, (obex_to_exword_error_internal _ _).2, log_status]
        rcases hq with h | h | h | h <;> rw [h] <;> decide
      · rw [(obex_to_exword_error_of_ne _ _ _ hr).1, log_status]; exact hq
  | handle_interrupt st => exact absurd ha (by simp [is_interrupt])
  | poll_disconnect pumped ok =>
    show quiet_status (exword_poll_disconnect self pumped ok).status
    rw [exword_poll_disconnect_status]
    rcases valid_after_pump self pumped hv with h | h | h | h | h | h <;> rw [h] <;> decide
  | register_disconnect_callback cb => exact hq

theorem quiet_run (calls : List api_call) (self : exword_t) (hq : quiet_status self.status)
    (ha : ∀ a ∈ calls, is_interrupt a = false) : quiet_status (run self calls).status := by
  induction calls generalizing self with
  | nil => exact hq
  | cons a rest ih =>
    exact ih _ (quiet_step self a hq (ha a (List.mem_cons_self _ _)))
      (fun b hb => ha b (List.mem_cons_of_mem _ hb))

/-- C5 (as stated, refuted): after `exword_init`, a successful `exword_connect` and
one `exword_handle_interrupt` with NO_DEVICE the handle is connected (bit 0x80
clear) and carries the unplugged reason. -/
theorem connected_with_reason_after_interrupt :
    exword_is_connected (run exword_init
      [api_call.connect 0 ⟨true, true, true, 0x20⟩,
       api_call.handle_interrupt libusb_transfer_status.NO_DEVICE]) = true ∧
    (run exword_init
      [api_call.connect 0 ⟨true, true, true, 0x20⟩,
       api_call.handle_interrupt libusb_transfer_status.NO_DEVICE]).status &&& 0x07 ≠ 0 := by
  decide

/-- C5 (amended): in every state reached from `exword_init` by `exword_connect`,
`exword_disconnect`, device commands, `exword_handle_interrupt` and
`exword_poll_disconnect`, a connected status never carries the reason NORMAL or
ERROR: it is 0 or exactly the UNPLUGGED bit, which `exword_handle_interrupt`
latches; and when `exword_handle_interrupt` is not among the calls, a connected
status carries no reason bit at all. -/
theorem connected_reason_only_unplugged (calls : List api_call)
    (hc : exword_is_connected (run exword_init calls) = true) :
    ((run exword_init calls).status = 0 ∨
      (run exword_init calls).status = EXWORD_DISCONNECT_UNPLUGGED) ∧
    (run exword_init calls).status &&&
      (EXWORD_DISCONNECT_NORMAL ||| EXWORD_DISCONNECT_ERROR) = 0 ∧
    ((∀ a ∈ calls, is_interrupt a = false) → (run exword_init calls).status &&& 0x07 = 0) := by
  have hv : valid_status (run exword_init calls).status := valid_run calls _ (by decide)
  simp only [exword_is_connected, beq_iff_eq] at hc
  refine ⟨?_, ?_, ?_⟩
  · rcases hv with h | h | h | h | h | h <;> rw [h] at hc ⊢ <;> revert hc <;> decide
  · rcases hv with h | h | h | h | h | h <;> rw [h] at hc ⊢ <;> revert hc <;> decide
  · intro hq
    have := quiet_run calls exword_init (by decide) hq
    rcases this with h | h | h | h <;> rw [h] at hc ⊢ <;> revert hc <;> decide

/-- C5 witness: the handle right after a successful connect. -/
theorem connected_reason_only_unplugged_witness :
    ((run exword_init [api_call.connect 0 ⟨true, true, true, 0x20⟩]).status = 0 ∨
      (run exword_init [api_call.connect 0 ⟨true, true, true, 0x20⟩]).status
        = EXWORD_DISCONNECT_UNPLUGGED) ∧
    (run exword_init [api_call.connect 0 ⟨true, true, true, 0x20⟩]).status &&&
      (EXWORD_DISCONNECT_NORMAL ||| EXWORD_DISCONNECT_ERROR) = 0 ∧
    (run exword_init [api_call.connect 0 ⟨true, true, true, 0x20⟩]).status &&& 0x07 = 0 :=
  ⟨(connected_reason_only_unplugged [api_call.connect 0 ⟨true, true, true, 0x20⟩]
      (by decide)).1,
   (connected_reason_only_unplugged [api_call.connect 0 ⟨true, true, true, 0x20⟩]
      (by decide)).2.1,
   (connected_reason_only_unplugged [api_call.connect 0 ⟨true, true, true, 0x20⟩]
      (by decide)).2.2 (by decide)⟩

/-! ## Disconnect and connect -/

theorem exword_disconnect_not_connected (self : exword_t) (ok : Bool) :
    exword_is_connected (exword_disconnect self ok).self = false := by
  have hs := exword_disconnect_status self ok
  simp only [exword_is_connected, beq_eq_false_iff_ne, ne_eq]
  rw [hs]
  by_cases hc : self.status &&& 0x80 = 0
  · rw [if_pos hc]
    split_ifs
    · rw [EXWORD_DISCONNECT_NORMAL, or1_and80]; exact or80_and80 _
    · exact or80_and80 _
  · rw [if_neg hc]; exact hc

/-- C6: after `exword_disconnect` (whatever the handle was) the handle is not
connected; a following `exword_connect` returns EXWORD_SUCCESS exactly when the
transport steps all succeed, leaves the handle connected exactly then, and
otherwise returns EXWORD_ERROR_OTHER with the handle still disconnected. -/
theorem connect_after_disconnect (self : exword_t) (obj_ok : Bool) (options : Nat)
    (o : connect_outcome) :
    exword_is_connected (exword_disconnect self obj_ok).self = false ∧
    ((exword_connect (exword_disconnect self obj_ok).self options o).ret = EXWORD_SUCCESS
      ↔ transport_ok o) ∧
    (exword_is_connected (exword_connect (exword_disconnect self obj_ok).self options o).self
      = true ↔ transport_ok o) ∧
    (transport_ok o ∨
      ((exword_connect (exword_disconnect self obj_ok).self options o).ret = EXWORD_ERROR_OTHER ∧
       exword_is_connected (exword_connect (exword_disconnect self obj_ok).self options o).self
        = false)) := by
  have hd := exword_disconnect_not_connected self obj_ok
  generalize (exword_disconnect self obj_ok).self = d at hd
  have hfail : ¬ transport_ok o →
      (exword_connect d options o).ret = EXWORD_ERROR_OTHER ∧
      exword_is_connected (exword_connect d options o).self = false := by
    intro hn
    refine ⟨(exword_connect_failed d options o hn).2, ?_⟩
    have hst := (exword_connect_failed d options o hn).1
    simp only [exword_is_connected] at hd ⊢
    rw [hst]; exact hd
  have hok : transport_ok o →
      (exword_connect d options o).ret = EXWORD_SUCCESS ∧
      exword_is_connected (exword_connect d options o).self = true := by
    intro ht
    obtain ⟨h1, h2, h3, h4⟩ := ht
    have hd2 : ¬ d.status &&& 0x80 = 0 := by
      simpa [exword_is_connected] using hd
    simp [exword_connect, h1, h2, h3, h4, log, exword_is_connected, hd2]
  refine ⟨hd, ⟨?_, fun ht => (hok ht).1⟩, ⟨?_, fun ht => (hok ht).2⟩,
    (Classical.em (transport_ok o)).imp_right hfail⟩
  · intro hret
    by_contra hn
    rw [(hfail hn).1] at hret
    exact absurd hret (by decide)
  · intro hcon
    by_contra hn
    rw [(hfail hn).2] at hcon
    exact absurd hcon (by decide)

/-- C7: `exword_disconnect` on a handle that is not connected returns
EXWORD_SUCCESS and leaves the whole handle (status and transport log) as it
was; applied twice it gives the status of applying it once; on a connected
handle it sets bit 0x80, latches the reason NORMAL when no reason bit was set
and keeps the reason bits as they were when one was set. -/
theorem disconnect_idempotent (self : exword_t) (ok ok2 : Bool) :
    (exword_is_connected self = false →
      exword_disconnect self ok = ⟨self, EXWORD_SUCCESS⟩) ∧
    (exword_disconnect (exword_disconnect self ok).self ok2).self.status
      = (exword_disconnect self ok).self.status ∧
    (exword_is_connected self = true →
      (exword_disconnect self ok).self.status &&& 0x80 ≠ 0 ∧
      (self.status &&& 0x07 = 0 →
        (exword_disconnect self ok).self.status
          = self.status ||| 0x80 ||| EXWORD_DISCONNECT_NORMAL ∧
        (exword_disconnect self ok).self.status &&& 0x07 = EXWORD_DISCONNECT_NORMAL) ∧
      (self.status &&& 0x07 ≠ 0 →
        (exword_disconnect self ok).self.status = self.status ||| 0x80 ∧
        (exword_disconnect self ok).self.status &&& 0x07 = self.status &&& 0x07)) := by
  refine ⟨?_, ?_, ?_⟩
  · intro hc
    simp [exword_disconnect, hc]
  · have hd := exword_disconnect_not_connected self ok
    generalize (exword_disconnect self ok).self = d at hd
    simp [exword_disconnect, hd]
  · intro hc
    have hd := exword_disconnect_not_connected self ok
    simp only [exword_is_connected, beq_iff_eq, beq_eq_false_iff_ne, ne_eq] at hc hd
    refine ⟨hd, ?_, ?_⟩
    · intro h7
      rw [exword_disconnect_status, if_pos hc, or80_and7, if_pos h7]
      exact ⟨rfl, or81_and7 _ h7⟩
    · intro h7
      rw [exword_disconnect_status, if_pos hc, or80_and7, if_neg h7]
      exact ⟨rfl, or80_and7 _⟩

/-- C7 witness: disconnecting a handle that was never connected, and a connected
one without reason. -/
theorem disconnect_idempotent_witness :
    exword_disconnect exword_init true = ⟨exword_init, EXWORD_SUCCESS⟩ ∧
    (exword_disconnect connected_handle true).self.status &&& 0x80 ≠ 0 ∧
    (exword_disconnect connected_handle true).self.status
      = connected_handle.status ||| 0x80 ||| EXWORD_DISCONNECT_NORMAL ∧
    (exword_disconnect connected_handle true).self.status &&& 0x07
      = EXWORD_DISCONNECT_NORMAL :=
  ⟨(disconnect_idempotent exword_init true true).1 (by decide),
   ((disconnect_idempotent connected_handle true true).2.2 (by decide)).1,
   (((disconnect_idempotent connected_handle true true).2.2 (by decide)).2.1 (by decide)).1,
   (((disconnect_idempotent connected_handle true true).2.2 (by decide)).2.1 (by decide)).2⟩

/-! ## The disconnect event -/

theorem or4_and7 (s : Nat) (h : s &&& 0x07 = 0) : (s ||| 0x04) &&& 0x07 ≠ 0 := by
  rw [Nat.and_distrib_right, h]; decide

theorem pump_status_cases (pumped : List libusb_transfer_status) (self : exword_t) :
    (pumped.foldl exword_handle_interrupt self).status = self.status ∨
    (pumped.foldl exword_handle_interrupt self).status &&& 0x07 ≠ 0 := by
  induction pumped generalizing self with
  | nil => exact Or.inl rfl
  | cons st rest ih =>
    show (rest.foldl exword_handle_interrupt (exword_handle_interrupt self st)).status = _ ∨
      (rest.foldl exword_handle_interrupt (exword_handle_interrupt self st)).status &&& 0x07 ≠ 0
    rcases exword_handle_interrupt_status self st with h | ⟨h0, h⟩
    · rcases ih (exword_handle_interrupt self st) with h2 | h2
      · exact Or.inl (h2.trans h)
      · exact Or.inr h2
    · have h7 : (exword_handle_interrupt self st).status &&& 0x07 ≠ 0 := by
        rw [h]; exact or4_and7 _ h0
      right
      rw [pump_status_of_reason rest _ h7]; exact h7

theorem after_pump_status_cases (self : exword_t) (pumped : List libusb_transfer_status) :
    (after_pump self pumped).status = self.status ∨
    (after_pump self pumped).status &&& 0x07 ≠ 0 := by
  unfold after_pump
  split_ifs
  · rcases pump_status_cases pumped (log self io_event.libusb_handle_events_timeout) with h | h
    · exact Or.inl h
    · exact Or.inr h
  · exact Or.inl rfl

/-- What `exword_poll_disconnect` does when a reason bit is set at its check. -/
theorem poll_disconnect_with_reason (self : exword_t) (pumped pumped2 : List libusb_transfer_status)
    (ok ok2 : Bool) (hcb : self.disconnect_callback = true)
    (h7 : (after_pump self pumped).status &&& 0x07 ≠ 0) :
    (exword_poll_disconnect self pumped ok).events
      = self.events ++ [(after_pump self pumped).status &&& 0x07] ∧
    exword_is_connected (exword_poll_disconnect self pumped ok) = false ∧
    (exword_poll_disconnect self pumped ok).status &&& 0x07 = 0 ∧
    (exword_poll_disconnect (exword_poll_disconnect self pumped ok) pumped2 ok2).events
      = (exword_poll_disconnect self pumped ok).events := by
  have hev : (exword_poll_disconnect self pumped ok).events
      = self.events ++ [(after_pump self pumped).status &&& 0x07] := by
    unfold exword_poll_disconnect
    simp only [ne_eq, h7, not_false_eq_true, if_true, exword_disconnect_events]
    simp [send_disconnect_event, (after_pump_events self pumped).2, hcb,
      (after_pump_events self pumped).1]
  have hst : (exword_poll_disconnect self pumped ok).status
      = (exword_disconnect (send_disconnect_event (after_pump self pumped)
          ((after_pump self pumped).status &&& 0x07)) ok).self.status &&& 0xFFFFFFF8 := by
    unfold exword_poll_disconnect
    simp only [ne_eq, h7, not_false_eq_true, if_true]
  have hnc : exword_is_connected (exword_poll_disconnect self pumped ok) = false := by
    have hd := exword_disconnect_not_connected (send_disconnect_event (after_pump self pumped)
          ((after_pump self pumped).status &&& 0x07)) ok
    simp only [exword_is_connected, beq_eq_false_iff_ne, ne_eq] at hd ⊢
    rw [hst, mask_and80]; exact hd
  have h0 : (exword_poll_disconnect self pumped ok).status &&& 0x07 = 0 := by
    rw [hst]; exact mask_and7 _
  refine ⟨hev, hnc, h0, ?_⟩
  generalize exword_poll_disconnect self pumped ok = r at hnc h0
  have hap : after_pump r pumped2 = r := by simp [after_pump, hnc]
  unfold exword_poll_disconnect
  rw [hap]
  simp [h0]

/-- C8: with a disconnect callback registered, `exword_poll_disconnect` on a handle
with a reason bit set invokes the callback exactly once, with the argument
`status & 0x07`, and returns with the handle disconnected and the reason bits
clear, so that the next `exword_poll_disconnect` invokes no callback; the same
holds when the reason bit is latched by the event pump of this very call; when
no reason bit is set at the check, and so when none is set on entry and the
pump delivers nothing, it invokes no callback and leaves the status as it was
on entry. -/
theorem poll_disconnect_fires_once (self : exword_t)
    (pumped pumped2 : List libusb_transfer_status) (ok ok2 : Bool)
    (hcb : self.disconnect_callback = true) :
    (self.status &&& 0x07 ≠ 0 →
      (exword_poll_disconnect self pumped ok).events = self.events ++ [self.status &&& 0x07] ∧
      exword_is_connected (exword_poll_disconnect self pumped ok) = false ∧
      (exword_poll_disconnect self pumped ok).status &&& 0x07 = 0 ∧
      (exword_poll_disconnect (exword_poll_disconnect self pumped ok) pumped2 ok2).events
        = (exword_poll_disconnect self pumped ok).events) ∧
    ((after_pump self pumped).status &&& 0x07 ≠ 0 →
      (exword_poll_disconnect self pumped ok).events
        = self.events ++ [(after_pump self pumped).status &&& 0x07] ∧
      exword_is_connected (exword_poll_disconnect self pumped ok) = false ∧
      (exword_poll_disconnect self pumped ok).status &&& 0x07 = 0 ∧
      (exword_poll_disconnect (exword_poll_disconnect self pumped ok) pumped2 ok2).events
        = (exword_poll_disconnect self pumped ok).events) ∧
    ((after_pump self pumped).status &&& 0x07 = 0 →
      self.status &&& 0x07 = 0 ∧
      (exword_poll_disconnect self pumped ok).events = self.events ∧
      (exword_poll_disconnect self pumped ok).status = self.status) ∧
    (self.status &&& 0x07 = 0 →
      (exword_poll_disconnect self [] ok).events = self.events ∧
      (exword_poll_disconnect self [] ok).status = self.status) := by
  refine ⟨?_, poll_disconnect_with_reason self pumped pumped2 ok ok2 hcb, ?_, ?_⟩
  · intro h7
    have hs := after_pump_status_of_reason self pumped h7
    have := poll_disconnect_with_reason self pumped pumped2 ok ok2 hcb (by rw [hs]; exact h7)
    rw [hs] at this
    exact this
  · intro h0
    have hs : (after_pump self pumped).status = self.status := by
      rcases after_pump_status_cases self pumped with h | h
      · exact h
      · exact absurd h0 h
    refine ⟨by rw [← hs]; exact h0, ?_, ?_⟩
    · unfold exword_poll_disconnect
      simp [h0, (after_pump_events self pumped).1]
    · unfold exword_poll_disconnect
      simp only [ne_eq, h0, not_true_eq_false, if_false]
      exact hs
  · intro h0
    have hs : (after_pump self []).status = self.status := by
      unfold after_pump; split_ifs <;> rfl
    have he : (after_pump self []).events = self.events := (after_pump_events self []).1
    have h0' : (after_pump self []).status &&& 0x07 = 0 := by rw [hs]; exact h0
    unfold exword_poll_disconnect
    simp only [ne_eq, h0', not_true_eq_false, if_false]
    exact ⟨he, hs⟩

/-- C8 witness: a connected handle with a callback, poisoned by an internal error;
and a connected handle without reason. -/
theorem poll_disconnect_fires_once_witness :
    ((exword_poll_disconnect
        (run_command (exword_register_disconnect_callback connected_handle true)
          command.lock (answer 0x50)).self [] true).events = [EXWORD_DISCONNECT_ERROR] ∧
      exword_is_connected (exword_poll_disconnect
        (run_command (exword_register_disconnect_callback connected_handle true)
          command.lock (answer 0x50)).self [] true) = false) ∧
    (exword_poll_disconnect (exword_register_disconnect_callback connected_handle true)
        [libusb_transfer_status.TIMED_OUT] true).events = [] ∧
    (exword_poll_disconnect (exword_register_disconnect_callback connected_handle true)
        [libusb_transfer_status.TIMED_OUT] true).status = 0 :=
  ⟨⟨((poll_disconnect_fires_once
        (run_command (exword_register_disconnect_callback connected_handle true)
          command.lock (answer 0x50)).self [] [] true true (by decide)).1 (by decide)).1,
    ((poll_disconnect_fires_once
        (run_command (exword_register_disconnect_callback connected_handle true)
          command.lock (answer 0x50)).self [] [] true true (by decide)).1 (by decide)).2.1⟩,
   ((poll_disconnect_fires_once (exword_register_disconnect_callback connected_handle true)
        [libusb_transfer_status.TIMED_OUT] [] true true (by decide)).2.2.1 (by decide)).2.1,
   ((poll_disconnect_fires_once (exword_register_disconnect_callback connected_handle true)
        [libusb_transfer_status.TIMED_OUT] [] true true (by decide)).2.2.1 (by decide)).2.2⟩

/-! ## The admini scan -/

theorem getD_zero_length_le (id : List Nat) (hid : ∀ b ∈ id, b ≠ 0) (k : Nat)
    (h : id.getD k 0 = 0) : id.length ≤ k := by
  by_contra hlt
  push_neg at hlt
  rw [List.getD_eq_getElem id 0 hlt] at h
  exact hid _ (List.getElem_mem hlt) h

theorem strncmp_from_iff (buffer : List Nat) (heap : Nat → Nat) (i : Nat) (id : List Nat)
    (hid : ∀ b ∈ id, b ≠ 0)
    (hpad : ∀ a b, a ≤ b → b < 32 → peek buffer heap (i + a) = 0 → peek buffer heap (i + b) = 0) :
    ∀ n k, n + k = 32 →
      (strncmp_from buffer heap i id n k = true ↔
        ∀ m, k ≤ m → m < 32 → peek buffer heap (i + m) = id.getD m 0) := by
  intro n
  induction n with
  | zero =>
    intro k hk
    simp only [strncmp_from, true_iff]
    intro m h1 h2; omega
  | succ n ih =>
    intro k hk
    unfold strncmp_from
    by_cases hne : peek buffer heap (i + k) = id.getD k 0
    · by_cases hz : peek buffer heap (i + k) = 0
      · simp only [ne_eq, hne, not_true_eq_false, if_false, hne ▸ hz, if_true, true_iff]
        intro m h1 h2
        have hl := getD_zero_length_le id hid k (hne ▸ hz)
        rw [hpad k m h1 h2 hz, List.getD_eq_default _ _ (by omega)]
      · have hz2 : ¬ id.getD k 0 = 0 := fun h => hz (hne.trans h)
        simp only [ne_eq, hne, not_true_eq_false, if_false, hz2]
        rw [ih (k + 1) (by omega)]
        constructor
        · intro h m h1 h2
          by_cases hm : m = k
          · rw [hm]; exact hne
          · exact h m (by omega) h2
        · intro h m h1 h2
          exact h m (by omega) h2
    · simp only [ne_eq, hne, not_false_eq_true, if_true, Bool.false_eq_true, false_iff]
      intro h
      exact hne (h k (Nat.le_refl _) (by omega))

theorem peek_record_id (buffer : List Nat) (heap : Nat → Nat) (n j m : Nat)
    (hlen : buffer.length = 180 * n) (hj : j < n) (hm : m < 32) :
    peek buffer heap (180 * j + m) = (record_id buffer j).getD m 0 := by
  have hin : 180 * j + m < buffer.length := by omega
  simp [peek, record_id, hin, List.getElem?_take, hm, List.getElem?_drop]

theorem record_id_length (buffer : List Nat) (n j : Nat)
    (hlen : buffer.length = 180 * n) (hj : j < n) : (record_id buffer j).length = 32 := by
  simp [record_id]; omega

theorem pad32_length (id : List Nat) (h : id.length ≤ 32) : (pad32 id).length = 32 := by
  simp [pad32]; omega

theorem pad32_getD (id : List Nat) (m : Nat) : (pad32 id).getD m 0 = id.getD m 0 := by
  unfold pad32
  by_cases h : m < id.length
  · rw [List.getD_eq_getElem _ _ (by simp; omega), List.getD_eq_getElem _ _ h,
      List.getElem_append_left h]
  · push_neg at h
    rw [List.getD_eq_default id 0 h]
    simp only [List.getD_eq_getElem?_getD]
    rw [List.getElem?_append_right h, List.getElem?_replicate]
    split_ifs <;> rfl

theorem eq_of_getD_eq (xs ys : List Nat) (hx : xs.length = 32) (hy : ys.length = 32)
    (h : ∀ m, m < 32 → xs.getD m 0 = ys.getD m 0) : xs = ys := by
  apply List.ext_getElem (hx.trans hy.symm)
  intro m h1 h2
  have := h m (by omega)
  rwa [List.getD_eq_getElem _ _ h1, List.getD_eq_getElem _ _ h2] at this

/-- On a buffer of whole records with NUL-padded id fields, `strncmp` over 32 bytes
decides equality of the id field with the NUL-padded id. -/
theorem strncmp32_eq_iff (buffer : List Nat) (heap : Nat → Nat) (id : List Nat) (n j : Nat)
    (hlen : buffer.length = 180 * n) (hj : j < n)
    (hid : ∀ b ∈ id, b ≠ 0) (hid32 : id.length ≤ 32)
    (hpad : nul_padded (record_id buffer j)) :
    strncmp32_eq buffer heap (180 * j) id = true ↔ record_id buffer j = pad32 id := by
  unfold strncmp32_eq
  rw [strncmp_from_iff buffer heap (180 * j) id hid ?_ 32 0 rfl]
  · constructor
    · intro h
      apply eq_of_getD_eq _ _ (record_id_length buffer n j hlen hj) (pad32_length id hid32)
      intro m hm
      rw [pad32_getD, ← peek_record_id buffer heap n j m hlen hj hm]
      exact h m (Nat.zero_le _) hm
    · intro h m _ hm
      rw [peek_record_id buffer heap n j m hlen hj hm, h, pad32_getD]
  · intro a b hab hb ha
    rw [peek_record_id buffer heap n j b hlen hj hb]
    rw [peek_record_id buffer heap n j a hlen hj (by omega)] at ha
    exact hpad b (by rw [record_id_length buffer n j hlen hj]; exact hb) a hab ha

theorem memcpy180_record (buffer : List Nat) (heap : Nat → Nat) (n j : Nat)
    (hlen : buffer.length = 180 * n) (hj : j < n) :
    memcpy180 buffer heap (180 * j) = record buffer j := by
  apply List.ext_getElem
  · simp [memcpy180, record]; omega
  · intro m h1 h2
    have hm : m < 180 := by simpa [memcpy180] using h1
    have hin : 180 * j + m < buffer.length := by omega
    simp [memcpy180, record, peek, hin, List.getD_eq_getElem _ _ hin]

/-- The loop of `_find` started at record `j` stops at the first matching record
from `j` on, or at the end of the buffer. -/
theorem find_scan_spec (buffer : List Nat) (heap : Nat → Nat) (id : List Nat) (n : Nat) :
    ∀ fuel j, j ≤ n → n - j < fuel →
      ((∀ t, j ≤ t → t < n → strncmp32_eq buffer heap (180 * t) id = false) →
        find_scan buffer heap id (180 * n) fuel (180 * j) = 180 * n) ∧
      (∀ t, j ≤ t → t < n → strncmp32_eq buffer heap (180 * t) id = true →
        (∀ u, j ≤ u → u < t → strncmp32_eq buffer heap (180 * u) id = false) →
        find_scan buffer heap id (180 * n) fuel (180 * j) = 180 * t) := by
  intro fuel
  induction fuel with
  | zero => intro j _ h; omega
  | succ fuel ih =>
    intro j hj hf
    by_cases hjn : j = n
    · subst hjn
      constructor
      · intro _; simp [find_scan]
      · intro t h1 h2; omega
    · have hlt : 180 * j < 180 * n := by omega
      have hstep : 180 * j + 180 = 180 * (j + 1) := by ring
      constructor
      · intro hall
        have h0 := hall j (Nat.le_refl _) (by omega)
        simp only [find_scan, hlt, if_true, h0, Bool.false_eq_true, if_false, hstep]
        exact (ih (j + 1) (by omega) (by omega)).1 (fun t h1 h2 => hall t (by omega) h2)
      · intro t h1 h2 hmatch hbefore
        by_cases htj : t = j
        · subst htj
          simp [find_scan, hlt, hmatch]
        · have h0 := hbefore j (Nat.le_refl _) (by omega)
          simp only [find_scan, hlt, if_true, h0, Bool.false_eq_true, if_false, hstep]
          exact (ih (j + 1) (by omega) (by omega)).2 t (by omega) h2 hmatch
            (fun u h3 h4 => hbefore u (by omega) h4)

/-- The loop of `_find` never stops for lack of fuel: with `len + 1` iterations it
ends at or behind the end of the buffer, or at an offset where `strncmp`
reports equality. -/
theorem find_scan_stops (buffer : List Nat) (heap : Nat → Nat) (id : List Nat) (len : Nat) :
    ∀ fuel i, len < i + 180 * fuel →
      len ≤ find_scan buffer heap id len fuel i ∨
      (find_scan buffer heap id len fuel i < len ∧
        strncmp32_eq buffer heap (find_scan buffer heap id len fuel i) id = true) := by
  intro fuel
  induction fuel with
  | zero => intro i h; left; simp only [find_scan]; omega
  | succ fuel ih =>
    intro i h
    by_cases hlt : i < len
    · cases hb : strncmp32_eq buffer heap i id with
      | true => right; simp [find_scan, hlt, hb]
      | false =>
        simp only [find_scan, hlt, if_true, hb, Bool.false_eq_true, if_false]
        exact ih (i + 180) (by omega)
    · left; simp only [find_scan, hlt, if_false]; omega

set_option maxRecDepth 100000 in
/-- C9 (as stated, refuted): a buffer of one whole record whose first 32 bytes are
`AB`, NUL, `X`, NUL, ...; no record's first 32 bytes equal the id `AB` padded
with NUL bytes, and still `_find` returns 1 with that record. -/
theorem find_matches_unpadded_field :
    admini_unpadded.length = 180 ∧
    (∀ j, j < 1 → record_id admini_unpadded j ≠ pad32 [65, 66]) ∧
    (_find 0 admini_unpadded (fun _ => 0) [65, 66]).ret = 1 ∧
    (_find 0 admini_unpadded (fun _ => 0) [65, 66]).ini = some admini_unpadded := by
  decide

/-- C9 (amended): for every admini buffer that consists of whole 180-byte records
whose 32-byte id fields are NUL-padded, and every id of at most 32 non-NUL
bytes, `_find` returns 1 and copies out the record with the smallest index whose
first 32 bytes equal the id padded with NUL bytes to 32, and returns 0, copying
nothing, when no record's first 32 bytes equal it; what lies behind the buffer
on the heap plays no part. -/
theorem find_first_match (rsp : Int) (buffer : List Nat) (heap : Nat → Nat) (id : List Nat)
    (n : Nat) (hrsp : 0 ≤ rsp) (hlen : buffer.length = 180 * n)
    (hid : ∀ b ∈ id, b ≠ 0) (hid32 : id.length ≤ 32)
    (hpad : ∀ j, j < n → nul_padded (record_id buffer j)) :
    (∀ j, j < n → record_id buffer j = pad32 id →
      (∀ u, u < j → record_id buffer u ≠ pad32 id) →
      (_find rsp buffer heap id).ret = 1 ∧
      (_find rsp buffer heap id).offset = 180 * j ∧
      (_find rsp buffer heap id).ini = some (record buffer j)) ∧
    ((∀ j, j < n → record_id buffer j ≠ pad32 id) →
      (_find rsp buffer heap id).ret = 0 ∧
      (_find rsp buffer heap id).ini = none) := by
  have hnr : ¬ rsp < 0 := by omega
  have hscan := find_scan_spec buffer heap id n (180 * n + 1) 0 (Nat.zero_le _) (by omega)
  have hiff : ∀ t, t < n →
      (strncmp32_eq buffer heap (180 * t) id = true ↔ record_id buffer t = pad32 id) :=
    fun t ht => strncmp32_eq_iff buffer heap id n t hlen ht hid hid32 (hpad t ht)
  constructor
  · intro j hj hmatch hfirst
    have hs := hscan.2 j (Nat.zero_le _) hj ((hiff j hj).2 hmatch) (fun u _ hu => by
      have hne := hfirst u hu
      cases hb : strncmp32_eq buffer heap (180 * u) id with
      | false => rfl
      | true => exact absurd ((hiff u (by omega)).1 hb) hne)
    have hlt : ¬ 180 * n ≤ 180 * j := by omega
    simp only [_find, hnr, if_false, hlen, Nat.mul_zero] at hs ⊢
    simp only [hs, ge_iff_le, hlt, if_false, true_and]
    rw [memcpy180_record buffer heap n j hlen hj]
  · intro hnone
    have hs := hscan.1 (fun t _ ht => by
      have hne := hnone t ht
      cases hb : strncmp32_eq buffer heap (180 * t) id with
      | false => rfl
      | true => exact absurd ((hiff t ht).1 hb) hne)
    simp only [_find, hnr, if_false, hlen, Nat.mul_zero] at hs ⊢
    simp [hs]

set_option maxRecDepth 100000 in
/-- C9 witness: two whole records with ids `X` and `AB`; the id `AB` is found in
the second one, at offset 180. -/
theorem find_first_match_witness :
    (_find 0 admini_two (fun _ => 0) [65, 66]).ret = 1 ∧
    (_find 0 admini_two (fun _ => 0) [65, 66]).offset = 180 * 1 ∧
    (_find 0 admini_two (fun _ => 0) [65, 66]).ini = some (record admini_two 1) :=
  (find_first_match 0 admini_two (fun _ => 0) [65, 66] 2 (by decide) (by decide) (by decide)
    (by decide) (by decide)).1 1 (by decide) (by decide) (by decide)

set_option maxRecDepth 100000 in
/-- C10 (the code at the failing input): a buffer of 183 bytes, one whole record and
the three bytes `AB`, NUL of a cut-off one.  For the id `AB` the loop of `_find`
stops at offset 180, `_find` returns 1, and the descriptor it copies consists of
the three bytes of the file and 177 bytes from behind the buffer:
180 + 180 exceeds the length. -/
theorem find_reads_partial_record (heap : Nat → Nat) :
    admini_partial.length = 183 ∧
    (_find 0 admini_partial heap [65, 66]).ret = 1 ∧
    (_find 0 admini_partial heap [65, 66]).offset = 180 ∧
    ¬ (180 + 180 ≤ admini_partial.length) ∧
    (_find 0 admini_partial heap [65, 66]).ini
      = some ([65, 66, 0] ++ (List.range 177).map heap) := by
  refine ⟨rfl, rfl, rfl, by decide, ?_⟩
  rfl

/-! ## Reading the admini -/

theorem admini_list_length : admini_list.length = 10 := rfl

theorem read_admini_from_spec (device : exword_t) (os : Nat → outcome) :
    ∀ (names : List (List Char)) (j len : Nat), admini_list.drop j = names →
      ((∀ i, j ≤ i → i < 10 → admini_qualifies device os i →
          (∀ k, j ≤ k → k < i → ¬ admini_qualifies device os k) →
          _read_admini_from os names j (admini_device device os j) len (admini_list.take j)
            = ⟨(admini_attempt device os i).self, (i : Int), (admini_attempt device os i).buffer,
                (admini_attempt device os i).len, admini_list.take (i + 1)⟩) ∧
       ((∀ k, j ≤ k → k < 10 → ¬ admini_qualifies device os k) →
          (_read_admini_from os names j (admini_device device os j) len
              (admini_list.take j)).ret = -1 ∧
          (_read_admini_from os names j (admini_device device os j) len
              (admini_list.take j)).buffer = none ∧
          (_read_admini_from os names j (admini_device device os j) len
              (admini_list.take j)).requested = admini_list)) := by
  intro names
  induction names with
  | nil =>
    intro j len hd
    have hj : 10 ≤ j := by
      have := List.drop_eq_nil_iff.1 hd
      simpa [admini_list_length] using this
    refine ⟨fun i h1 h2 => by omega, fun _ => ?_⟩
    simp only [_read_admini_from, true_and]
    exact List.take_of_length_le (by rw [admini_list_length]; exact hj)
  | cons name rest ih =>
    intro j len hd
    have hj : j < admini_list.length := by
      by_contra hn
      push_neg at hn
      rw [List.drop_eq_nil_of_le hn] at hd
      exact absurd hd (by simp)
    have hj10 : j < 10 := by rw [admini_list_length] at hj; exact hj
    rw [List.drop_eq_getElem_cons hj] at hd
    have hname : name = admini_list.getD j [] := by
      rw [List.getD_eq_getElem _ _ hj]; exact (List.cons.inj hd).1.symm
    have hrest : admini_list.drop (j + 1) = rest := (List.cons.inj hd).2
    have htake : admini_list.take j ++ [name] = admini_list.take (j + 1) := by
      rw [List.take_succ, List.getElem?_eq_getElem hj, (List.cons.inj hd).1]; rfl
    have hatt : exword_get_file (admini_device device os j) name (os j)
        = admini_attempt device os j := by
      rw [hname]; rfl
    by_cases hq : admini_qualifies device os j
    · constructor
      · intro i h1 h2 hqi hfirst
        have hij : i = j := by
          by_contra hne
          exact hfirst j (Nat.le_refl _) (by omega) hq
        subst hij
        have hq2 := hq
        unfold admini_qualifies at hq2
        simp only [_read_admini_from, hatt, hq2, and_self, if_true, htake]
      · intro hnone
        exact absurd hq (hnone j (Nat.le_refl _) hj10)
    · have hq2 := hq
      unfold admini_qualifies at hq2
      have hstep : ∀ len0 req0,
          _read_admini_from os (name :: rest) j (admini_device device os j) len0 req0
          = _read_admini_from os rest (j + 1) (admini_device device os (j + 1))
              (admini_attempt device os j).len (req0 ++ [name]) := by
        intro len0 req0
        simp only [_read_admini_from, hatt, hq2, if_false]
        rfl
      rw [hstep, htake]
      have := ih (j + 1) (admini_attempt device os j).len hrest
      constructor
      · intro i h1 h2 hqi hfirst
        have hne : i ≠ j := fun h => hq (h ▸ hqi)
        exact this.1 i (by omega) h2 hqi (fun k hk1 hk2 => hfirst k (by omega) hk2)
      · intro hnone
        exact this.2 (fun k hk1 hk2 => hnone k (by omega) hk2)

/-- C11: `_read_admini` tries the ten names admini.inf, adminikr.inf, adminicn.inf,
adminiin.inf, adminiit.inf, adminide.inf, adminies.inf, adminifr.inf,
adminiru.inf, sound.inf in this order.  When request number `i` is the first
that returns success with a length above zero, it returns `i` with the buffer
and length of that request, having requested exactly the first `i + 1` names;
when none of the ten qualifies it returns -1 with the buffer NULL, having
requested all ten. -/
theorem read_admini_first_qualifying (device : exword_t) (os : Nat → outcome) :
    admini_list = ["admini.inf".toList, "adminikr.inf".toList, "adminicn.inf".toList,
      "adminiin.inf".toList, "adminiit.inf".toList, "adminide.inf".toList,
      "adminies.inf".toList, "adminifr.inf".toList, "adminiru.inf".toList,
      "sound.inf".toList] ∧
    (∀ i, i < 10 → admini_qualifies device os i →
      (∀ k, k < i → ¬ admini_qualifies device os k) →
      (_read_admini device os).ret = (i : Int) ∧
      (_read_admini device os).requested = admini_list.take (i + 1) ∧
      (_read_admini device os).buffer = (admini_attempt device os i).buffer ∧
      (_read_admini device os).length = (admini_attempt device os i).len ∧
      (_read_admini device os).self = (admini_attempt device os i).self) ∧
    ((∀ k, k < 10 → ¬ admini_qualifies device os k) →
      (_read_admini device os).ret = -1 ∧
      (_read_admini device os).buffer = none ∧
      (_read_admini device os).requested = admini_list) := by
  have h := read_admini_from_spec device os admini_list 0 0 rfl
  refine ⟨rfl, ?_, ?_⟩
  · intro i hi hq hfirst
    have := h.1 i (Nat.zero_le _) hi hq (fun k _ hk => hfirst k hk)
    have he : _read_admini device os = _ := this
    rw [he]
    exact ⟨rfl, rfl, rfl, rfl, rfl⟩
  · intro hnone
    exact h.2 (fun k _ hk => hnone k hk)

/-- C11 witness: on a connected handle the first two names are answered with
NOT_FOUND and the third with a file of two bytes. -/
theorem read_admini_first_qualifying_witness :
    (_read_admini connected_handle
        (fun k => if k = 2 then ⟨true, true, true, 0x20, 2, [7, 9], true⟩ else answer 0x44)).ret
      = 2 ∧
    (_read_admini connected_handle
        (fun k => if k = 2 then ⟨true, true, true, 0x20, 2, [7, 9], true⟩ else answer 0x44)).requested
      = ["admini.inf".toList, "adminikr.inf".toList, "adminicn.inf".toList] ∧
    (_read_admini connected_handle
        (fun k => if k = 2 then ⟨true, true, true, 0x20, 2, [7, 9], true⟩ else answer 0x44)).buffer
      = some [7, 9] :=
  ⟨((read_admini_first_qualifying connected_handle
      (fun k => if k = 2 then ⟨true, true, true, 0x20, 2, [7, 9], true⟩ else answer 0x44)).2.1
      2 (by decide) (by decide) (by decide)).1,
   ((read_admini_first_qualifying connected_handle
      (fun k => if k = 2 then ⟨true, true, true, 0x20, 2, [7, 9], true⟩ else answer 0x44)).2.1
      2 (by decide) (by decide) (by decide)).2.1,
   ((read_admini_first_qualifying connected_handle
      (fun k => if k = 2 then ⟨true, true, true, 0x20, 2, [7, 9], true⟩ else answer 0x44)).2.1
      2 (by decide) (by decide) (by decide)).2.2.1⟩

/-! ## The remove workflow -/

theorem or_eq_success_iff (a b : Nat) :
    a ||| b = EXWORD_SUCCESS ↔ a = EXWORD_SUCCESS ∧ b = EXWORD_SUCCESS := by
  unfold EXWORD_SUCCESS
  constructor
  · intro h
    have ha : ∀ i, a.testBit i = false := fun i => by
      have := congrArg (fun x => x.testBit i) h
      simp [Nat.testBit_or] at this
      exact this.1
    have hb : ∀ i, b.testBit i = false := fun i => by
      have := congrArg (fun x => x.testBit i) h
      simp [Nat.testBit_or] at this
      exact this.2
    exact ⟨Nat.eq_of_testBit_eq (by simpa using ha), Nat.eq_of_testBit_eq (by simpa using hb)⟩
  · rintro ⟨rfl, rfl⟩; rfl

theorem foldl_or_eq_success_iff (rs : List Nat) (a : Nat) :
    rs.foldl (fun x y => x ||| y) a = EXWORD_SUCCESS ↔
      a = EXWORD_SUCCESS ∧ ∀ r ∈ rs, r = EXWORD_SUCCESS := by
  induction rs generalizing a with
  | nil => simp
  | cons r rest ih =>
    simp only [List.foldl_cons, ih, or_eq_success_iff, List.mem_cons, forall_eq_or_imp]
    tauto

theorem content_remove_workflow (device : exword_t) (root id : List Char) (env : remove_env)
    (hfound : (_find_device device root id env.o_setpath env.o_admini env.heap).found.ret ≠ 0) :
    commands_of ((workflow_steps device root id env.o_setpath env.o_admini env.heap
        (content_remove device root id env)).take 3)
      = [command.unlock,
         command.cname (admini_name ((_find_device device root id env.o_setpath env.o_admini
            env.heap).found.ini.getD [])) id,
         command.cryptkey] ∧
    ((∀ s ∈ (workflow_steps device root id env.o_setpath env.o_admini env.heap
        (content_remove device root id env)).take 3, s.2 = EXWORD_SUCCESS) →
      commands_of ((workflow_steps device root id env.o_setpath env.o_admini env.heap
        (content_remove device root id env)).drop 3)
      = [command.remove_file id false, command.lock]) ∧
    ((∃ s ∈ (workflow_steps device root id env.o_setpath env.o_admini env.heap
        (content_remove device root id env)).take 3, s.2 ≠ EXWORD_SUCCESS) →
      commands_of ((workflow_steps device root id env.o_setpath env.o_admini env.heap
        (content_remove device root id env)).drop 3)
      = [command.lock]) ∧
    ((content_remove device root id env).ret = 1 ↔
      ∀ s ∈ workflow_steps device root id env.o_setpath env.o_admini env.heap
        (content_remove device root id env), s.2 = EXWORD_SUCCESS) := by
  unfold workflow_steps content_remove
  generalize _find_device device root id env.o_setpath env.o_admini env.heap = f at hfound
  simp only [hfound, if_false]
  generalize exword_unlock f.self env.o_unlock = r1
  generalize exword_cname r1.self (admini_name (f.found.ini.getD [])) id env.o_cname = r2
  generalize exword_cryptkey r2.self env.o_cryptkey = r3
  by_cases h3 : r1.ret ||| r2.ret ||| r3.ret = EXWORD_SUCCESS
  · simp only [h3, if_true]
    generalize exword_remove_file r3.self id false env.o_remove = r4
    generalize exword_lock r4.self env.o_lock = r5
    have h3' := h3
    simp only [or_eq_success_iff] at h3'
    simp only [List.append_assoc, List.drop_left, commands_of]
    refine ⟨rfl, fun _ => rfl, ?_, ?_⟩
    · rintro ⟨s, hs, hne⟩
      simp only [List.cons_append, List.nil_append, List.take_succ_cons, List.take_zero,
        List.mem_cons, List.mem_singleton, List.not_mem_nil, or_false] at hs
      rcases hs with rfl | rfl | rfl
      · exact absurd h3'.1.1 hne
      · exact absurd h3'.1.2 hne
      · exact absurd h3'.2 hne
    · by_cases h5 : EXWORD_SUCCESS ||| r4.ret ||| r5.ret = EXWORD_SUCCESS
      · have h5' := h5
        simp only [or_eq_success_iff] at h5'
        simp [h5, h3', h5']
      · have h5' := h5
        simp only [or_eq_success_iff, true_and, not_and] at h5'
        simp only [h5, if_false]
        simp [h3']
        intro h4; exact h5' h4
  · simp only [h3, if_false]
    generalize exword_lock r3.self env.o_lock = r5
    have h3' := h3
    simp only [or_eq_success_iff, not_and] at h3'
    simp only [List.append_assoc, List.drop_left, commands_of]
    refine ⟨rfl, ?_, fun _ => rfl, ?_⟩
    · intro hall
      exfalso
      simp only [List.cons_append, List.nil_append, List.take_succ_cons, List.take_zero,
        List.mem_cons, List.mem_singleton, List.not_mem_nil, or_false, forall_eq_or_imp,
        forall_eq] at hall
      exact h3' ⟨hall.1, hall.2.1⟩ hall.2.2
    · have hne : ¬ (r1.ret ||| r2.ret ||| r3.ret ||| r5.ret = EXWORD_SUCCESS) := by
        rw [or_eq_success_iff]; exact fun h => h3 h.1
      simp only [hne, if_false]
      simp
      intro h1 h2 h3e
      exact absurd h3e (h3' ⟨h1, h2⟩)

set_option maxRecDepth 100000 in
/-- C17 (as stated, refuted): the id `AB` is found in the admini and the device
answers UNLOCK with FORBIDDEN; `content_remove` then issues UNLOCK, CNAME,
CRYPTKEY and LOCK, and no REMOVE. -/
theorem content_remove_skips_remove :
    (_find_device connected_handle "\\_INTERNAL_00".toList "AB".toList
      (remove_env_example 0x43).o_setpath (remove_env_example 0x43).o_admini
      (remove_env_example 0x43).heap).found.ret = 1 ∧
    workflow_steps connected_handle "\\_INTERNAL_00".toList "AB".toList
      (remove_env_example 0x43).o_setpath (remove_env_example 0x43).o_admini
      (remove_env_example 0x43).heap
      (content_remove connected_handle "\\_INTERNAL_00".toList "AB".toList
        (remove_env_example 0x43))
      = [(command.unlock, EXWORD_ERROR_FORBIDDEN), (command.cname [] "AB".toList, EXWORD_SUCCESS),
         (command.cryptkey, EXWORD_SUCCESS), (command.lock, EXWORD_SUCCESS)] ∧
    command.remove_file "AB".toList false ∉
      commands_of (content_remove connected_handle "\\_INTERNAL_00".toList "AB".toList
        (remove_env_example 0x43)).steps := by
  decide

/-- C17 (amended): for every id found in the admini, `content_remove` issues UNLOCK,
CNAME (with the display name of the descriptor and the id) and CRYPTKEY in this
order whatever they return; when all three returned EXWORD_SUCCESS it goes on
with REMOVE(id, no unicode conversion) and LOCK, and when one of them returned
an error it skips REMOVE and goes on with LOCK alone. -/
theorem content_remove_order (device : exword_t) (root id : List Char) (env : remove_env)
    (hfound : (_find_device device root id env.o_setpath env.o_admini env.heap).found.ret ≠ 0) :
    commands_of ((workflow_steps device root id env.o_setpath env.o_admini env.heap
        (content_remove device root id env)).take 3)
      = [command.unlock,
         command.cname (admini_name ((_find_device device root id env.o_setpath env.o_admini
            env.heap).found.ini.getD [])) id,
         command.cryptkey] ∧
    ((∀ s ∈ (workflow_steps device root id env.o_setpath env.o_admini env.heap
        (content_remove device root id env)).take 3, s.2 = EXWORD_SUCCESS) →
      commands_of ((workflow_steps device root id env.o_setpath env.o_admini env.heap
        (content_remove device root id env)).drop 3)
      = [command.remove_file id false, command.lock]) ∧
    ((∃ s ∈ (workflow_steps device root id env.o_setpath env.o_admini env.heap
        (content_remove device root id env)).take 3, s.2 ≠ EXWORD_SUCCESS) →
      commands_of ((workflow_steps device root id env.o_setpath env.o_admini env.heap
        (content_remove device root id env)).drop 3)
      = [command.lock]) :=
  ⟨(content_remove_workflow device root id env hfound).1,
   (content_remove_workflow device root id env hfound).2.1,
   (content_remove_workflow device root id env hfound).2.2.1⟩

set_option maxRecDepth 100000 in
/-- C17 witness: the id `AB` is found and every command succeeds: UNLOCK, CNAME,
CRYPTKEY, then REMOVE and LOCK. -/
theorem content_remove_order_witness :
    commands_of ((workflow_steps connected_handle "\\_INTERNAL_00".toList "AB".toList
        (remove_env_example 0x20).o_setpath (remove_env_example 0x20).o_admini
        (remove_env_example 0x20).heap
        (content_remove connected_handle "\\_INTERNAL_00".toList "AB".toList
          (remove_env_example 0x20))).take 3)
      = [command.unlock,
         command.cname (admini_name ((_find_device connected_handle "\\_INTERNAL_00".toList
            "AB".toList (remove_env_example 0x20).o_setpath (remove_env_example 0x20).o_admini
            (remove_env_example 0x20).heap).found.ini.getD [])) "AB".toList,
         command.cryptkey] ∧
    commands_of ((workflow_steps connected_handle "\\_INTERNAL_00".toList "AB".toList
        (remove_env_example 0x20).o_setpath (remove_env_example 0x20).o_admini
        (remove_env_example 0x20).heap
        (content_remove connected_handle "\\_INTERNAL_00".toList "AB".toList
          (remove_env_example 0x20))).drop 3)
      = [command.remove_file "AB".toList false, command.lock] :=
  ⟨(content_remove_order connected_handle "\\_INTERNAL_00".toList "AB".toList
      (remove_env_example 0x20) (by decide)).1,
   (content_remove_order connected_handle "\\_INTERNAL_00".toList "AB".toList
      (remove_env_example 0x20) (by decide)).2.1 (by decide)⟩

/-- C18: when the id is found, `content_remove` returns success exactly when every
step of the workflow it issued (UNLOCK, CNAME, CRYPTKEY, REMOVE when issued,
LOCK) returned EXWORD_SUCCESS; and for all return values, the six codes among
them, the bitwise OR of two of them, or of a whole list, is EXWORD_SUCCESS
exactly when each one is. -/
theorem content_remove_success_iff (device : exword_t) (root id : List Char) (env : remove_env)
    (hfound : (_find_device device root id env.o_setpath env.o_admini env.heap).found.ret ≠ 0) :
    ((content_remove device root id env).ret = 1 ↔
      ∀ s ∈ workflow_steps device root id env.o_setpath env.o_admini env.heap
        (content_remove device root id env), s.2 = EXWORD_SUCCESS) ∧
    (∀ a b : Nat, a ||| b = EXWORD_SUCCESS ↔ a = EXWORD_SUCCESS ∧ b = EXWORD_SUCCESS) ∧
    (∀ rs : List Nat, rs.foldl (fun x y => x ||| y) EXWORD_SUCCESS = EXWORD_SUCCESS ↔
      ∀ r ∈ rs, r = EXWORD_SUCCESS) :=
  ⟨(content_remove_workflow device root id env hfound).2.2.2, or_eq_success_iff,
   fun rs => by rw [foldl_or_eq_success_iff]; simp⟩

set_option maxRecDepth 100000 in
/-- C18 witness: the run in which the device answers UNLOCK with FORBIDDEN returns
failure, and not every step returned success. -/
theorem content_remove_success_iff_witness :
    ((content_remove connected_handle "\\_INTERNAL_00".toList "AB".toList
        (remove_env_example 0x43)).ret = 1 ↔
      ∀ s ∈ workflow_steps connected_handle "\\_INTERNAL_00".toList "AB".toList
        (remove_env_example 0x43).o_setpath (remove_env_example 0x43).o_admini
        (remove_env_example 0x43).heap
        (content_remove connected_handle "\\_INTERNAL_00".toList "AB".toList
          (remove_env_example 0x43)), s.2 = EXWORD_SUCCESS) :=
  (content_remove_success_iff connected_handle "\\_INTERNAL_00".toList "AB".toList
    (remove_env_example 0x43) (by decide)).1

/-! ## The CryptKey input -/

theorem cryptkey_input_layout (key : List Nat) (hk : key.length = 16) :
    (cryptkey_input key).blk1
      = key.take 2 ++ List.replicate 8 0 ++ (key.drop 10).take 2 ++ List.replicate 4 0 ∧
    (cryptkey_input key).blk2
      = (key.drop 2).take 8 ++ (key.drop 12).take 4 ++ List.replicate 4 0 := by
  rcases key with _ | ⟨a0, _ | ⟨a1, _ | ⟨a2, _ | ⟨a3, _ | ⟨a4, _ | ⟨a5, _ | ⟨a6, _ | ⟨a7, _ | ⟨a8, _ | ⟨a9, _ | ⟨a10, _ | ⟨a11, _ | ⟨a12, _ | ⟨a13, _ | ⟨a14, _ | ⟨a15, _ | ⟨_, _⟩⟩⟩⟩⟩⟩⟩⟩⟩⟩⟩⟩⟩⟩⟩⟩⟩ <;>
    first
    | exact ⟨rfl, rfl⟩
    | (exfalso; simp only [List.length_cons, List.length_nil] at hk; omega)

theorem admini_key_length (ini : List Nat) (h : ini.length = 180) :
    (admini_key ini).length = 16 := by
  simp [admini_key, h]

theorem memcpy180_length (buffer : List Nat) (heap : Nat → Nat) (i : Nat) :
    (memcpy180 buffer heap i).length = 180 := by
  simp [memcpy180]

theorem find_ini_of_found (rsp : Int) (buffer : List Nat) (heap : Nat → Nat) (id : List Nat)
    (h : (_find rsp buffer heap id).ret ≠ 0) :
    ∃ info, (_find rsp buffer heap id).ini = some info ∧ info.length = 180 := by
  simp only [_find] at h ⊢
  split_ifs at h ⊢
  · exact absurd rfl h
  · exact absurd rfl h
  · exact ⟨_, rfl, memcpy180_length _ _ _⟩

theorem cryptkey_output_blk (g : List Nat → List Nat) (self : exword_t)
    (ck : exword_cryptkey_t) (o : outcome) :
    (cryptkey_output g self ck o).blk1 = ck.blk1 ∧ (cryptkey_output g self ck o).blk2 = ck.blk2 := by
  unfold cryptkey_output
  split_ifs <;> exact ⟨rfl, rfl⟩

theorem content_install_ck (device : exword_t) (mode : exword_mode) (root id : List Char)
    (env : install_env) :
    ∃ ck, (content_install device mode root id env).ck = some ck ∧
      ck.blk1 = (cryptkey_input key1).blk1 ∧ ck.blk2 = (cryptkey_input key1).blk2 := by
  unfold content_install
  simp only []
  repeat' split
  all_goals
    first
    | exact ⟨_, rfl, rfl, rfl⟩
    | exact ⟨_, rfl, (cryptkey_output_blk _ _ _ _).1, (cryptkey_output_blk _ _ _ _).2⟩

theorem content_remove_ck (device : exword_t) (root id : List Char) (env : remove_env)
    (hfound : (_find_device device root id env.o_setpath env.o_admini env.heap).found.ret ≠ 0) :
    ∃ info, (_find_device device root id env.o_setpath env.o_admini env.heap).found.ini
        = some info ∧ info.length = 180 ∧
      (content_remove device root id env).ck = some (cryptkey_input (admini_key info)) := by
  obtain ⟨info, hini, hlen⟩ := find_ini_of_found _ _ _ _ hfound
  refine ⟨info, hini, hlen, ?_⟩
  unfold content_remove
  simp only [hfound, if_false]
  have hini' : (_find_device device root id env.o_setpath env.o_admini env.heap).found.ini
      = some info := hini
  rw [hini']
  split_ifs <;> rfl

/-- C19: for every 16-byte master key the block built by the first statements of
`content_remove` and `content_install` has `blk1` = key[0..2], eight zero bytes,
key[10..12], and `blk2` = key[2..10], key[12..16], each followed by the four
zero bytes that `memset` left in the 16-byte field; `content_remove` builds it
from the 16-byte key of the descriptor it found, `content_install` from `key1`. -/
theorem cryptkey_input_of_master_key (key : List Nat) (hk : key.length = 16)
    (device : exword_t) (root id : List Char) (env_r : remove_env)
    (hfound : (_find_device device root id env_r.o_setpath env_r.o_admini env_r.heap).found.ret
      ≠ 0)
    (mode : exword_mode) (env_i : install_env) :
    ((cryptkey_input key).blk1
        = key.take 2 ++ List.replicate 8 0 ++ (key.drop 10).take 2 ++ List.replicate 4 0 ∧
      (cryptkey_input key).blk2
        = (key.drop 2).take 8 ++ (key.drop 12).take 4 ++ List.replicate 4 0) ∧
    (∃ info ck,
      (_find_device device root id env_r.o_setpath env_r.o_admini env_r.heap).found.ini
        = some info ∧
      (admini_key info).length = 16 ∧
      (content_remove device root id env_r).ck = some ck ∧
      ck.blk1 = (admini_key info).take 2 ++ List.replicate 8 0 ++
        ((admini_key info).drop 10).take 2 ++ List.replicate 4 0 ∧
      ck.blk2 = ((admini_key info).drop 2).take 8 ++ ((admini_key info).drop 12).take 4 ++
        List.replicate 4 0) ∧
    (∃ ck, (content_install device mode root id env_i).ck = some ck ∧
      ck.blk1 = key1.take 2 ++ List.replicate 8 0 ++ (key1.drop 10).take 2 ++
        List.replicate 4 0 ∧
      ck.blk2 = (key1.drop 2).take 8 ++ (key1.drop 12).take 4 ++ List.replicate 4 0) := by
  refine ⟨cryptkey_input_layout key hk, ?_, ?_⟩
  · obtain ⟨info, hini, hlen, hck⟩ := content_remove_ck device root id env_r hfound
    have hkl := admini_key_length info hlen
    exact ⟨info, _, hini, hkl, hck, (cryptkey_input_layout _ hkl).1,
      (cryptkey_input_layout _ hkl).2⟩
  · obtain ⟨ck, hck, h1, h2⟩ := content_install_ck device mode root id env_i
    exact ⟨ck, hck, h1.trans (cryptkey_input_layout key1 rfl).1,
      h2.trans (cryptkey_input_layout key1 rfl).2⟩

set_option maxRecDepth 100000 in
/-- C19 witness: the master key `key1`, and the removal of the id `AB` found in the
admini. -/
theorem cryptkey_input_of_master_key_witness :
    key1.length = 16 ∧
    (_find_device connected_handle "\\_INTERNAL_00".toList "AB".toList
      (remove_env_example 0x20).o_setpath (remove_env_example 0x20).o_admini
      (remove_env_example 0x20).heap).found.ret ≠ 0 ∧
    (cryptkey_input key1).blk1
      = key1.take 2 ++ List.replicate 8 0 ++ (key1.drop 10).take 2 ++ List.replicate 4 0 ∧
    (cryptkey_input key1).blk2
      = (key1.drop 2).take 8 ++ (key1.drop 12).take 4 ++ List.replicate 4 0 :=
  ⟨rfl, by decide,
    (cryptkey_input_of_master_key key1 rfl connected_handle "\\_INTERNAL_00".toList "AB".toList
      (remove_env_example 0x20) (by decide) exword_mode.LIBRARY
      (install_env_example small_directory 25)).1⟩

/-! ## The capacity check of `content_install` -/

theorem wrap32_range (x : Int) : -2 ^ 31 ≤ wrap32 x ∧ wrap32 x < 2 ^ 31 := by
  unfold wrap32
  omega

theorem get_size_loop_range (es : List dir_entry) :
    ∀ size : Int, -2 ^ 31 ≤ size ∧ size < 2 ^ 31 →
      -2 ^ 31 ≤ get_size_loop es size ∧ get_size_loop es size < 2 ^ 31 := by
  induction es with
  | nil => intro size h; simpa [get_size_loop] using h
  | cons e es ih =>
    intro size h
    unfold get_size_loop
    split
    · split_ifs
      · exact ih _ (wrap32_range _)
      · exact ih _ h
    · exact ih _ h

theorem get_size_range (entries : List dir_entry) :
    -2 ^ 31 ≤ _get_size (some entries) ∧ _get_size (some entries) < 2 ^ 31 :=
  get_size_loop_range entries 0 (by omega)

theorem to_u64_of_nonneg (x : Int) (h0 : 0 ≤ x) (h : x < 2 ^ 31) : (to_u64 x : Int) = x := by
  unfold to_u64
  have : x % 2 ^ 64 = x := Int.emod_eq_of_lt h0 (by omega)
  rw [this]
  exact Int.toNat_of_nonneg h0

theorem capacity_abort_iff (size : Int) (free : Nat) (hr : -2 ^ 31 ≤ size ∧ size < 2 ^ 31) :
    (to_u64 size ≥ free ∨ size < 0) ↔ (size < 0 ∨ (free : Int) ≤ size) := by
  by_cases h0 : size < 0
  · simp [h0]
  · have hx := to_u64_of_nonneg size (by omega) hr.2
    constructor
    · rintro (h | h)
      · right
        have : (free : Int) ≤ (to_u64 size : Int) := by exact_mod_cast h
        omega
      · exact absurd h h0
    · rintro (h | h)
      · exact absurd h h0
      · left
        have : (free : Int) ≤ (to_u64 size : Int) := by omega
        exact_mod_cast this

theorem crypt_from_length (key : List Nat) (data : List Nat) :
    ∀ i, (crypt_from key i data).length = data.length := by
  induction data with
  | nil => intro i; rfl
  | cons b bs ih => intro i; simp [crypt_from, ih]

theorem crypt_data_length (data key : List Nat) : (crypt_data data key).length = data.length :=
  crypt_from_length key data 0

theorem install_files_steps (env : install_env) (key : List Nat) (es : List dir_entry) :
    ∀ (i : Nat) (device : exword_t),
      ∃ rest, (∀ steps, (install_files env key es i device steps).2 = steps ++ rest) ∧
        uploaded_total rest
          = ((es.filter (fun e => env.is_valid_sfn e.d_name && e.regular)).map
              (fun e => (e.data.getD []).length)).sum := by
  induction es with
  | nil => intro i device; exact ⟨[], by simp [install_files], rfl⟩
  | cons e es ih =>
    intro i device
    by_cases hv : env.is_valid_sfn e.d_name = true
    · by_cases hr : e.regular = true
      · cases hd : e.data with
        | none =>
          obtain ⟨rest, h1, h2⟩ := ih (i + 1) device
          refine ⟨rest, ?_, ?_⟩
          · intro steps
            rw [← h1 steps]
            simp [install_files, hv, hr, hd, _upload_file]
          · simp [h2, List.filter_cons, hv, hr, hd]
        | some d =>
          obtain ⟨rest, h1, h2⟩ := ih (i + 1)
            (_upload_file device env.dir e.d_name key (some d) (env.o_file i)).self
          have hlen : (if exact_selects e.d_name then crypt_data d key else d).length
              = d.length := by
            split_ifs
            · exact crypt_data_length d key
            · rfl
          refine ⟨(command.send_file e.d_name
              (if exact_selects e.d_name then crypt_data d key else d),
              (exword_send_file device e.d_name
                (if exact_selects e.d_name then crypt_data d key else d) (env.o_file i)).ret)
            :: rest, ?_, ?_⟩
          · intro steps
            unfold install_files
            simp only [hv, hr, hd, Bool.not_true, Bool.false_eq_true, if_false, if_true,
              upload_sent]
            rw [h1]
            simp
          · simp [uploaded_total, body_length, hlen, List.filter_cons, hv, hr, hd] at h2 ⊢
            exact h2
      · obtain ⟨rest, h1, h2⟩ := ih (i + 1) device
        refine ⟨rest, ?_, ?_⟩
        · intro steps
          rw [← h1 steps]
          simp [install_files, hv, hr]
        · simp [h2, List.filter_cons, hv, hr]
    · simp only [Bool.not_eq_true] at hv
      obtain ⟨rest, h1, h2⟩ := ih (i + 1) device
      refine ⟨rest, ?_, ?_⟩
      · intro steps
        rw [← h1 steps]
        simp [install_files, hv]
      · simp [h2, List.filter_cons, hv]

theorem install_files_append (env : install_env) (key : List Nat) (es : List dir_entry)
    (i : Nat) (device : exword_t) (steps : List (command × Nat)) :
    (install_files env key es i device steps).2
      = steps ++ (install_files env key es i device []).2 := by
  obtain ⟨rest, h1, -⟩ := install_files_steps env key es i device
  rw [h1 steps, h1 []]
  rfl

theorem install_files_uploaded (env : install_env) (key : List Nat) (es : List dir_entry)
    (i : Nat) (device : exword_t) :
    uploaded_total (install_files env key es i device []).2
      = ((es.filter (fun e => env.is_valid_sfn e.d_name && e.regular)).map
          (fun e => (e.data.getD []).length)).sum := by
  obtain ⟨rest, h1, h2⟩ := install_files_steps env key es i device
  rw [h1 [], ← h2]
  rfl

theorem content_install_at_check (device : exword_t) (mode : exword_mode) (root id : List Char)
    (env : install_env) (entries : List dir_entry)
    (hnew : (_find_device device root id env.o_setpath_find env.o_admini env.heap).found.ret = 0)
    (hdir : env.entries = some entries)
    (habort : (exword_get_capacity
        (_find_device device root id env.o_setpath_find env.o_admini env.heap).self
        env.o_cap).ret ≠ EXWORD_SUCCESS ∨
      to_u64 (_get_size (some entries)) ≥ env.cap_free ∨ _get_size (some entries) < 0) :
    (content_install device mode root id env).ret = 0 ∧
    (content_install device mode root id env).steps
      = (_find_device device root id env.o_setpath_find env.o_admini env.heap).steps ++
        [(command.get_capacity, (exword_get_capacity
          (_find_device device root id env.o_setpath_find env.o_admini env.heap).self
          env.o_cap).ret)] := by
  unfold content_install
  simp only [hnew, hdir, ne_eq, not_true_eq_false, if_false]
  rw [if_pos habort]
  exact ⟨rfl, rfl⟩

theorem content_install_past_check (device : exword_t) (mode : exword_mode)
    (root id : List Char) (env : install_env) (entries : List dir_entry) (name : List Char)
    (hnew : (_find_device device root id env.o_setpath_find env.o_admini env.heap).found.ret = 0)
    (hdir : env.entries = some entries) (hname : env.name = some name)
    (hpass : ¬ ((exword_get_capacity
        (_find_device device root id env.o_setpath_find env.o_admini env.heap).self
        env.o_cap).ret ≠ EXWORD_SUCCESS ∨
      to_u64 (_get_size (some entries)) ≥ env.cap_free ∨ _get_size (some entries) < 0)) :
    ∃ rest, (content_install device mode root id env).steps
      = (_find_device device root id env.o_setpath_find env.o_admini env.heap).steps ++
        [(command.get_capacity, (exword_get_capacity
          (_find_device device root id env.o_setpath_find env.o_admini env.heap).self
          env.o_cap).ret),
         (command.unlock, (exword_unlock (exword_get_capacity
          (_find_device device root id env.o_setpath_find env.o_admini env.heap).self
          env.o_cap).self env.o_unlock).ret)] ++ rest := by
  unfold content_install
  simp only [hnew, hdir, hname, ne_eq, not_true_eq_false, if_false]
  rw [if_neg hpass]
  split_ifs
  all_goals simp only [List.append_assoc, List.cons_append, List.nil_append, List.singleton_append]
  all_goals first
    | exact ⟨_, rfl⟩
    | (rw [install_files_append]
       simp only [List.append_assoc, List.cons_append, List.nil_append, List.singleton_append]
       exact ⟨_, rfl⟩)

theorem uploaded_total_append (a b : List (command × Nat)) :
    uploaded_total (a ++ b) = uploaded_total a + uploaded_total b := by
  simp [uploaded_total]

theorem find_device_uploaded (device : exword_t) (root id : List Char) (o_setpath : outcome)
    (o_admini : Nat → outcome) (heap : Nat → Nat) :
    uploaded_total (_find_device device root id o_setpath o_admini heap).steps = 0 := by
  unfold uploaded_total
  apply List.sum_eq_zero
  intro x hx
  simp only [_find_device, List.map_cons, List.map_map, List.mem_cons, List.mem_map,
    Function.comp] at hx
  rcases hx with hx | ⟨k, -, hx⟩
  · rw [hx]; rfl
  · rw [← hx]; rfl

theorem content_install_uploaded (device : exword_t) (mode : exword_mode)
    (root id : List Char) (env : install_env) (entries : List dir_entry) (name : List Char)
    (hnew : (_find_device device root id env.o_setpath_find env.o_admini env.heap).found.ret = 0)
    (hdir : env.entries = some entries) (hname : env.name = some name)
    (hpass : ¬ ((exword_get_capacity
        (_find_device device root id env.o_setpath_find env.o_admini env.heap).self
        env.o_cap).ret ≠ EXWORD_SUCCESS ∨
      to_u64 (_get_size (some entries)) ≥ env.cap_free ∨ _get_size (some entries) < 0))
    (hrsp : (exword_unlock (exword_get_capacity
          (_find_device device root id env.o_setpath_find env.o_admini env.heap).self
          env.o_cap).self env.o_unlock).ret |||
        (exword_cname (exword_unlock (exword_get_capacity
          (_find_device device root id env.o_setpath_find env.o_admini env.heap).self
          env.o_cap).self env.o_unlock).self name id env.o_cname).ret |||
        (exword_cryptkey (exword_cname (exword_unlock (exword_get_capacity
          (_find_device device root id env.o_setpath_find env.o_admini env.heap).self
          env.o_cap).self env.o_unlock).self name id env.o_cname).self env.o_cryptkey).ret
      = EXWORD_SUCCESS) :
    uploaded_total (content_install device mode root id env).steps
      = ((entries.filter (fun e => env.is_valid_sfn e.d_name && e.regular)).map
          (fun e => (e.data.getD []).length)).sum := by
  unfold content_install
  simp only [hnew, hdir, hname, ne_eq, not_true_eq_false, if_false]
  rw [if_neg hpass, if_pos hrsp]
  split_ifs
  all_goals
    rw [install_files_append]
    simp only [uploaded_total_append, find_device_uploaded, install_files_uploaded]
    simp [uploaded_total, body_length]

/-- C15 (as stated, refuted): the source directory holds `diction.htm` (19 bytes, the
name `Dict` is read from it) and one more regular file of 5 bytes, the capacity
query succeeds and reports 24 free bytes, so the summed size does not exceed the
free capacity; `content_install` still stops at the check: it returns 0 and issues
no UNLOCK. -/
theorem content_install_aborts_at_equal_size :
    _get_size (install_env_example small_directory 24).entries = 24 ∧
    (install_env_example small_directory 24).cap_free = 24 ∧
    (install_env_example small_directory 24).name = some "Dict".toList ∧
    (exword_get_capacity (_find_device connected_handle "\\_INTERNAL_00".toList "AB".toList
      (install_env_example small_directory 24).o_setpath_find
      (install_env_example small_directory 24).o_admini
      (install_env_example small_directory 24).heap).self
      (install_env_example small_directory 24).o_cap).ret = EXWORD_SUCCESS ∧
    (content_install connected_handle exword_mode.LIBRARY "\\_INTERNAL_00".toList "AB".toList
      (install_env_example small_directory 24)).ret = 0 ∧
    command.unlock ∉ commands_of (content_install connected_handle exword_mode.LIBRARY "\\_INTERNAL_00".toList "AB".toList
      (install_env_example small_directory 24)).steps := by
  decide

/-- C15 (amended): when `content_install` reaches the capacity check (the id is not
in the admini and the source directory opens), it stops there whenever the capacity
query failed or the size computed by `_get_size` is negative or not below the free
capacity, equality included: it returns 0 and the capacity query is the only command
behind those of `_find`, so no UNLOCK, CNAME, CRYPTKEY, SETPATH or PUT follows.
When the query succeeded and the size is at least 0 and below the free capacity, the
check is passed: with the name of the content found, UNLOCK is the next command. -/
theorem content_install_capacity_check (device : exword_t) (mode : exword_mode)
    (root id : List Char) (env : install_env) (entries : List dir_entry)
    (hnew : (_find_device device root id env.o_setpath_find env.o_admini env.heap).found.ret = 0)
    (hdir : env.entries = some entries) :
    ((exword_get_capacity (_find_device device root id env.o_setpath_find env.o_admini env.heap).self env.o_cap).ret ≠ EXWORD_SUCCESS ∨
        _get_size (some entries) < 0 ∨ (env.cap_free : Int) ≤ _get_size (some entries) →
      (content_install device mode root id env).ret = 0 ∧
      (workflow_steps device root id env.o_setpath_find env.o_admini env.heap
        (content_install device mode root id env))
        = [(command.get_capacity, (exword_get_capacity (_find_device device root id env.o_setpath_find env.o_admini env.heap).self env.o_cap).ret)] ∧
      ∀ c ∈ commands_of (workflow_steps device root id env.o_setpath_find env.o_admini env.heap
        (content_install device mode root id env)),
        is_install_command c = false) ∧
    ((exword_get_capacity (_find_device device root id env.o_setpath_find env.o_admini env.heap).self env.o_cap).ret = EXWORD_SUCCESS ∧
        0 ≤ _get_size (some entries) ∧ _get_size (some entries) < (env.cap_free : Int) →
      ∀ name, env.name = some name →
        (workflow_steps device root id env.o_setpath_find env.o_admini env.heap
        (content_install device mode root id env)).take 2
          = [(command.get_capacity, EXWORD_SUCCESS),
             (command.unlock, (exword_unlock (exword_get_capacity (_find_device device root id env.o_setpath_find env.o_admini env.heap).self env.o_cap).self env.o_unlock).ret)]) := by
  have hiff := capacity_abort_iff (_get_size (some entries)) env.cap_free (get_size_range entries)
  constructor
  · intro h
    have habort : (exword_get_capacity (_find_device device root id env.o_setpath_find env.o_admini env.heap).self env.o_cap).ret ≠ EXWORD_SUCCESS ∨
        to_u64 (_get_size (some entries)) ≥ env.cap_free ∨ _get_size (some entries) < 0 := by
      rcases h with h | h
      · exact Or.inl h
      · exact Or.inr (hiff.2 h)
    obtain ⟨hret, hsteps⟩ := content_install_at_check device mode root id env entries hnew hdir
      habort
    have hw : (workflow_steps device root id env.o_setpath_find env.o_admini env.heap
        (content_install device mode root id env))
        = [(command.get_capacity, (exword_get_capacity (_find_device device root id env.o_setpath_find env.o_admini env.heap).self env.o_cap).ret)] := by
      unfold workflow_steps
      rw [hsteps, List.drop_left]
    refine ⟨hret, hw, ?_⟩
    rw [hw]
    intro c hc
    simp only [commands_of, List.map_cons, List.map_nil, List.mem_singleton] at hc
    rw [hc]
    rfl
  · rintro ⟨hok, h0, hlt⟩ name hname
    have hpass : ¬ ((exword_get_capacity (_find_device device root id env.o_setpath_find env.o_admini env.heap).self env.o_cap).ret ≠ EXWORD_SUCCESS ∨
        to_u64 (_get_size (some entries)) ≥ env.cap_free ∨ _get_size (some entries) < 0) := by
      rintro (h | h)
      · exact h hok
      · rcases hiff.1 h with h | h <;> omega
    obtain ⟨rest, hsteps⟩ := content_install_past_check device mode root id env entries name
      hnew hdir hname hpass
    unfold workflow_steps
    rw [hsteps, List.append_assoc, List.drop_left, hok]
    rfl

/-- C15 witness: a directory with `diction.htm` and one more file, 24 bytes in all, and
25 free bytes: the check is passed and UNLOCK follows the capacity query. -/
theorem content_install_capacity_check_witness :
    (_find_device connected_handle "\\_INTERNAL_00".toList "AB".toList
      (install_env_example small_directory 25).o_setpath_find
      (install_env_example small_directory 25).o_admini
      (install_env_example small_directory 25).heap).found.ret = 0 ∧
    (install_env_example small_directory 25).entries
      = some small_directory ∧
    (workflow_steps connected_handle "\\_INTERNAL_00".toList "AB".toList
      (install_env_example small_directory 25).o_setpath_find
      (install_env_example small_directory 25).o_admini
      (install_env_example small_directory 25).heap
      (content_install connected_handle exword_mode.LIBRARY "\\_INTERNAL_00".toList "AB".toList
        (install_env_example small_directory 25))).take 2
      = [(command.get_capacity, EXWORD_SUCCESS),
         (command.unlock, (exword_unlock (exword_get_capacity (_find_device connected_handle "\\_INTERNAL_00".toList "AB".toList
      (install_env_example small_directory 25).o_setpath_find
      (install_env_example small_directory 25).o_admini
      (install_env_example small_directory 25).heap).self
            (install_env_example small_directory 25).o_cap).self
            (install_env_example small_directory 25).o_unlock).ret)] :=
  ⟨by decide, rfl,
    (content_install_capacity_check connected_handle exword_mode.LIBRARY "\\_INTERNAL_00".toList
      "AB".toList (install_env_example small_directory 25)
      small_directory (by decide) rfl).2
      ⟨by decide, by decide, by decide⟩ "Dict".toList rfl⟩

/-- C16 (the code at the failing input): the source directory holds `diction.htm` (19
bytes, the name `Dict` is read from it) and four regular files of 2^30 bytes each,
and the device reports 1000 free bytes; the sum 2^32 + 19 is stored in an `int` as
19, the capacity check is passed, and the bodies passed to `exword_send_file` add
up to 2^32 + 19 bytes, more than the free capacity. -/
theorem content_install_uploads_beyond_capacity (d : List Nat) (hd : d.length = 2 ^ 30) :
    (install_env_example (big_directory d) 1000).name
      = install_name exword_mode.LIBRARY (big_directory d) [] ∧
    (install_env_example (big_directory d) 1000).name = some "Dict".toList ∧
    _get_size (install_env_example (big_directory d) 1000).entries = 19 ∧
    (install_env_example (big_directory d) 1000).cap_free = 1000 ∧
    uploaded_total (content_install connected_handle exword_mode.LIBRARY "\\_INTERNAL_00".toList
      "AB".toList (install_env_example (big_directory d) 1000)).steps = 2 ^ 32 + 19 ∧
    ¬ uploaded_total (content_install connected_handle exword_mode.LIBRARY "\\_INTERNAL_00".toList
      "AB".toList (install_env_example (big_directory d) 1000)).steps
      ≤ (install_env_example (big_directory d) 1000).cap_free := by
  have hsize : _get_size (some (big_directory d)) = 19 := by
    simp only [_get_size, big_directory, get_size_loop, diction_htm, hd, if_true, wrap32,
      show (str "<title>Dict</title>").length = 19 from rfl]
    norm_num
  have hnew : (_find_device connected_handle "\\_INTERNAL_00".toList "AB".toList (answer 0x20)
        (fun _ => answer 0x44) (fun _ => 0)).found.ret = 0 := by
    decide
  have hcap : (exword_get_capacity (_find_device connected_handle "\\_INTERNAL_00".toList "AB".toList (answer 0x20)
        (fun _ => answer 0x44) (fun _ => 0)).self (answer 0x20)).ret = EXWORD_SUCCESS := by
    decide
  have hrsp : (exword_unlock (exword_get_capacity (_find_device connected_handle "\\_INTERNAL_00".toList "AB".toList (answer 0x20)
        (fun _ => answer 0x44) (fun _ => 0)).self (answer 0x20)).self (answer 0x20)).ret |||
      (exword_cname (exword_unlock (exword_get_capacity (_find_device connected_handle "\\_INTERNAL_00".toList "AB".toList (answer 0x20)
        (fun _ => answer 0x44) (fun _ => 0)).self (answer 0x20)).self (answer 0x20)).self "Dict".toList "AB".toList
        (answer 0x20)).ret |||
      (exword_cryptkey (exword_cname (exword_unlock (exword_get_capacity (_find_device connected_handle "\\_INTERNAL_00".toList "AB".toList (answer 0x20)
        (fun _ => answer 0x44) (fun _ => 0)).self (answer 0x20)).self (answer 0x20)).self
        "Dict".toList "AB".toList (answer 0x20)).self (answer 0x20)).ret
      = EXWORD_SUCCESS := by
    decide
  have hup := content_install_uploaded connected_handle exword_mode.LIBRARY
    "\\_INTERNAL_00".toList "AB".toList (install_env_example (big_directory d) 1000)
    (big_directory d) "Dict".toList hnew rfl rfl
    (by
      rw [hsize]
      rintro (h | h | h)
      · exact h hcap
      · exact absurd h (by decide : ¬ to_u64 19 ≥ 1000)
      · exact absurd h (by decide))
    hrsp
  have htotal : uploaded_total (content_install connected_handle exword_mode.LIBRARY
      "\\_INTERNAL_00".toList "AB".toList (install_env_example (big_directory d) 1000)).steps
      = 2 ^ 32 + 19 := by
    rw [hup]
    simp only [install_env_example, big_directory, diction_htm, List.filter, Bool.and_self,
      Bool.and_false, Bool.and_true, List.map_cons, List.map_nil, Option.getD_some, hd,
      List.sum_cons, List.sum_nil, show (str "<title>Dict</title>").length = 19 from rfl]
    norm_num
  refine ⟨rfl, rfl, hsize, rfl, htotal, ?_⟩
  rw [htotal]
  show ¬ (2 ^ 32 + 19 ≤ 1000)
  norm_num

/-- C16 witness: the four files hold 2^30 zero bytes each. -/
theorem content_install_uploads_beyond_capacity_witness :
    (List.replicate (2 ^ 30) 0).length = 2 ^ 30 ∧
    _get_size (install_env_example (big_directory (List.replicate (2 ^ 30) 0)) 1000).entries
      = 19 ∧
    uploaded_total (content_install connected_handle exword_mode.LIBRARY "\\_INTERNAL_00".toList
      "AB".toList (install_env_example (big_directory (List.replicate (2 ^ 30) 0)) 1000)).steps
      = 2 ^ 32 + 19 :=
  ⟨List.length_replicate _ _,
    (content_install_uploads_beyond_capacity (List.replicate (2 ^ 30) 0)
      (List.length_replicate _ _)).2.2.1,
    (content_install_uploads_beyond_capacity (List.replicate (2 ^ 30) 0)
      (List.length_replicate _ _)).2.2.2.2.1⟩

/-! ## The user-key store -/

theorem char_value_fits (char_signed : Bool) (name : List Nat)
    (h : name_fits char_signed name) :
    char_value char_signed (name.length + 1) = (name.length : Int) + 1 := by
  unfold name_fits at h
  unfold char_value
  cases char_signed
  · simp
  · simp only [if_true] at h
    have h2 : ¬ (128 ≤ name.length + 1) := by omega
    simp [h2]

theorem name_fits_byte (char_signed : Bool) (name : List Nat)
    (h : name_fits char_signed name) : (name.length + 1) % 256 = name.length + 1 := by
  unfold name_fits at h
  apply Nat.mod_eq_of_lt
  cases char_signed
  · simpa using h
  · simp only [if_true] at h
    omega

theorem peek_at_append (A B C : List Nat) (mem : Int → Nat) (k : Nat) (hk : k < B.length) :
    peek_at (A ++ B ++ C) mem ((A.length : Int) + k) = B.getD k 0 := by
  unfold peek_at
  have h1 : (0 : Int) ≤ (A.length : Int) + k := by omega
  have h2 : (A.length : Int) + k < ((A ++ B ++ C).length : Int) := by
    simp only [List.length_append, Nat.cast_add]
    omega
  rw [if_pos ⟨h1, h2⟩]
  have h3 : ((A.length : Int) + k).toNat = A.length + k := by omega
  rw [h3]
  have h4 : A.length + k < (A ++ B ++ C).length := by
    simp only [List.length_append]; omega
  rw [List.getD_eq_getElem?_getD, List.getD_eq_getElem?_getD, List.append_assoc,
    List.getElem?_append_right (by omega), Nat.add_sub_cancel_left,
    List.getElem?_append_left hk]

theorem strcmp_at_record (C : List Nat) (mem : Int → Nat) (name : List Nat) :
    ∀ (A n : List Nat), 0 ∉ name → 0 ∉ n →
      strcmp_at (A ++ (n ++ [0]) ++ C) mem name (A.length : Int) = decide (name = n) := by
  induction name with
  | nil =>
    intro A n _ hn
    unfold strcmp_at
    have := peek_at_append A (n ++ [0]) C mem 0 (by simp)
    simp only [Nat.cast_zero, add_zero] at this
    rw [this]
    cases n with
    | nil => simp
    | cons d ds =>
      have hd : d ≠ 0 := fun h => hn (by simp [h])
      simp [hd]
  | cons c cs ih =>
    intro A n hname hn
    have hc : c ≠ 0 := fun h => hname (by simp [h])
    unfold strcmp_at
    have := peek_at_append A (n ++ [0]) C mem 0 (by simp)
    simp only [Nat.cast_zero, add_zero] at this
    rw [this]
    cases n with
    | nil =>
      have : (0 : Nat) ≠ c := fun h => hc h.symm
      simp [this]
    | cons d ds =>
      have hcs : 0 ∉ cs := fun h => hname (List.mem_cons_of_mem _ h)
      have hds : 0 ∉ ds := fun h => hn (List.mem_cons_of_mem _ h)
      have hrec := ih (A ++ [d]) ds hcs hds
      have hbuf : A ++ (d :: ds ++ [0]) ++ C = A ++ [d] ++ (ds ++ [0]) ++ C := by simp
      have hidx : ((A ++ [d]).length : Int) = (A.length : Int) + 1 := by simp
      rw [hbuf, ← hidx, hrec]
      simp only [List.cons_append, List.getD_cons_zero, List.cons.injEq]
      by_cases h1 : d = c
      · by_cases h2 : cs = ds <;> simp [h1, h2]
      · have h1' : ¬ c = d := fun h => h1 h.symm
        simp [h1, h1']

theorem encode_record_length (r : user_record) (hk : r.key.length = 20) :
    ((encode_record r).length : Int) = 21 + ((r.name.length : Int) + 1) := by
  simp only [encode_record, List.length_append, List.length_singleton, hk, Nat.cast_add,
    Nat.cast_one, Nat.cast_ofNat]
  omega

theorem user_scan_step (char_signed : Bool) (name : List Nat) (mem : Int → Nat)
    (A C : List Nat) (r : user_record) (hname : 0 ∉ name)
    (hr : well_formed char_signed r) (fuel : Nat) :
    user_scan char_signed name (A ++ encode_record r ++ C) mem (fuel + 1) (A.length : Int)
      = if name = r.name then scan_result.found (A.length : Int)
        else user_scan char_signed name (A ++ encode_record r ++ C) mem fuel
          (((A ++ encode_record r).length : Nat) : Int) := by
  obtain ⟨h0, hfit, hkey⟩ := hr
  have hlt : (A.length : Int) < ((A ++ encode_record r ++ C).length : Int) := by
    have := encode_record_length r hkey
    simp only [List.length_append, Nat.cast_add]
    omega
  have hpeek : peek_at (A ++ encode_record r ++ C) mem (A.length : Int)
      = r.name.length + 1 := by
    have := peek_at_append A (encode_record r) C mem 0 (by simp [encode_record])
    simp only [Nat.cast_zero, add_zero] at this
    rw [this]
    simp [encode_record]
  have hcmp : strcmp_at (A ++ encode_record r ++ C) mem name ((A.length : Int) + 1)
      = decide (name = r.name) := by
    have := strcmp_at_record (r.key ++ C) mem name (A ++ [r.name.length + 1]) r.name
      hname h0
    have hbuf : A ++ [r.name.length + 1] ++ (r.name ++ [0]) ++ (r.key ++ C)
        = A ++ encode_record r ++ C := by
      simp [encode_record]
    have hidx : ((A ++ [r.name.length + 1]).length : Int) = (A.length : Int) + 1 := by
      simp
    rw [hbuf, hidx] at this
    exact this
  have hnext : (A.length : Int) + (21 + char_value char_signed
      (peek_at (A ++ encode_record r ++ C) mem (A.length : Int)))
      = (((A ++ encode_record r).length : Nat) : Int) := by
    rw [hpeek, char_value_fits char_signed r.name hfit]
    have := encode_record_length r hkey
    simp only [List.length_append, Nat.cast_add]
    omega
  rw [user_scan, if_pos hlt, hcmp, hnext]
  by_cases h : name = r.name <;> simp [h]

theorem user_scan_absent (char_signed : Bool) (name : List Nat) (mem : Int → Nat)
    (hname : 0 ∉ name) (rs : List user_record) :
    ∀ (A : List Nat) (extra : Nat), (∀ r ∈ rs, well_formed char_signed r) →
      (∀ r ∈ rs, r.name ≠ name) →
      user_scan char_signed name (A ++ store_bytes rs) mem (rs.length + 1 + extra)
        (A.length : Int) = scan_result.absent := by
  induction rs with
  | nil =>
    intro A extra _ _
    have : ¬ ((A.length : Int) < ((A ++ store_bytes []).length : Int)) := by
      simp [store_bytes]
    rw [show ([] : List user_record).length + 1 + extra = extra + 1 by simp; omega]
    rw [user_scan, if_neg this]
  | cons r rs ih =>
    intro A extra hwf hne
    have hstep := user_scan_step char_signed name mem A (store_bytes rs) r hname
      (hwf r (List.mem_cons_self _ _)) (rs.length + 1 + extra)
    have hbuf : A ++ store_bytes (r :: rs) = A ++ encode_record r ++ store_bytes rs := by
      simp [store_bytes]
    rw [show (r :: rs).length + 1 + extra = (rs.length + 1 + extra) + 1 by
      simp only [List.length_cons]; omega]
    rw [hbuf, hstep, if_neg (fun h => hne r (List.mem_cons_self _ _) h.symm)]
    exact ih (A ++ encode_record r) extra (fun x hx => hwf x (List.mem_cons_of_mem _ hx))
      (fun x hx => hne x (List.mem_cons_of_mem _ hx))

theorem store_bytes_append (rs ts : List user_record) :
    store_bytes (rs ++ ts) = store_bytes rs ++ store_bytes ts := by
  induction rs with
  | nil => rfl
  | cons r rs ih => simp [store_bytes, ih]

theorem user_scan_found (char_signed : Bool) (mem : Int → Nat) (r : user_record)
    (post : List user_record) (hr : well_formed char_signed r) (pre : List user_record) :
    ∀ (A : List Nat) (extra : Nat), (∀ x ∈ pre, well_formed char_signed x) →
      (∀ x ∈ pre, x.name ≠ r.name) →
      user_scan char_signed r.name (A ++ store_bytes (pre ++ r :: post)) mem
        (pre.length + 1 + extra) (A.length : Int)
        = scan_result.found (((A ++ store_bytes pre).length : Nat) : Int) := by
  induction pre with
  | nil =>
    intro A extra _ _
    have hstep := user_scan_step char_signed r.name mem A (store_bytes post) r hr.1 hr extra
    have hbuf : A ++ store_bytes ([] ++ r :: post) = A ++ encode_record r ++ store_bytes post := by
      simp [store_bytes]
    rw [show ([] : List user_record).length + 1 + extra = extra + 1 by simp; omega]
    rw [hbuf, hstep, if_pos rfl]
    simp [store_bytes]
  | cons p pre ih =>
    intro A extra hwf hne
    have hstep := user_scan_step char_signed r.name mem A (store_bytes (pre ++ r :: post)) p hr.1
      (hwf p (List.mem_cons_self _ _)) (pre.length + 1 + extra)
    have hbuf : A ++ store_bytes (p :: pre ++ r :: post)
        = A ++ encode_record p ++ store_bytes (pre ++ r :: post) := by
      simp [store_bytes]
    rw [show (p :: pre).length + 1 + extra = (pre.length + 1 + extra) + 1 by
      simp only [List.length_cons]; omega]
    rw [hbuf, hstep, if_neg (fun h => hne p (List.mem_cons_self _ _) h.symm)]
    rw [ih (A ++ encode_record p) extra (fun x hx => hwf x (List.mem_cons_of_mem _ hx))
      (fun x hx => hne x (List.mem_cons_of_mem _ hx))]
    simp [store_bytes]

theorem save_absent (char_signed : Bool) (mem : Int → Nat) (rs : List user_record)
    (name key : List Nat) (write_ret : Int) (extra : Nat) (hname : 0 ∉ name)
    (hfit : name_fits char_signed name)
    (hwf : ∀ r ∈ rs, well_formed char_signed r) (hne : ∀ r ∈ rs, r.name ≠ name) :
    _save_user_key char_signed true (read_file_result.ok (store_bytes rs)) mem name key
        write_ret (rs.length + 1 + extra)
      = some ⟨if write_ret = 0 then 1 else 0,
          some (store_bytes (rs ++ [⟨name, key.take 20⟩]))⟩ := by
  have h := user_scan_absent char_signed name mem hname rs [] extra hwf hne
  simp only [List.nil_append, List.length_nil, Nat.cast_zero] at h
  simp only [_save_user_key, Bool.not_true, Bool.false_eq_true, if_false, h]
  simp [store_bytes_append, store_bytes, encode_record, name_fits_byte char_signed name hfit]

theorem save_present (char_signed : Bool) (mem : Int → Nat) (pre post : List user_record)
    (r : user_record) (key : List Nat) (write_ret : Int) (extra : Nat)
    (hr : well_formed char_signed r)
    (hwf : ∀ x ∈ pre, well_formed char_signed x) (hne : ∀ x ∈ pre, x.name ≠ r.name) :
    _save_user_key char_signed true (read_file_result.ok (store_bytes (pre ++ r :: post))) mem
        r.name key write_ret (pre.length + 1 + extra)
      = some ⟨1, none⟩ := by
  have h := user_scan_found char_signed mem r post hr pre [] extra hwf hne
  simp only [List.nil_append, List.length_nil, Nat.cast_zero] at h
  simp only [_save_user_key, Bool.not_true, Bool.false_eq_true, if_false, h]

theorem load_present (char_signed : Bool) (mem : Int → Nat) (pre post : List user_record)
    (r : user_record) (extra : Nat) (hr : well_formed char_signed r)
    (hwf : ∀ x ∈ pre, well_formed char_signed x) (hne : ∀ x ∈ pre, x.name ≠ r.name) :
    _load_user_key char_signed true (read_file_result.ok (store_bytes (pre ++ r :: post))) mem
        r.name (pre.length + 1 + extra)
      = some ⟨1, some r.key⟩ := by
  have h := user_scan_found char_signed mem r post hr pre [] extra hwf hne
  simp only [List.nil_append, List.length_nil, Nat.cast_zero] at h
  simp only [_load_user_key, Bool.not_true, Bool.false_eq_true, if_false, h]
  have hbuf : store_bytes (pre ++ r :: post)
      = store_bytes pre ++ encode_record r ++ store_bytes post := by
    simp [store_bytes_append, store_bytes]
  have hlen : peek_at (store_bytes (pre ++ r :: post)) mem (((store_bytes pre).length : Nat) : Int)
      = r.name.length + 1 := by
    have := peek_at_append (store_bytes pre) (encode_record r) (store_bytes post) mem 0
      (by simp [encode_record])
    simp only [Nat.cast_zero, add_zero] at this
    rw [hbuf, this]
    simp [encode_record]
  have hkey : ∀ k : Nat, k < 20 →
      peek_at (store_bytes (pre ++ r :: post)) mem
        (((store_bytes pre).length : Nat) + 1 + char_value char_signed
          (peek_at (store_bytes (pre ++ r :: post)) mem (((store_bytes pre).length : Nat) : Int))
          + (k : Int))
        = r.key.getD k 0 := by
    intro k hk
    rw [hlen, char_value_fits char_signed r.name hr.2.1]
    have := peek_at_append (store_bytes pre) (encode_record r) (store_bytes post) mem
      (r.name.length + 2 + k) (by simp [encode_record, hr.2.2]; omega)
    have hidx : (((store_bytes pre).length : Nat) : Int) + 1 + ((r.name.length : Int) + 1) + (k : Int)
        = ((store_bytes pre).length : Int) + ((r.name.length + 2 + k : Nat) : Int) := by
      push_cast
      ring
    rw [hidx, hbuf, this]
    simp only [encode_record, List.getD_eq_getElem?_getD]
    rw [List.getElem?_append_right (by simp)]
    congr 2
    simp
  congr 3
  apply List.ext_getElem
  · simp [hr.2.2]
  · intro n h1 h2
    simp only [List.length_map, List.length_range] at h1
    simp only [List.getElem_map, List.getElem_range]
    rw [hkey n h1, List.getD_eq_getElem _ _ h2]

theorem first_record_of (rs : List user_record) (name : List Nat)
    (h : ∃ r ∈ rs, r.name = name) :
    ∃ pre r post, rs = pre ++ r :: post ∧ r.name = name ∧ ∀ x ∈ pre, x.name ≠ name := by
  induction rs with
  | nil =>
    obtain ⟨r, hr, _⟩ := h
    exact absurd hr (List.not_mem_nil r)
  | cons a t ih =>
    by_cases ha : a.name = name
    · exact ⟨[], a, t, rfl, ha, fun x hx => absurd hx (List.not_mem_nil x)⟩
    · obtain ⟨r, hr, hrn⟩ := h
      rcases List.mem_cons.1 hr with hra | hrt
      · exact absurd (hra ▸ hrn) ha
      · obtain ⟨pre, r2, post, hrs, hr2, hpre⟩ := ih ⟨r, hrt, hrn⟩
        refine ⟨a :: pre, r2, post, by rw [hrs]; rfl, hr2, ?_⟩
        intro x hx
        rcases List.mem_cons.1 hx with hxa | hxp
        · rw [hxa]; exact ha
        · exact hpre x hxp

/-- C12 (as stated, refuted): the store holds `alice` with the key 0x01..0x14;
`_save_user_key` for `alice` with the key of 20 bytes 0x55 returns 1 and writes
nothing, and `_load_user_key` for `alice` then yields 0x01..0x14, not the key
that was passed. -/
theorem save_duplicate_keeps_old_key :
    _save_user_key true true (read_file_result.ok (store_bytes [⟨name_alice, key_0x01_0x14⟩]))
      (fun _ => 0) name_alice key_0x55 0 2 = some ⟨1, none⟩ ∧
    _load_user_key true true (read_file_result.ok (store_bytes [⟨name_alice, key_0x01_0x14⟩]))
      (fun _ => 0) name_alice 2 = some ⟨1, some key_0x01_0x14⟩ ∧
    key_0x01_0x14 ≠ key_0x55 := by
  decide

/-- C12 (amended): for a store of well-formed records, a name without NUL whose
length fits the length byte as `char`, and a key of 20 bytes.  When the name is not
in the store and `write_file` succeeds, `_save_user_key` returns 1 and writes the
old content followed by the record of the name and the key, and `_load_user_key` on
the written content returns 1 and yields exactly the 20 bytes of the key.  When the
name is in the store, `_save_user_key` returns 1 without writing, whatever
`write_file` would return, and `_load_user_key` on the unchanged content returns 1
and yields the key of the first record of that name.  All scans end within one
iteration more than the store has records. -/
theorem save_then_load_round_trip (char_signed : Bool) (mem mem1 : Int → Nat)
    (rs : List user_record) (name key : List Nat) (extra : Nat)
    (hwf : ∀ r ∈ rs, well_formed char_signed r) (hname : 0 ∉ name)
    (hfit : name_fits char_signed name) (hkey : key.length = 20) :
    ((∀ r ∈ rs, r.name ≠ name) →
      _save_user_key char_signed true (read_file_result.ok (store_bytes rs)) mem name key 0
          (rs.length + 1 + extra)
        = some ⟨1, some (store_bytes rs ++ encode_record ⟨name, key⟩)⟩ ∧
      _load_user_key char_signed true
          (read_file_result.ok (store_bytes rs ++ encode_record ⟨name, key⟩)) mem1 name
          (rs.length + 1 + extra)
        = some ⟨1, some key⟩) ∧
    ((∃ r ∈ rs, r.name = name) →
      ∀ write_ret : Int,
        _save_user_key char_signed true (read_file_result.ok (store_bytes rs)) mem name key
            write_ret (rs.length + 1 + extra)
          = some ⟨1, none⟩) ∧
    (∀ (pre post : List user_record) (r : user_record),
      rs = pre ++ r :: post → r.name = name → (∀ x ∈ pre, x.name ≠ name) →
        _load_user_key char_signed true (read_file_result.ok (store_bytes rs)) mem1 name
            (rs.length + 1 + extra)
          = some ⟨1, some r.key⟩) := by
  have htake : key.take 20 = key := List.take_of_length_le (by omega)
  have hstore : store_bytes (rs ++ [⟨name, key⟩]) = store_bytes rs ++ encode_record ⟨name, key⟩ := by
    simp [store_bytes_append, store_bytes]
  refine ⟨fun habsent => ⟨?_, ?_⟩, ?_, ?_⟩
  · have h := save_absent char_signed mem rs name key 0 extra hname hfit hwf habsent
    rw [htake, hstore] at h
    exact h
  · have h := load_present char_signed mem1 rs [] ⟨name, key⟩ extra ⟨hname, hfit, hkey⟩ hwf habsent
    rw [hstore] at h
    exact h
  · intro hex write_ret
    obtain ⟨pre, r, post, hrs, hr, hpre⟩ := first_record_of rs name hex
    have hfuel : rs.length + 1 + extra = pre.length + 1 + (post.length + 1 + extra) := by
      rw [hrs]
      simp only [List.length_append, List.length_cons]
      omega
    have h := save_present char_signed mem pre post r key write_ret (post.length + 1 + extra)
      (hwf r (by rw [hrs]; simp))
      (fun x hx => hwf x (by rw [hrs]; simp [hx]))
      (fun x hx => by rw [hr]; exact hpre x hx)
    rw [hr, ← hrs, ← hfuel] at h
    exact h
  · intro pre post r hrs hr hpre
    have hfuel : rs.length + 1 + extra = pre.length + 1 + (post.length + 1 + extra) := by
      rw [hrs]
      simp only [List.length_append, List.length_cons]
      omega
    have h := load_present char_signed mem1 pre post r (post.length + 1 + extra)
      (hwf r (by rw [hrs]; simp))
      (fun x hx => hwf x (by rw [hrs]; simp [hx]))
      (fun x hx => by rw [hr]; exact hpre x hx)
    rw [hr, ← hrs, ← hfuel] at h
    exact h

/-- C12 witness: on the store holding `bob`, `alice` is saved with the key 0x01..0x14
and loaded again; on the store holding `bob` and then `alice` with the key 0x55,
saving `alice` writes nothing and loading `alice` yields 0x55. -/
theorem save_then_load_round_trip_witness :
    (_save_user_key true true (read_file_result.ok (store_bytes [⟨name_bob, key_0x55⟩]))
        (fun _ => 0) name_alice key_0x01_0x14 0 2
      = some ⟨1, some (store_bytes [⟨name_bob, key_0x55⟩]
          ++ encode_record ⟨name_alice, key_0x01_0x14⟩)⟩ ∧
    _load_user_key true true
        (read_file_result.ok (store_bytes [⟨name_bob, key_0x55⟩]
          ++ encode_record ⟨name_alice, key_0x01_0x14⟩)) (fun _ => 0) name_alice 2
      = some ⟨1, some key_0x01_0x14⟩) ∧
    (_save_user_key true true
        (read_file_result.ok (store_bytes [⟨name_bob, key_0x01_0x14⟩, ⟨name_alice, key_0x55⟩]))
        (fun _ => 0) name_alice key_0x01_0x14 0 3
      = some ⟨1, none⟩) ∧
    (_load_user_key true true
        (read_file_result.ok (store_bytes [⟨name_bob, key_0x01_0x14⟩, ⟨name_alice, key_0x55⟩]))
        (fun _ => 0) name_alice 3
      = some ⟨1, some key_0x55⟩) :=
  ⟨(save_then_load_round_trip true (fun _ => 0) (fun _ => 0) [⟨name_bob, key_0x55⟩] name_alice
      key_0x01_0x14 0 (by decide) (by decide) (by decide) (by decide)).1 (by decide),
    (save_then_load_round_trip true (fun _ => 0) (fun _ => 0)
      [⟨name_bob, key_0x01_0x14⟩, ⟨name_alice, key_0x55⟩] name_alice key_0x01_0x14 0
      (by decide) (by decide) (by decide) (by decide)).2.1
      ⟨⟨name_alice, key_0x55⟩, by decide, rfl⟩ 0,
    (save_then_load_round_trip true (fun _ => 0) (fun _ => 0)
      [⟨name_bob, key_0x01_0x14⟩, ⟨name_alice, key_0x55⟩] name_alice key_0x01_0x14 0
      (by decide) (by decide) (by decide) (by decide)).2.2
      [⟨name_bob, key_0x01_0x14⟩] [] ⟨name_alice, key_0x55⟩ rfl rfl (by decide)⟩

set_option maxRecDepth 100000 in
/-- C13 (the code at the failing input): on an empty store `_save_user_key` for a name
of 255 characters returns 1 and writes the length byte 0, the name with its NUL and
the key; no record has these bytes.  On the written content `_load_user_key` for
that name yields the first 20 characters of the name as the key, and
`_save_user_key` for the absent name of 234 characters returns 1 and writes
nothing. -/
theorem save_long_name_writes_no_record :
    (∀ char_signed : Bool,
      _save_user_key char_signed true (read_file_result.ok []) (fun _ => 0) long_name
        key_0x01_0x14 0 1
        = some ⟨1, some (0 :: (long_name ++ [0] ++ key_0x01_0x14))⟩) ∧
    (∀ r : user_record, 0 :: (long_name ++ [0] ++ key_0x01_0x14) ≠ encode_record r) ∧
    (∀ char_signed : Bool,
      _load_user_key char_signed true
        (read_file_result.ok (0 :: (long_name ++ [0] ++ key_0x01_0x14))) (fun _ => 0) long_name 1
        = some ⟨1, some (List.replicate 20 97)⟩) ∧
    (∀ char_signed : Bool,
      _save_user_key char_signed true
        (read_file_result.ok (0 :: (long_name ++ [0] ++ key_0x01_0x14))) (fun _ => 0)
        (List.replicate 234 97) key_0x55 0 2
        = some ⟨1, none⟩) := by
  refine ⟨by decide, ?_, by decide, by decide⟩
  intro r h
  have h1 := congrArg List.head? h
  simp [encode_record] at h1

/-! ## `content_reset` -/

/-- C14 (as stated, refuted): after `content_reset` for `alice` on an empty store
with the challenge 0x01..0x14, the bytes written to `users.dat` are not the length
byte 21 followed by the name, its NUL and the challenge: the first byte is 6. -/
theorem content_reset_length_byte :
    (content_reset connected_handle "alice".toList reset_env_example
        (fun d _ _ => ⟨d, 1⟩)).map (fun r => r.saved.written)
      ≠ some (some (21 :: (name_alice ++ [0] ++ key_0x01_0x14))) ∧
    (content_reset connected_handle "alice".toList reset_env_example
        (fun d _ _ => ⟨d, 1⟩)).map (fun r => r.saved.written.map List.head?)
      = some (some (some 6)) := by
  decide

/-- C14 (amended): after `content_reset` for `alice` on an empty store, with the
device returning the challenge 0x01..0x14, `_save_user_key` has returned 1 and
`users.dat` holds exactly one record: the length byte 6 (the length of `alice` with
its NUL), then `alice` with its NUL, then the 20 bytes 0x01..0x14. -/
theorem content_reset_writes_record
    (content_auth : exword_t → List Char → List Nat → cmd_result) :
    (content_reset connected_handle "alice".toList reset_env_example content_auth).map
        (fun r => (r.challenge, r.saved))
      = some ([1, 2, 3, 4, 5, 6, 7, 8, 9, 10, 11, 12, 13, 14, 15, 16, 17, 18, 19, 20],
          ⟨1, some ([6, 97, 108, 105, 99, 101, 0,
            1, 2, 3, 4, 5, 6, 7, 8, 9, 10, 11, 12, 13, 14, 15, 16, 17, 18, 19, 20])⟩) ∧
    [6, 97, 108, 105, 99, 101, 0,
      1, 2, 3, 4, 5, 6, 7, 8, 9, 10, 11, 12, 13, 14, 15, 16, 17, 18, 19, 20]
      = store_bytes [⟨name_alice, key_0x01_0x14⟩] := by
  exact ⟨rfl, by decide⟩

/-! ## The body of `exword_get_model` -/

theorem peek_append (A B C : List Nat) (heap : Nat → Nat) (k : Nat) (hk : k < B.length) :
    peek (A ++ B ++ C) heap (A.length + k) = B.getD k 0 := by
  unfold peek
  have h4 : A.length + k < (A ++ B ++ C).length := by
    simp only [List.length_append]; omega
  rw [if_pos h4]
  rw [List.getD_eq_getElem?_getD, List.getD_eq_getElem?_getD, List.append_assoc,
    List.getElem?_append_right (by omega), Nat.add_sub_cancel_left,
    List.getElem?_append_left hk]

theorem strlen_at_token (C : List Nat) (heap : Nat → Nat) (t : List Nat) :
    ∀ (A : List Nat) (fuel : Nat), 0 ∉ t → t.length < fuel →
      strlen_at (A ++ (t ++ [0]) ++ C) heap fuel A.length = some t.length := by
  induction t with
  | nil =>
    intro A fuel _ hf
    obtain ⟨f, rfl⟩ : ∃ f, fuel = f + 1 := ⟨fuel - 1, by simp at hf; omega⟩
    have := peek_append A ([] ++ [0]) C heap 0 (by simp)
    simp only [add_zero] at this
    rw [strlen_at, this]
    simp
  | cons a t ih =>
    intro A fuel h0 hf
    obtain ⟨f, rfl⟩ : ∃ f, fuel = f + 1 := ⟨fuel - 1, by simp at hf; omega⟩
    have ha : a ≠ 0 := fun h => h0 (by simp [h])
    have ht : 0 ∉ t := fun h => h0 (List.mem_cons_of_mem _ h)
    have := peek_append A (a :: t ++ [0]) C heap 0 (by simp)
    simp only [add_zero] at this
    have hrec := ih (A ++ [a]) f ht (by simp at hf; omega)
    have hbuf : A ++ [a] ++ (t ++ [0]) ++ C = A ++ (a :: t ++ [0]) ++ C := by simp
    have hidx : (A ++ [a]).length = A.length + 1 := by simp
    rw [hbuf, hidx] at hrec
    rw [strlen_at, this, hrec]
    simp [ha]

theorem window_token (A B C : List Nat) (heap : Nat → Nat) (n : Nat) (hn : n ≤ B.length) :
    window (A ++ B ++ C) heap A.length n = B.take n := by
  apply List.ext_getElem
  · simp [window, hn]
  · intro k h1 h2
    simp only [window, List.length_map, List.length_range] at h1
    simp only [window, List.getElem_map, List.getElem_range, List.getElem_take]
    rw [peek_append A B C heap k (by omega), List.getD_eq_getElem _ _ (by omega)]

theorem window_succ (body : List Nat) (heap : Nat → Nat) (p n : Nat) :
    window body heap p (n + 1) = peek body heap p :: window body heap (p + 1) n := by
  simp only [window, List.range_succ_eq_map, List.map_cons, List.map_map, add_zero]
  congr 1
  apply List.map_congr_left
  intro k _
  simp only [Function.comp, Nat.succ_eq_add_one]
  congr 1
  omega

theorem window_eq_iff (C : List Nat) (heap : Nat → Nat) (s : List Nat) :
    ∀ (A t : List Nat), 0 ∉ s →
      (window (A ++ (t ++ [0]) ++ C) heap A.length s.length = s ↔ s.isPrefixOf t = true) := by
  induction s with
  | nil => intro A t _; simp [window]
  | cons c cs ih =>
    intro A t hs
    have hc : c ≠ 0 := fun h => hs (by simp [h])
    have hcs : 0 ∉ cs := fun h => hs (List.mem_cons_of_mem _ h)
    have hp := peek_append A (t ++ [0]) C heap 0 (by simp)
    simp only [add_zero] at hp
    rw [List.length_cons, window_succ, hp]
    cases t with
    | nil =>
      have : (0 : Nat) ≠ c := fun h => hc h.symm
      simp [List.isPrefixOf, this]
    | cons a t =>
      have hrec := ih (A ++ [a]) t hcs
      have hbuf : A ++ [a] ++ (t ++ [0]) ++ C = A ++ (a :: t ++ [0]) ++ C := by simp
      have hidx : (A ++ [a]).length = A.length + 1 := by simp
      rw [hbuf, hidx] at hrec
      simp only [List.cons_append, List.getD_cons_zero, List.cons.injEq, List.isPrefixOf,
        Bool.and_eq_true, beq_iff_eq]
      rw [← hrec]
      constructor
      · rintro ⟨h1, h2⟩
        exact ⟨h1.symm, h2⟩
      · rintro ⟨h1, h2⟩
        exact ⟨h1.symm, h2⟩

theorem window_str (C : List Nat) (heap : Nat → Nat) (A t : List Nat) (s : String) (n : Nat)
    (hn : (str s).length = n) (hs : 0 ∉ str s) :
    (window (A ++ (t ++ [0]) ++ C) heap A.length n = str s) ↔ begins_with s t = true := by
  subst hn
  exact window_eq_iff C heap (str s) A t hs

theorem model_token_eq (C : List Nat) (heap : Nat → Nat) (A t : List Nat)
    (model : exword_model_t) (hcy : begins_with "CY" t = true → 6 ≤ t.length) :
    model_token (A ++ (t ++ [0]) ++ C) heap model A.length = token_update t model := by
  have hSW := window_str C heap A t "SW" 2 rfl (by decide)
  have hST := window_str C heap A t "ST" 2 rfl (by decide)
  have hT := window_str C heap A t "T" 1 rfl (by decide)
  have hP := window_str C heap A t "P" 1 rfl (by decide)
  have hF := window_str C heap A t "F" 1 rfl (by decide)
  have hCY := window_str C heap A t "CY" 2 rfl (by decide)
  have hC := window_str C heap A t "C" 1 rfl (by decide)
  unfold model_token token_update
  simp only [hSW, hST, hT, hP, hF, hCY, hC]
  by_cases h : begins_with "CY" t = true
  · have h6 := window_token A (t ++ [0]) C heap 6 (by simp; have := hcy h; omega)
    have h6t : (t ++ [0]).take 6 = t.take 6 := by
      rw [List.take_append_of_le_length (hcy h)]
    rw [h6, h6t]
  · simp only [h, if_false]
    simp only [Bool.not_eq_true] at h
    simp [h]

theorem model_body_prefix (ts : List (List Nat)) :
    ∀ A : List Nat, model_body A ts = A ++ model_body [] ts := by
  induction ts with
  | nil => intro A; simp [model_body]
  | cons t ts ih =>
    intro A
    rw [model_body, ih, model_body, ih ([] ++ (t ++ [0]))]
    simp

theorem model_tokens_eq (heap : Nat → Nat) (fuel : Nat) (ts : List (List Nat)) :
    ∀ (A : List Nat) (model : exword_model_t) (n : Nat),
      (∀ t ∈ ts, 0 ∉ t ∧ t.length < fuel ∧ (begins_with "CY" t = true → 6 ≤ t.length)) →
      ts.length < n →
      model_tokens (model_body A ts) heap fuel n A.length model
        = some (ts.foldl (fun m t => token_update t m) model) := by
  induction ts with
  | nil =>
    intro A model n _ hn
    obtain ⟨k, rfl⟩ : ∃ k, n = k + 1 := ⟨n - 1, by simp at hn; omega⟩
    simp [model_tokens, model_body]
  | cons t ts ih =>
    intro A model n hts hn
    obtain ⟨k, rfl⟩ : ∃ k, n = k + 1 := ⟨n - 1, by simp at hn; omega⟩
    obtain ⟨h0, hlen, hcy⟩ := hts t (List.mem_cons_self _ _)
    have hbody : model_body A (t :: ts) = A ++ (t ++ [0]) ++ model_body [] ts := by
      rw [model_body, model_body_prefix]
    have hlt : A.length < (model_body A (t :: ts)).length := by
      rw [hbody]
      simp only [List.length_append, List.length_singleton]
      omega
    have hstr := strlen_at_token (model_body [] ts) heap t A fuel h0 hlen
    have htok := model_token_eq (model_body [] ts) heap A t model hcy
    have hrec := ih (A ++ (t ++ [0])) (token_update t model) k
      (fun x hx => hts x (List.mem_cons_of_mem _ hx)) (by simp at hn; omega)
    have hidx : (A ++ (t ++ [0])).length = A.length + t.length + 1 := by
      simp only [List.length_append, List.length_singleton]
      omega
    rw [model_tokens, if_pos hlt, hbody, hstr]
    simp only []
    rw [htok, ← hidx, ← model_body_prefix, List.foldl_cons]
    exact hrec

theorem begins_cases (t : List Nat) :
    (begins_with "SW" t, begins_with "ST" t, begins_with "T" t, begins_with "P" t,
      begins_with "F" t, begins_with "CY" t, begins_with "C" t)
      ∈ [(true, false, false, false, false, false, false),
         (false, true, false, false, false, false, false),
         (false, false, true, false, false, false, false),
         (false, false, false, true, false, false, false),
         (false, false, false, false, true, false, false),
         (false, false, false, false, false, true, true),
         (false, false, false, false, false, false, true),
         (false, false, false, false, false, false, false)] := by
  rcases t with _ | ⟨a, _ | ⟨b, r⟩⟩
  · decide
  · simp only [begins_with, show str "SW" = [83, 87] from rfl, show str "ST" = [83, 84] from rfl,
      show str "T" = [84] from rfl, show str "P" = [80] from rfl, show str "F" = [70] from rfl,
      show str "CY" = [67, 89] from rfl, show str "C" = [67] from rfl, List.isPrefixOf,
      Bool.and_true, Bool.and_false]
    by_cases h1 : a = 84
    · subst h1; decide
    by_cases h2 : a = 80
    · subst h2; decide
    by_cases h3 : a = 70
    · subst h3; decide
    by_cases h4 : a = 67
    · subst h4; decide
    have e1 : ((84 : Nat) == a) = false := by simpa using fun h => h1 h.symm
    have e2 : ((80 : Nat) == a) = false := by simpa using fun h => h2 h.symm
    have e3 : ((70 : Nat) == a) = false := by simpa using fun h => h3 h.symm
    have e4 : ((67 : Nat) == a) = false := by simpa using fun h => h4 h.symm
    simp [e1, e2, e3, e4]
  · simp only [begins_with, show str "SW" = [83, 87] from rfl, show str "ST" = [83, 84] from rfl,
      show str "T" = [84] from rfl, show str "P" = [80] from rfl, show str "F" = [70] from rfl,
      show str "CY" = [67, 89] from rfl, show str "C" = [67] from rfl, List.isPrefixOf,
      Bool.and_true, Bool.and_false]
    by_cases h1 : a = 84
    · subst h1; simp
    by_cases h2 : a = 80
    · subst h2; simp
    by_cases h3 : a = 70
    · subst h3; simp
    have e1 : ((84 : Nat) == a) = false := by simpa using fun h => h1 h.symm
    have e2 : ((80 : Nat) == a) = false := by simpa using fun h => h2 h.symm
    have e3 : ((70 : Nat) == a) = false := by simpa using fun h => h3 h.symm
    by_cases h4 : a = 67
    · subst h4
      by_cases h5 : b = 89
      · subst h5; simp
      · have e5 : ((89 : Nat) == b) = false := by simpa using fun h => h5 h.symm
        simp [e5]
    have e4 : ((67 : Nat) == a) = false := by simpa using fun h => h4 h.symm
    by_cases h6 : a = 83
    · subst h6
      by_cases h7 : b = 87
      · subst h7; simp
      have e7 : ((87 : Nat) == b) = false := by simpa using fun h => h7 h.symm
      by_cases h8 : b = 84
      · subst h8; simp
      have e8 : ((84 : Nat) == b) = false := by simpa using fun h => h8 h.symm
      simp [e7, e8]
    have e6 : ((83 : Nat) == a) = false := by simpa using fun h => h6 h.symm
    simp [e1, e2, e3, e4, e6]

theorem caps_table : ∀ k < 4, ∀ sw st t p f ext : Bool,
    caps_of ⟨sw, st, t, p, f, ext, k⟩ ||| CAP_SW = caps_of ⟨true, st, t, p, f, ext, k⟩ ∧
    caps_of ⟨sw, st, t, p, f, ext, k⟩ ||| CAP_ST = caps_of ⟨sw, true, t, p, f, ext, k⟩ ∧
    caps_of ⟨sw, st, t, p, f, ext, k⟩ ||| CAP_T = caps_of ⟨sw, st, true, p, f, ext, k⟩ ∧
    caps_of ⟨sw, st, t, p, f, ext, k⟩ ||| CAP_P = caps_of ⟨sw, st, t, true, f, ext, k⟩ ∧
    caps_of ⟨sw, st, t, p, f, ext, k⟩ ||| CAP_F = caps_of ⟨sw, st, t, p, true, ext, k⟩ ∧
    caps_of ⟨sw, st, t, p, f, ext, k⟩ ||| CAP_EXT = caps_of ⟨sw, st, t, p, f, true, k⟩ ∧
    (if caps_of ⟨sw, st, t, p, f, ext, k⟩ &&& CAP_C2 ≠ 0 then
        caps_of ⟨sw, st, t, p, f, ext, k⟩ ||| CAP_C3
      else if caps_of ⟨sw, st, t, p, f, ext, k⟩ &&& CAP_C ≠ 0 then
        caps_of ⟨sw, st, t, p, f, ext, k⟩ ||| CAP_C2
      else caps_of ⟨sw, st, t, p, f, ext, k⟩ ||| CAP_C)
      = caps_of ⟨sw, st, t, p, f, ext, k + 1⟩ ∧
    has_cap (caps_of ⟨sw, st, t, p, f, ext, k⟩) CAP_SW = sw ∧
    has_cap (caps_of ⟨sw, st, t, p, f, ext, k⟩) CAP_ST = st ∧
    has_cap (caps_of ⟨sw, st, t, p, f, ext, k⟩) CAP_T = t ∧
    has_cap (caps_of ⟨sw, st, t, p, f, ext, k⟩) CAP_P = p ∧
    has_cap (caps_of ⟨sw, st, t, p, f, ext, k⟩) CAP_F = f ∧
    has_cap (caps_of ⟨sw, st, t, p, f, ext, k⟩) CAP_EXT = ext ∧
    has_cap (caps_of ⟨sw, st, t, p, f, ext, k⟩) CAP_C = decide (1 ≤ k) ∧
    has_cap (caps_of ⟨sw, st, t, p, f, ext, k⟩) CAP_C2 = decide (2 ≤ k) ∧
    has_cap (caps_of ⟨sw, st, t, p, f, ext, k⟩) CAP_C3 = decide (3 ≤ k) := by
  decide

theorem caps_of_min (sw st t p f ext : Bool) (n : Nat) :
    caps_of ⟨sw, st, t, p, f, ext, n⟩ = caps_of ⟨sw, st, t, p, f, ext, min n 3⟩ := by
  have h1 : (1 ≤ min n 3) = (1 ≤ n) := by simp
  have h2 : (2 ≤ min n 3) = (2 ≤ n) := by simp
  have h3 : (3 ≤ min n 3) = (3 ≤ n) := by simp
  simp only [caps_of, h1, h2, h3]

theorem caps_of_succ (sw st t p f ext : Bool) (n : Nat) :
    caps_of ⟨sw, st, t, p, f, ext, min n 3 + 1⟩ = caps_of ⟨sw, st, t, p, f, ext, n + 1⟩ := by
  rw [caps_of_min sw st t p f ext (min n 3 + 1), caps_of_min sw st t p f ext (n + 1)]
  congr 2
  omega

theorem token_update_caps (t : List Nat) (model : exword_model_t) (fl : cap_flags)
    (h : model.capabilities = caps_of fl) :
    (token_update t model).capabilities = caps_of (flag_step t fl) := by
  rcases fl with ⟨sw, st, tt, p, f, ext, n⟩
  have hmin := caps_of_min sw st tt p f ext n
  obtain ⟨t1, t2, t3, t4, t5, t6, t7, -⟩ :=
    caps_table (min n 3) (by omega) sw st tt p f ext
  rw [← hmin] at t1 t2 t3 t4 t5 t6 t7
  rw [caps_of_succ] at t7
  have hc := begins_cases t
  simp only [List.mem_cons, Prod.mk.injEq, List.mem_singleton, List.not_mem_nil, or_false] at hc
  unfold token_update flag_step
  rcases hc with ⟨h1, h2, h3, h4, h5, h6, h7⟩ | ⟨h1, h2, h3, h4, h5, h6, h7⟩ |
    ⟨h1, h2, h3, h4, h5, h6, h7⟩ | ⟨h1, h2, h3, h4, h5, h6, h7⟩ |
    ⟨h1, h2, h3, h4, h5, h6, h7⟩ | ⟨h1, h2, h3, h4, h5, h6, h7⟩ |
    ⟨h1, h2, h3, h4, h5, h6, h7⟩ | ⟨h1, h2, h3, h4, h5, h6, h7⟩
  all_goals
    simp only [h1, h2, h3, h4, h5, h6, h7, if_true, if_false, Bool.false_eq_true, Bool.or_true,
      Bool.or_false, Bool.and_true, Bool.and_false, Bool.not_true, Bool.not_false, add_zero, h]
  · exact t1.trans (caps_of_min _ _ _ _ _ _ _).symm
  · exact t2.trans (caps_of_min _ _ _ _ _ _ _).symm
  · exact t3.trans (caps_of_min _ _ _ _ _ _ _).symm
  · exact t4.trans (caps_of_min _ _ _ _ _ _ _).symm
  · exact t5.trans (caps_of_min _ _ _ _ _ _ _).symm
  · exact t6.trans (caps_of_min _ _ _ _ _ _ _).symm
  · rw [← t7]
    split_ifs <;> rfl

theorem fold_caps (ts : List (List Nat)) :
    ∀ (model : exword_model_t) (fl : cap_flags), model.capabilities = caps_of fl →
      (ts.foldl (fun m t => token_update t m) model).capabilities
        = caps_of (ts.foldl (fun fl t => flag_step t fl) fl) := by
  induction ts with
  | nil => intro model fl h; exact h
  | cons t ts ih =>
    intro model fl h
    exact ih _ _ (token_update_caps t model fl h)

theorem fold_flags (ts : List (List Nat)) :
    ∀ fl : cap_flags, ts.foldl (fun fl t => flag_step t fl) fl
      = ⟨fl.sw || ts.any (begins_with "SW"), fl.st || ts.any (begins_with "ST"),
         fl.t || ts.any (begins_with "T"), fl.p || ts.any (begins_with "P"),
         fl.f || ts.any (begins_with "F"), fl.ext || ts.any (begins_with "CY"),
         fl.n + c_count ts⟩ := by
  induction ts with
  | nil => intro fl; simp [c_count]
  | cons t ts ih =>
    intro fl
    rw [List.foldl_cons, ih]
    simp only [flag_step, List.any_cons, Bool.or_assoc, c_count, List.filter_cons]
    congr 1
    split_ifs <;> simp
    all_goals omega

theorem token_update_ext (t : List Nat) (model : exword_model_t) :
    (token_update t model).ext_model
      = if begins_with "CY" t then t.take 6 else model.ext_model := by
  have hc := begins_cases t
  simp only [List.mem_cons, Prod.mk.injEq, List.mem_singleton, List.not_mem_nil, or_false] at hc
  unfold token_update
  rcases hc with ⟨h1, h2, h3, h4, h5, h6, h7⟩ | ⟨h1, h2, h3, h4, h5, h6, h7⟩ |
    ⟨h1, h2, h3, h4, h5, h6, h7⟩ | ⟨h1, h2, h3, h4, h5, h6, h7⟩ |
    ⟨h1, h2, h3, h4, h5, h6, h7⟩ | ⟨h1, h2, h3, h4, h5, h6, h7⟩ |
    ⟨h1, h2, h3, h4, h5, h6, h7⟩ | ⟨h1, h2, h3, h4, h5, h6, h7⟩
  all_goals
    simp only [h1, h2, h3, h4, h5, h6, h7, if_true, if_false, Bool.false_eq_true]
  split_ifs <;> rfl

theorem token_update_model (t : List Nat) (model : exword_model_t) :
    (token_update t model).model = model.model ∧
    (token_update t model).sub_model = model.sub_model := by
  unfold token_update
  split_ifs <;> exact ⟨rfl, rfl⟩

theorem last_cy_cons (t : List Nat) (ts : List (List Nat)) :
    last_cy (t :: ts)
      = match last_cy ts with
        | some x => some x
        | none => if begins_with "CY" t then some t else none := by
  unfold last_cy
  rw [List.filter_cons]
  by_cases h : begins_with "CY" t = true
  · simp only [h, if_true]
    cases hf : List.filter (fun t => begins_with "CY" t) ts with
    | nil => simp
    | cons x xs =>
      rw [List.getLast?_cons_cons]
      have : (x :: xs).getLast? = some ((x :: xs).getLast (by simp)) :=
        List.getLast?_eq_getLast _ _
      rw [this]
  · simp only [h, if_false, Bool.false_eq_true]
    cases hf : (List.filter (fun t => begins_with "CY" t) ts).getLast? <;> simp

theorem fold_ext (ts : List (List Nat)) :
    ∀ model : exword_model_t,
      (ts.foldl (fun m t => token_update t m) model).ext_model
        = match last_cy ts with
          | some t => t.take 6
          | none => model.ext_model := by
  induction ts with
  | nil => intro model; rfl
  | cons t ts ih =>
    intro model
    rw [List.foldl_cons, ih, last_cy_cons, token_update_ext]
    cases last_cy ts with
    | some x => rfl
    | none =>
      by_cases h : begins_with "CY" t = true
      · simp [h]
      · simp [h]

theorem fold_model (ts : List (List Nat)) :
    ∀ model : exword_model_t,
      (ts.foldl (fun m t => token_update t m) model).model = model.model ∧
      (ts.foldl (fun m t => token_update t m) model).sub_model = model.sub_model := by
  induction ts with
  | nil => intro model; exact ⟨rfl, rfl⟩
  | cons t ts ih =>
    intro model
    rw [List.foldl_cons]
    exact ⟨(ih _).1.trans (token_update_model t model).1,
      (ih _).2.trans (token_update_model t model).2⟩

/-- C20: for a `_Model` response whose body is 23 bytes followed by NUL-terminated
tokens (a token beginning with `CY` having the 6 bytes that are copied),
`exword_get_model` ends and sets `capabilities` to the union of the mapped bits:
`CAP_SW`, `CAP_ST`, `CAP_T`, `CAP_P`, `CAP_F`, `CAP_EXT` are set exactly when a
token begins with `SW`, `ST`, `T`, `P`, `F`, `CY`; with `n` tokens beginning with `C`
but not `CY`, `CAP_C` is set iff `n >= 1`, `CAP_C2` iff `n >= 2`, `CAP_C3` iff
`n >= 3`; `ext_model` holds the first 6 bytes of the last `CY` token, `model` and
`sub_model` the bytes 0..14 and 14..20 of the body.  The tokens `SW`, `ST`, `C`,
`C`, `CYABCD` yield `CAP_SW|CAP_ST|CAP_C|CAP_C2|CAP_EXT` and `CYABCD`. -/
theorem get_model_capabilities (self : exword_t) (model : exword_model_t) (o : outcome)
    (heap : Nat → Nat) (front : List Nat) (tokens : List (List Nat)) (fuel : Nat)
    (hstatus : self.status &&& 0x06 = 0) (hconn : exword_is_connected self = true)
    (hobj : o.obj_ok = true)
    (hrsp : o.rsp = OBEX_RSP_SUCCESS ∨ o.rsp = OBEX_RSP_SUCCESS + 0x80)
    (hbody : o.hdr_body = model_body front tokens) (hfront : front.length = 23)
    (htok : ∀ t ∈ tokens, 0 ∉ t ∧ t.length < fuel ∧
      (begins_with "CY" t = true → 6 ≤ t.length))
    (hfuel : tokens.length < fuel) :
    (∃ m, exword_get_model_data self model o heap fuel = some m ∧
      m.capabilities = caps_of (token_flags tokens) ∧
      has_cap m.capabilities CAP_SW = tokens.any (begins_with "SW") ∧
      has_cap m.capabilities CAP_ST = tokens.any (begins_with "ST") ∧
      has_cap m.capabilities CAP_T = tokens.any (begins_with "T") ∧
      has_cap m.capabilities CAP_P = tokens.any (begins_with "P") ∧
      has_cap m.capabilities CAP_F = tokens.any (begins_with "F") ∧
      has_cap m.capabilities CAP_EXT = tokens.any (begins_with "CY") ∧
      (has_cap m.capabilities CAP_C = true ↔ 1 ≤ c_count tokens) ∧
      (has_cap m.capabilities CAP_C2 = true ↔ 2 ≤ c_count tokens) ∧
      (has_cap m.capabilities CAP_C3 = true ↔ 3 ≤ c_count tokens) ∧
      m.ext_model = (match last_cy tokens with
        | some t => t.take 6
        | none => model.ext_model) ∧
      m.model = front.take 14 ∧ m.sub_model = (front.drop 14).take 6) ∧
    (exword_get_model_data connected_handle ⟨[], [], [], 0⟩ model_outcome_example
        (fun _ => 0) 7).map (fun m => (m.capabilities, m.ext_model))
      = some (CAP_SW ||| CAP_ST ||| CAP_C ||| CAP_C2 ||| CAP_EXT, str "CYABCD") := by
  refine ⟨?_, by decide⟩
  have hrun : exword_get_model_data self model o heap fuel
      = some (tokens.foldl (fun m t => token_update t m)
          { model with capabilities := 0,
                       model := window o.hdr_body heap 0 14,
                       sub_model := window o.hdr_body heap 14 6 }) := by
    unfold exword_get_model_data
    rw [if_neg (by simp [hstatus]), if_neg (by simp [hconn]), if_neg (by simp [hobj]),
      if_pos hrsp]
    have := model_tokens_eq heap fuel tokens front
      { model with capabilities := 0,
                   model := window o.hdr_body heap 0 14,
                   sub_model := window o.hdr_body heap 14 6 } fuel htok hfuel
    rw [hfront, ← hbody] at this
    exact this
  refine ⟨_, hrun, ?_⟩
  have hcaps := fold_caps tokens
    { model with capabilities := 0,
                 model := window o.hdr_body heap 0 14,
                 sub_model := window o.hdr_body heap 14 6 } ⟨false, false, false, false, false, false, 0⟩
    (show (0 : Nat) = caps_of ⟨false, false, false, false, false, false, 0⟩ by decide)
  rw [fold_flags] at hcaps
  simp only [Bool.false_or, Nat.zero_add] at hcaps
  have hflags : caps_of (token_flags tokens)
      = caps_of ⟨tokens.any (begins_with "SW"), tokens.any (begins_with "ST"),
          tokens.any (begins_with "T"), tokens.any (begins_with "P"),
          tokens.any (begins_with "F"), tokens.any (begins_with "CY"), c_count tokens⟩ := rfl
  obtain ⟨-, -, -, -, -, -, -, c1, c2, c3, c4, c5, c6, c7, c8, c9⟩ :=
    caps_table (min (c_count tokens) 3) (by omega) (tokens.any (begins_with "SW"))
      (tokens.any (begins_with "ST")) (tokens.any (begins_with "T"))
      (tokens.any (begins_with "P")) (tokens.any (begins_with "F"))
      (tokens.any (begins_with "CY"))
  rw [← caps_of_min] at c1 c2 c3 c4 c5 c6 c7 c8 c9
  rw [hcaps]
  refine ⟨hflags.symm, c1, c2, c3, c4, c5, c6, ?_, ?_, ?_, ?_, ?_, ?_⟩
  · rw [c7]; simp
  · rw [c8]; simp
  · rw [c9]; simp
  · rw [fold_ext]
  · rw [(fold_model tokens _).1]
    have hb : o.hdr_body = [] ++ front ++ model_body [] tokens := by
      rw [hbody, model_body_prefix]; simp
    have := window_token [] front (model_body [] tokens) heap 14 (by omega)
    rw [hb]
    exact this
  · rw [(fold_model tokens _).2]
    have hb : o.hdr_body = front.take 14 ++ front.drop 14 ++ model_body [] tokens := by
      rw [hbody, model_body_prefix, List.take_append_drop]
    have := window_token (front.take 14) (front.drop 14) (model_body [] tokens) heap 6
      (by simp [hfront])
    rw [List.length_take, hfront] at this
    rw [hb]
    exact this

/-- C20 witness: the body of 23 bytes followed by the tokens `SW`, `ST`, `C`, `C`,
`CYABCD` on a connected handle. -/
theorem get_model_capabilities_witness :
    ∃ m, exword_get_model_data connected_handle ⟨[], [], [], 0⟩ model_outcome_example
        (fun _ => 0) 7 = some m ∧
      m.capabilities
        = caps_of (token_flags [str "SW", str "ST", str "C", str "C", str "CYABCD"]) ∧
      (has_cap m.capabilities CAP_C2 = true ↔
        2 ≤ c_count [str "SW", str "ST", str "C", str "C", str "CYABCD"]) :=
  (get_model_capabilities connected_handle ⟨[], [], [], 0⟩ model_outcome_example (fun _ => 0)
    (List.replicate 23 65) [str "SW", str "ST", str "C", str "C", str "CYABCD"] 7
    (by decide) (by decide) rfl (Or.inl rfl) rfl (by decide) (by decide) (by decide)).1.imp
    (fun _ h => ⟨h.1, h.2.1, h.2.2.2.2.2.2.2.2.2.1⟩)

/-! ## `exword_handle_interrupt` and the status bits -/

theorem testBit_or_four (s i : Nat) (hi : i ≠ 2) : (s ||| 4).testBit i = s.testBit i := by
  rw [Nat.testBit_or, show (4 : Nat) = 2 ^ 2 from rfl, Nat.testBit_two_pow]
  have : decide (2 = i) = false := by simpa using fun h => hi h.symm
  rw [this, Bool.or_false]

/-- C24: on a transfer status of NO_DEVICE or ERROR, `exword_handle_interrupt` sets the
UNPLUGGED bit (0x04) when no reason bit was set (`status & 0x07` is 0) and leaves
the status as it is otherwise; every other bit of the status is unchanged.  On
TIMED_OUT or COMPLETED the status is unchanged. -/
theorem handle_interrupt_latches_unplugged (self : exword_t) (st : libusb_transfer_status) :
    (st = libusb_transfer_status.NO_DEVICE ∨ st = libusb_transfer_status.ERROR →
      (self.status &&& 0x07 = 0 →
        (exword_handle_interrupt self st).status
          = self.status ||| EXWORD_DISCONNECT_UNPLUGGED) ∧
      (self.status &&& 0x07 ≠ 0 → (exword_handle_interrupt self st).status = self.status) ∧
      (∀ i, i ≠ 2 →
        (exword_handle_interrupt self st).status.testBit i = self.status.testBit i)) ∧
    (st = libusb_transfer_status.TIMED_OUT ∨ st = libusb_transfer_status.COMPLETED →
      (exword_handle_interrupt self st).status = self.status) := by
  constructor
  · intro h
    have hval : (exword_handle_interrupt self st).status
        = if self.status &&& 0x07 = 0 then self.status ||| EXWORD_DISCONNECT_UNPLUGGED
          else self.status := by
      rcases h with h | h <;> subst h <;> unfold exword_handle_interrupt <;>
        split_ifs <;> rfl
    refine ⟨fun h0 => by rw [hval, if_pos h0], fun h0 => by rw [hval, if_neg h0], ?_⟩
    intro i hi
    rw [hval]
    split_ifs
    · exact testBit_or_four self.status i hi
    · rfl
  · intro h
    rcases h with h | h <;> subst h <;> rfl

/-- C24 witness: a connected handle without a reason gets the UNPLUGGED bit on
NO_DEVICE; a handle with the reason NORMAL keeps its status. -/
theorem handle_interrupt_latches_unplugged_witness :
    (exword_handle_interrupt connected_handle libusb_transfer_status.NO_DEVICE).status
      = connected_handle.status ||| EXWORD_DISCONNECT_UNPLUGGED ∧
    (exword_handle_interrupt { connected_handle with status := 0x81 }
        libusb_transfer_status.ERROR).status = 0x81 :=
  ⟨((handle_interrupt_latches_unplugged connected_handle libusb_transfer_status.NO_DEVICE).1
      (Or.inl rfl)).1 (by decide),
   ((handle_interrupt_latches_unplugged { connected_handle with status := 0x81 }
      libusb_transfer_status.ERROR).1 (Or.inr rfl)).2.1 (by decide)⟩

/-! ## LOCK at the end of the workflows -/

theorem find_device_not_aggregated (device : exword_t) (root id : List Char)
    (o_setpath : outcome) (o_admini : Nat → outcome) (heap : Nat → Nat) :
    ∀ s ∈ (_find_device device root id o_setpath o_admini heap).steps,
      is_aggregated s.1 = false := by
  intro s hs
  simp only [_find_device, List.mem_cons, List.mem_map] at hs
  rcases hs with hs | ⟨k, -, hs⟩
  · rw [hs]; rfl
  · rw [← hs]; rfl

theorem install_files_fst (env : install_env) (key : List Nat) (es : List dir_entry) :
    ∀ (i : Nat) (device : exword_t) (steps : List (command × Nat)),
      (install_files env key es i device steps).1 = (install_files env key es i device []).1 := by
  induction es with
  | nil => intro i device steps; rfl
  | cons e es ih =>
    intro i device steps
    unfold install_files
    split_ifs
    · exact ih _ _ _
    · simp only []
      cases (_upload_file device env.dir e.d_name key e.data (env.o_file i)).sent with
      | none => exact ih _ _ _
      | some body => simp only []; rw [ih _ _ (steps ++ _), ih _ _ ([] ++ _)]
    · exact ih _ _ _

theorem install_files_not_aggregated (env : install_env) (key : List Nat)
    (es : List dir_entry) :
    ∀ (i : Nat) (device : exword_t),
      ∀ s ∈ (install_files env key es i device []).2, is_aggregated s.1 = false := by
  induction es with
  | nil => intro i device s hs; simp [install_files] at hs
  | cons e es ih =>
    intro i device s hs
    unfold install_files at hs
    split_ifs at hs
    · exact ih _ _ s hs
    · simp only [] at hs
      cases hsent : (_upload_file device env.dir e.d_name key e.data (env.o_file i)).sent with
      | none =>
        simp only [hsent] at hs
        exact ih _ _ s hs
      | some body =>
        simp only [hsent] at hs
        rw [install_files_append] at hs
        simp only [List.nil_append, List.mem_append, List.mem_singleton] at hs
        rcases hs with hs | hs
        · rw [hs]; rfl
        · exact ih _ _ s hs
    · exact ih _ _ s hs

/-- The shape of a run of `content_install` that has passed the pre-checks. -/
theorem content_install_shape (device : exword_t) (mode : exword_mode)
    (root id : List Char) (env : install_env) (entries : List dir_entry) (name : List Char)
    (hnew : (_find_device device root id env.o_setpath_find env.o_admini env.heap).found.ret = 0)
    (hdir : env.entries = some entries) (hname : env.name = some name)
    (hpass : ¬ ((exword_get_capacity
        (_find_device device root id env.o_setpath_find env.o_admini env.heap).self
        env.o_cap).ret ≠ EXWORD_SUCCESS ∨
      to_u64 (_get_size (some entries)) ≥ env.cap_free ∨ _get_size (some entries) < 0)) :
    ∃ (r1 r2 r3 r7 : Nat) (mid : List (command × Nat)),
      (content_install device mode root id env).steps
        = (_find_device device root id env.o_setpath_find env.o_admini env.heap).steps ++
          [(command.get_capacity, EXWORD_SUCCESS), (command.unlock, r1),
           (command.cname name id, r2), (command.cryptkey, r3)] ++ mid ++
          [(command.lock, r7)] ∧
      (content_install device mode root id env).ret
        = (if r1 ||| r2 ||| r3 ||| r7 = EXWORD_SUCCESS then 1 else 0) ∧
      (∀ s ∈ mid, is_aggregated s.1 = false) := by
  have hcap : (exword_get_capacity
      (_find_device device root id env.o_setpath_find env.o_admini env.heap).self
      env.o_cap).ret = EXWORD_SUCCESS := by
    by_contra hc
    exact hpass (Or.inl hc)
  unfold content_install
  simp only [hnew, hdir, hname, ne_eq, not_true_eq_false, if_false]
  rw [if_neg hpass, hcap]
  generalize _find_device device root id env.o_setpath_find env.o_admini env.heap = f
  generalize exword_get_capacity f.self env.o_cap = c
  generalize exword_unlock c.self env.o_unlock = r1
  generalize exword_cname r1.self name id env.o_cname = r2
  generalize exword_cryptkey r2.self env.o_cryptkey = r3
  generalize cryptkey_output env.get_xor_key r2.self (cryptkey_input key1) env.o_cryptkey = ck3
  refine ⟨r1.ret, r2.ret, r3.ret, ?_⟩
  by_cases h3 : r1.ret ||| r2.ret ||| r3.ret = EXWORD_SUCCESS
  · simp only [h3, if_true]
    by_cases hcd : mode = exword_mode.CD
    · have hlib : ¬ mode = exword_mode.LIBRARY := by rw [hcd]; decide
      simp only [hcd, hlib, if_true, if_false]
      generalize exword_setpath r3.self (mkpath ['\\'] root [id]) true env.o_setpath = r4
      rw [install_files_append]
      refine ⟨_, [(command.setpath (mkpath ['\\'] root [id]) true, r4.ret)] ++
        (install_files env ck3.xorkey entries 0 r4.self []).2, by simp, rfl, ?_⟩
      intro s hs
      simp only [List.mem_append, List.mem_singleton] at hs
      rcases hs with hs | hs
      · rw [hs]; rfl
      · exact install_files_not_aggregated _ _ _ _ _ s hs
    · simp only [hcd, if_false]
      generalize exword_setpath r3.self (mkpath ['\\'] root [id, "_CONTENT".toList]) true
        env.o_setpath = r4
      rw [install_files_append]
      by_cases hlib : mode = exword_mode.LIBRARY
      · simp only [hlib, if_true]
        rw [install_files_fst]
        have hrest := install_files_not_aggregated env ck3.xorkey entries 0 r4.self
        generalize install_files env ck3.xorkey entries 0 r4.self [] = up at hrest ⊢
        generalize exword_setpath up.1 (mkpath ['\\'] root [id, "_USER".toList]) true
          env.o_setpath_user = r6
        generalize exword_lock r6.self env.o_lock = r7
        refine ⟨r7.ret,
          [(command.setpath (mkpath ['\\'] root [id, "_CONTENT".toList]) true, r4.ret)] ++ up.2 ++
            [(command.setpath (mkpath ['\\'] root [id, "_USER".toList]) true, r6.ret)],
          by simp, rfl, ?_⟩
        intro s hs
        simp only [List.mem_append, List.mem_singleton] at hs
        rcases hs with (hs | hs) | hs
        · rw [hs]; rfl
        · exact hrest s hs
        · rw [hs]; rfl
      · simp only [hlib, if_false]
        refine ⟨_, [(command.setpath (mkpath ['\\'] root [id, "_CONTENT".toList]) true, r4.ret)] ++
          (install_files env ck3.xorkey entries 0 r4.self []).2, by simp, rfl, ?_⟩
        intro s hs
        simp only [List.mem_append, List.mem_singleton] at hs
        rcases hs with hs | hs
        · rw [hs]; rfl
        · exact install_files_not_aggregated _ _ _ _ _ s hs
  · simp only [h3, if_false]
    exact ⟨_, [], by simp, rfl, by simp⟩

theorem content_install_cases (device : exword_t) (mode : exword_mode)
    (root id : List Char) (env : install_env) :
    ((content_install device mode root id env).ret = 0 ∧
      ∀ s ∈ (content_install device mode root id env).steps, is_aggregated s.1 = false) ∨
    (∃ entries name,
      (_find_device device root id env.o_setpath_find env.o_admini env.heap).found.ret = 0 ∧
      env.entries = some entries ∧ env.name = some name ∧
      ¬ ((exword_get_capacity (_find_device device root id env.o_setpath_find env.o_admini env.heap).self env.o_cap).ret ≠ EXWORD_SUCCESS ∨
        to_u64 (_get_size (some entries)) ≥ env.cap_free ∨ _get_size (some entries) < 0)) := by
  have hf := find_device_not_aggregated device root id env.o_setpath_find env.o_admini env.heap
  by_cases hnew : (_find_device device root id env.o_setpath_find env.o_admini env.heap).found.ret = 0
  · cases hdir : env.entries with
    | none =>
      left
      unfold content_install
      simp only [hnew, hdir, ne_eq, not_true_eq_false, if_false]
      exact ⟨trivial, hf⟩
    | some entries =>
      by_cases habort : (exword_get_capacity (_find_device device root id env.o_setpath_find env.o_admini env.heap).self env.o_cap).ret ≠ EXWORD_SUCCESS ∨
          to_u64 (_get_size (some entries)) ≥ env.cap_free ∨ _get_size (some entries) < 0
      · left
        obtain ⟨h1, h2⟩ := content_install_at_check device mode root id env entries hnew hdir
          habort
        refine ⟨h1, ?_⟩
        rw [h2]
        intro s hs
        simp only [List.mem_append, List.mem_singleton] at hs
        rcases hs with hs | hs
        · exact hf s hs
        · rw [hs]; rfl
      · cases hname : env.name with
        | none =>
          left
          unfold content_install
          simp only [hnew, hdir, hname, ne_eq, not_true_eq_false, if_false]
          rw [if_neg habort]
          refine ⟨rfl, ?_⟩
          intro s hs
          simp only [List.mem_append, List.mem_singleton] at hs
          rcases hs with hs | hs
          · exact hf s hs
          · rw [hs]; rfl
        | some name => exact Or.inr ⟨entries, name, hnew, rfl, rfl, habort⟩
  · left
    unfold content_install
    simp only [hnew, ne_eq, not_false_eq_true, if_true]
    exact ⟨trivial, hf⟩

theorem content_remove_lock_last (device : exword_t) (root id : List Char) (env : remove_env)
    (h : command.unlock ∈ commands_of (content_remove device root id env).steps) :
    ∃ pre r, (content_remove device root id env).steps = pre ++ [(command.lock, r)] ∧
      command.unlock ∈ commands_of pre := by
  have hf := find_device_not_aggregated device root id env.o_setpath env.o_admini env.heap
  unfold content_remove at h ⊢
  by_cases hfound : (_find_device device root id env.o_setpath env.o_admini env.heap).found.ret = 0
  · exfalso
    simp only [hfound, if_true, commands_of, List.mem_map] at h
    obtain ⟨s, hs, hc⟩ := h
    have := hf s hs
    rw [hc] at this
    exact absurd this (by decide)
  · simp only [hfound, if_false]
    generalize _find_device device root id env.o_setpath env.o_admini env.heap = f
    generalize exword_unlock f.self env.o_unlock = r1
    generalize exword_cname r1.self (admini_name (f.found.ini.getD [])) id env.o_cname = r2
    generalize exword_cryptkey r2.self env.o_cryptkey = r3
    by_cases h3 : r1.ret ||| r2.ret ||| r3.ret = EXWORD_SUCCESS
    · simp only [h3, if_true]
      generalize exword_remove_file r3.self id false env.o_remove = r4
      generalize exword_lock r4.self env.o_lock = r5
      exact ⟨f.steps ++ [(command.unlock, r1.ret),
        (command.cname (admini_name (f.found.ini.getD [])) id, r2.ret),
        (command.cryptkey, r3.ret)] ++ [(command.remove_file id false, r4.ret)], r5.ret,
        by simp, by simp [commands_of]⟩
    · simp only [h3, if_false]
      exact ⟨_, _, rfl, by simp [commands_of]⟩

/-- C25: in `content_install` and in `content_remove`, whenever UNLOCK is among the
commands issued, the last command issued is LOCK and UNLOCK lies in front of it,
whatever the commands in between return. -/
theorem lock_is_last_after_unlock (device : exword_t) (mode : exword_mode)
    (root id : List Char) (env_i : install_env) (env_r : remove_env) :
    (command.unlock ∈ commands_of (content_install device mode root id env_i).steps →
      ∃ pre r, (content_install device mode root id env_i).steps = pre ++ [(command.lock, r)] ∧
        command.unlock ∈ commands_of pre) ∧
    (command.unlock ∈ commands_of (content_remove device root id env_r).steps →
      ∃ pre r, (content_remove device root id env_r).steps = pre ++ [(command.lock, r)] ∧
        command.unlock ∈ commands_of pre) := by
  refine ⟨?_, content_remove_lock_last device root id env_r⟩
  intro h
  rcases content_install_cases device mode root id env_i with ⟨-, hno⟩ |
    ⟨entries, name, hnew, hdir, hname, hpass⟩
  · exfalso
    simp only [commands_of, List.mem_map] at h
    obtain ⟨s, hs, hc⟩ := h
    have := hno s hs
    rw [hc] at this
    exact absurd this (by decide)
  · obtain ⟨r1, r2, r3, r7, mid, hsteps, -, -⟩ :=
      content_install_shape device mode root id env_i entries name hnew hdir hname hpass
    exact ⟨_, r7, hsteps, by simp [commands_of]⟩

set_option maxRecDepth 100000 in
/-- C25 witness: an install of `diction.htm` and one more file with every command
answered with success,
and the removal of the id `AB` with UNLOCK answered with FORBIDDEN. -/
theorem lock_is_last_after_unlock_witness :
    (∃ pre r, (content_install connected_handle exword_mode.LIBRARY "\\_INTERNAL_00".toList "AB".toList
        (install_env_example small_directory 25)).steps
        = pre ++ [(command.lock, r)] ∧ command.unlock ∈ commands_of pre) ∧
    (∃ pre r, (content_remove connected_handle "\\_INTERNAL_00".toList "AB".toList
        (remove_env_example 0x43)).steps
        = pre ++ [(command.lock, r)] ∧ command.unlock ∈ commands_of pre) :=
  ⟨(lock_is_last_after_unlock connected_handle exword_mode.LIBRARY "\\_INTERNAL_00".toList "AB".toList
      (install_env_example small_directory 25)
      (remove_env_example 0x43)).1 (by decide),
   (lock_is_last_after_unlock connected_handle exword_mode.LIBRARY "\\_INTERNAL_00".toList "AB".toList
      (install_env_example small_directory 25)
      (remove_env_example 0x43)).2 (by decide)⟩

/-! ## The return value of `content_install` -/

theorem obex_to_exword_error_congr (a b : exword_t) (rsp : Int) (d : Bool)
    (h : a.status = b.status) :
    (obex_to_exword_error a rsp d).ret = (obex_to_exword_error b rsp d).ret ∧
    (obex_to_exword_error a rsp d).self.status = (obex_to_exword_error b rsp d).self.status := by
  unfold obex_to_exword_error
  split_ifs <;> simp_all [log]

theorem run_command_congr (a b : exword_t) (c : command) (o : outcome)
    (h : a.status = b.status) :
    (run_command a c o).ret = (run_command b c o).ret ∧
    (run_command a c o).self.status = (run_command b c o).self.status := by
  have hl : ∀ e, (log a e).status = (log b e).status := fun e => h
  cases c <;>
    simp only [run_command, exword_send_file, exword_get_file, exword_remove_file,
      exword_sd_format, exword_setpath, exword_get_model, exword_get_capacity, exword_list,
      exword_userid, exword_cryptkey, exword_cname, exword_unlock, exword_lock,
      exword_authchallenge, exword_authinfo, exword_is_connected, h] <;>
    split_ifs <;>
    first
    | exact ⟨rfl, h⟩
    | exact obex_to_exword_error_congr _ _ _ _ (hl _)

theorem send_file_status (device : exword_t) (name : List Char) (body : List Nat)
    (o : outcome) (h : o.rsp ≠ OBEX_RSP_INTERNAL_SERVER_ERROR) :
    (exword_send_file device name body o).self.status = device.status := by
  unfold exword_send_file
  split_ifs
  · rfl
  · rfl
  · rfl
  · rfl
  · rw [(obex_to_exword_error_of_ne _ _ _ h).1]
    rfl

theorem upload_file_status (device : exword_t) (dir name : List Char) (key : List Nat)
    (file : Option (List Nat)) (o : outcome) (h : o.rsp ≠ OBEX_RSP_INTERNAL_SERVER_ERROR) :
    (_upload_file device dir name key file o).self.status = device.status := by
  unfold _upload_file
  cases file with
  | none => rfl
  | some buffer => exact send_file_status device name _ o h

theorem install_files_status (env : install_env) (key : List Nat) (es : List dir_entry)
    (h : ∀ i, (env.o_file i).rsp ≠ OBEX_RSP_INTERNAL_SERVER_ERROR) :
    ∀ (i : Nat) (device : exword_t) (steps : List (command × Nat)),
      (install_files env key es i device steps).1.status = device.status := by
  induction es with
  | nil => intro i device steps; rfl
  | cons e es ih =>
    intro i device steps
    have hu := upload_file_status device env.dir e.d_name key e.data (env.o_file i) (h i)
    unfold install_files
    split_ifs
    · exact ih _ _ _
    · simp only []
      cases (_upload_file device env.dir e.d_name key e.data (env.o_file i)).sent with
      | none => exact (ih _ _ _).trans hu
      | some body => exact (ih _ _ _).trans hu
    · exact ih _ _ _

theorem content_install_same_result_of (device : exword_t) (mode : exword_mode)
    (root id : List Char) (env1 env : install_env)
    (e1 : env1.o_setpath_find = env.o_setpath_find) (e2 : env1.o_admini = env.o_admini)
    (e3 : env1.heap = env.heap) (e4 : env1.entries = env.entries)
    (e5 : env1.o_cap = env.o_cap) (e6 : env1.cap_free = env.cap_free)
    (e7 : env1.name = env.name) (e8 : env1.o_unlock = env.o_unlock)
    (e9 : env1.o_cname = env.o_cname) (e10 : env1.o_cryptkey = env.o_cryptkey)
    (e11 : env1.o_setpath = env.o_setpath) (e12 : env1.o_setpath_user = env.o_setpath_user)
    (e13 : env1.o_lock = env.o_lock) (e14 : env1.get_xor_key = env.get_xor_key)
    (henv : ∀ i, (env.o_file i).rsp ≠ OBEX_RSP_INTERNAL_SERVER_ERROR)
    (hg : ∀ i, (env1.o_file i).rsp ≠ OBEX_RSP_INTERNAL_SERVER_ERROR) :
    (content_install device mode root id env1).ret
      = (content_install device mode root id env).ret := by
  unfold content_install
  simp only [e1, e2, e3, e4, e5, e6, e7, e8, e9, e10, e11, e12, e13, e14]
  cases he : env.entries with
  | none => simp only []
  | some entries =>
    cases hn : env.name with
    | none => simp only []
    | some name =>
      simp only []
      generalize _find_device device root id env.o_setpath_find env.o_admini env.heap = f
      generalize exword_get_capacity f.self env.o_cap = c
      generalize exword_unlock c.self env.o_unlock = r1
      generalize exword_cname r1.self name id env.o_cname = r2
      generalize exword_cryptkey r2.self env.o_cryptkey = r3
      generalize cryptkey_output env.get_xor_key r2.self (cryptkey_input key1) env.o_cryptkey
        = ck3
      by_cases hf : f.found.ret ≠ 0
      · rw [if_pos hf, if_pos hf]
      · rw [if_neg hf, if_neg hf]
        by_cases hc : c.ret ≠ EXWORD_SUCCESS ∨
            to_u64 (_get_size (some entries)) ≥ env.cap_free ∨ _get_size (some entries) < 0
        · rw [if_pos hc, if_pos hc]
        · rw [if_neg hc, if_neg hc]
          by_cases h3 : r1.ret ||| r2.ret ||| r3.ret = EXWORD_SUCCESS
          · rw [if_pos h3, if_pos h3]
            have key_status : ∀ (e : install_env) (dev : exword_t) (st : List (command × Nat)),
                (∀ i, (e.o_file i).rsp ≠ OBEX_RSP_INTERNAL_SERVER_ERROR) →
                (install_files e ck3.xorkey entries 0 dev st).1.status = dev.status :=
              fun e dev st h => install_files_status e ck3.xorkey entries h 0 dev st
            have hl : ∀ a b : exword_t, a.status = b.status →
                (exword_lock a env.o_lock).ret = (exword_lock b env.o_lock).ret :=
              fun a b h => (run_command_congr a b command.lock env.o_lock h).1
            have hs : ∀ (a b : exword_t) (p : List Char), a.status = b.status →
                (exword_setpath a p true env.o_setpath_user).self.status
                  = (exword_setpath b p true env.o_setpath_user).self.status :=
              fun a b p h => (run_command_congr a b (command.setpath p true) env.o_setpath_user h).2
            by_cases hlib : mode = exword_mode.LIBRARY
            · rw [if_pos hlib, if_pos hlib]
              simp only []
              rw [hl _ _ (hs _ _ _ ((key_status env1 _ _ hg).trans
                (key_status env _ _ henv).symm))]
            · rw [if_neg hlib, if_neg hlib]
              simp only []
              rw [hl _ _ ((key_status env1 _ _ hg).trans (key_status env _ _ henv).symm)]
          · rw [if_neg h3, if_neg h3]

theorem content_install_same_result (device : exword_t) (mode : exword_mode)
    (root id : List Char) (env : install_env) (g : Nat → outcome)
    (henv : ∀ i, (env.o_file i).rsp ≠ OBEX_RSP_INTERNAL_SERVER_ERROR)
    (hg : ∀ i, (g i).rsp ≠ OBEX_RSP_INTERNAL_SERVER_ERROR) :
    (content_install device mode root id { env with o_file := g }).ret
      = (content_install device mode root id env).ret :=
  content_install_same_result_of device mode root id { env with o_file := g } env
    rfl rfl rfl rfl rfl rfl rfl rfl rfl rfl rfl rfl rfl rfl henv hg

set_option maxRecDepth 100000 in
/-- C26 (as stated, refuted): two runs of `content_install` over the directory with
`diction.htm` and one more file that pass the pre-checks and differ only in the
answers to the uploads: with the uploads answered with success the run returns 1,
with the uploads answered with INTERNAL SERVER ERROR it returns 0. -/
theorem content_install_upload_changes_result :
    (content_install connected_handle exword_mode.LIBRARY "\\_INTERNAL_00".toList "AB".toList
      (install_env_example small_directory 25)).ret = 1 ∧
    (content_install connected_handle exword_mode.LIBRARY "\\_INTERNAL_00".toList "AB".toList
      { (install_env_example small_directory 25) with
        o_file := fun _ => answer OBEX_RSP_INTERNAL_SERVER_ERROR }).ret = 0 ∧
    command.unlock ∈ commands_of
      (content_install connected_handle exword_mode.LIBRARY "\\_INTERNAL_00".toList "AB".toList
        { (install_env_example small_directory 25) with
          o_file := fun _ => answer OBEX_RSP_INTERNAL_SERVER_ERROR }).steps := by
  decide

/-- C26 (amended): once `content_install` has passed its pre-checks, the commands whose
results it aggregates are UNLOCK, CNAME, CRYPTKEY and LOCK, and it returns success
if and only if all four returned EXWORD_SUCCESS; the results of the SETPATH calls
and of the uploads are not part of the aggregate.  Two runs that differ only in the
answers to the uploads return the same value when no upload is answered with
INTERNAL SERVER ERROR. -/
theorem content_install_success_iff (device : exword_t) (mode : exword_mode)
    (root id : List Char) (env : install_env) (entries : List dir_entry) (name : List Char)
    (hnew : (_find_device device root id env.o_setpath_find env.o_admini env.heap).found.ret = 0)
    (hdir : env.entries = some entries) (hname : env.name = some name)
    (hpass : ¬ ((exword_get_capacity (_find_device device root id env.o_setpath_find env.o_admini env.heap).self env.o_cap).ret ≠ EXWORD_SUCCESS ∨
      to_u64 (_get_size (some entries)) ≥ env.cap_free ∨ _get_size (some entries) < 0)) :
    commands_of ((content_install device mode root id env).steps.filter
        (fun s => is_aggregated s.1))
      = [command.unlock, command.cname name id, command.cryptkey, command.lock] ∧
    ((content_install device mode root id env).ret = 1 ↔
      ∀ s ∈ (content_install device mode root id env).steps,
        is_aggregated s.1 = true → s.2 = EXWORD_SUCCESS) ∧
    (∀ g : Nat → outcome,
      (∀ i, (env.o_file i).rsp ≠ OBEX_RSP_INTERNAL_SERVER_ERROR) →
      (∀ i, (g i).rsp ≠ OBEX_RSP_INTERNAL_SERVER_ERROR) →
      (content_install device mode root id { env with o_file := g }).ret
        = (content_install device mode root id env).ret) := by
  obtain ⟨r1, r2, r3, r7, mid, hsteps, hret, hmid⟩ :=
    content_install_shape device mode root id env entries name hnew hdir hname hpass
  have hf := find_device_not_aggregated device root id env.o_setpath_find env.o_admini env.heap
  have hf0 : List.filter (fun s => is_aggregated s.1) (_find_device device root id env.o_setpath_find env.o_admini env.heap).steps = [] := by
    rw [List.filter_eq_nil_iff]
    intro s hs
    simp [hf s hs]
  have hm0 : List.filter (fun s => is_aggregated s.1) mid = [] := by
    rw [List.filter_eq_nil_iff]
    intro s hs
    simp [hmid s hs]
  refine ⟨?_, ?_, fun g h1 h2 => content_install_same_result device mode root id env g h1 h2⟩
  · rw [hsteps]
    simp only [List.filter_append, hf0, hm0, List.nil_append, List.append_nil]
    rfl
  · rw [hret, hsteps]
    constructor
    · intro h
      have h0 : r1 ||| r2 ||| r3 ||| r7 = EXWORD_SUCCESS := by
        by_contra hne
        rw [if_neg hne] at h
        exact absurd h (by decide)
      simp only [or_eq_success_iff] at h0
      obtain ⟨⟨⟨h1, h2⟩, h3⟩, h7⟩ := h0
      intro s hs hagg
      simp only [List.mem_append, List.mem_cons, List.mem_singleton, List.not_mem_nil,
        or_false] at hs
      rcases hs with ((hs | hs | hs | hs | hs) | hs) | hs
      · rw [hf s hs] at hagg
        exact absurd hagg (by decide)
      · rw [hs] at hagg
        exact absurd hagg (by decide)
      · rw [hs]; exact h1
      · rw [hs]; exact h2
      · rw [hs]; exact h3
      · rw [hmid s hs] at hagg
        exact absurd hagg (by decide)
      · rw [hs]; exact h7
    · intro h
      have h1 : r1 = EXWORD_SUCCESS := h (command.unlock, r1) (by simp) rfl
      have h2 : r2 = EXWORD_SUCCESS := h (command.cname name id, r2) (by simp) rfl
      have h3 : r3 = EXWORD_SUCCESS := h (command.cryptkey, r3) (by simp) rfl
      have h7 : r7 = EXWORD_SUCCESS := h (command.lock, r7) (by simp) rfl
      rw [h1, h2, h3, h7]
      rfl

set_option maxRecDepth 100000 in
/-- C26 witness: an install of `diction.htm` and one more file with every command
answered with success:
all four aggregated commands returned success and the run returns 1. -/
theorem content_install_success_iff_witness :
    ((content_install connected_handle exword_mode.LIBRARY "\\_INTERNAL_00".toList "AB".toList
        (install_env_example small_directory 25)).ret = 1 ↔
      ∀ s ∈ (content_install connected_handle exword_mode.LIBRARY "\\_INTERNAL_00".toList "AB".toList
        (install_env_example small_directory 25)).steps,
        is_aggregated s.1 = true → s.2 = EXWORD_SUCCESS) :=
  (content_install_success_iff connected_handle exword_mode.LIBRARY "\\_INTERNAL_00".toList "AB".toList
    (install_env_example small_directory 25)
    small_directory "Dict".toList (by decide) rfl rfl
    (by decide)).2.1

/-! ## Termination and bounds of the record scan -/

theorem user_scan_unsigned_ends (name buffer : List Nat) (mem : Int → Nat) :
    ∀ (fuel : Nat) (i : Int), 0 ≤ i → ((buffer.length : Int) - i).toNat < fuel →
      user_scan false name buffer mem fuel i ≠ scan_result.running := by
  intro fuel
  induction fuel with
  | zero => intro i _ h; exact absurd h (Nat.not_lt_zero _)
  | succ n ih =>
    intro i h0 hlt
    unfold user_scan
    split_ifs with h1 h2
    · exact fun h => by cases h
    · have hc : 0 ≤ char_value false (peek_at buffer mem i) := by
        simp [char_value]
      apply ih
      · omega
      · omega
    · exact fun h => by cases h

set_option maxRecDepth 100000 in
theorem user_scan_signed_loops (mem : Int → Nat) :
    ∀ fuel : Nat, user_scan true name_bob store_name_234 mem fuel 0 = scan_result.running := by
  intro fuel
  induction fuel with
  | zero => rfl
  | succ n ih =>
    have h1 : (0 : Int) < (store_name_234.length : Int) := by decide
    have h2 : strcmp_at store_name_234 mem name_bob (0 + 1) = false := rfl
    have h3 : (0 : Int) + (21 + char_value true (peek_at store_name_234 mem 0)) = 0 := rfl
    rw [user_scan, if_pos h1, h2, h3]
    exact ih

set_option maxRecDepth 100000 in
/-- C27 (the code at the failing input): `_save_user_key` on an empty store writes,
for a name of 234 characters, a record with the length byte 235.  Where `char` is
signed that byte reads as -21: the scan for another name steps from index 0 to
index 0, so it has not ended after any number of iterations, and neither
`_load_user_key` nor `_save_user_key` returns.  And for the two-byte file 6, `a`
the comparison with the name `a` reads the byte behind the file, signed or not:
the scan finds the name when that byte is 0 and misses it when it is 1. -/
theorem scan_loops_and_reads_outside (mem : Int → Nat) (fuel : Nat) :
    _save_user_key true true (read_file_result.ok []) mem (List.replicate 234 97)
      key_0x01_0x14 0 1 = some ⟨1, some store_name_234⟩ ∧
    store_name_234.head? = some 235 ∧
    (0 : Int) + (21 + char_value true (peek_at store_name_234 mem 0)) = 0 ∧
    user_scan true name_bob store_name_234 mem fuel 0 = scan_result.running ∧
    _load_user_key true true (read_file_result.ok store_name_234) mem name_bob fuel = none ∧
    _save_user_key true true (read_file_result.ok store_name_234) mem name_bob key_0x55 0 fuel
      = none ∧
    (∀ char_signed : Bool,
      user_scan char_signed [97] [6, 97] (fun _ => 0) 2 0 = scan_result.found 0 ∧
      user_scan char_signed [97] [6, 97] (fun _ => 1) 2 0 = scan_result.absent) := by
  have hloop := user_scan_signed_loops mem fuel
  refine ⟨rfl, rfl, rfl, hloop, ?_, ?_, by decide⟩
  · simp only [_load_user_key, Bool.not_true, Bool.false_eq_true, if_false, hloop]
  · simp only [_save_user_key, Bool.not_true, Bool.false_eq_true, if_false, hloop]

/-! ## Byte order: `ntohll`, `exword_get_capacity` -/

theorem store_load_2 (big_endian : Bool) (a b : Nat) (ha : a < 256) (hb : b < 256) :
    store_uint big_endian 2 (load_uint big_endian [a, b]) = [a, b] := by
  cases big_endian <;>
    simp [store_uint, load_uint, be_value, List.range_succ] <;> omega

theorem store_load_4 (big_endian : Bool) (a b c d : Nat) (ha : a < 256) (hb : b < 256)
    (hc : c < 256) (hd : d < 256) :
    store_uint big_endian 4 (load_uint big_endian [a, b, c, d]) = [a, b, c, d] := by
  cases big_endian <;>
    simp [store_uint, load_uint, be_value, List.range_succ] <;> omega

theorem store_load_8 (big_endian : Bool) (b0 b1 b2 b3 b4 b5 b6 b7 : Nat) (h0 : b0 < 256)
    (h1 : b1 < 256) (h2 : b2 < 256) (h3 : b3 < 256) (h4 : b4 < 256) (h5 : b5 < 256)
    (h6 : b6 < 256) (h7 : b7 < 256) :
    store_uint big_endian 8 (load_uint big_endian [b0, b1, b2, b3, b4, b5, b6, b7])
      = [b0, b1, b2, b3, b4, b5, b6, b7] := by
  cases big_endian <;>
    simp [store_uint, load_uint, be_value, List.range_succ] <;> omega

theorem int8_round_trip (b : Nat) (h : b < 256) : to_uint8 (to_int8 b) = b := by
  unfold to_uint8 to_int8
  rw [Nat.mod_eq_of_lt h]
  split_ifs <;> omega

theorem ntohll_bytes (big_endian : Bool) (b0 b1 b2 b3 b4 b5 b6 b7 : Nat) (h0 : b0 < 256)
    (h1 : b1 < 256) (h2 : b2 < 256) (h3 : b3 < 256) (h4 : b4 < 256) (h5 : b5 < 256)
    (h6 : b6 < 256) (h7 : b7 < 256) :
    ntohll big_endian (load_uint big_endian [b0, b1, b2, b3, b4, b5, b6, b7])
      = be_value [b0, b1, b2, b3, b4, b5, b6, b7] := by
  have hs := store_load_8 big_endian b0 b1 b2 b3 b4 b5 b6 b7 h0 h1 h2 h3 h4 h5 h6 h7
  cases big_endian
  · have hc : ¬ (store_uint false 8 0x01).getD 7 0 = 0x01 := by decide
    unfold ntohll
    rw [if_neg hc]
    simp only [hs]
    simp only [swap_bytes, List.getD_cons_zero, List.getD_cons_succ, List.set_cons_zero,
      List.set_cons_succ, int8_round_trip _ h0, int8_round_trip _ h1, int8_round_trip _ h2,
      int8_round_trip _ h3]
    simp [load_uint]
  · have hc : (store_uint true 8 0x01).getD 7 0 = 0x01 := by decide
    unfold ntohll
    rw [if_pos hc]
    rfl

theorem ntohl_bytes (big_endian : Bool) (a b c d : Nat) (ha : a < 256) (hb : b < 256)
    (hc : c < 256) (hd : d < 256) :
    ntohl big_endian (load_uint big_endian [a, b, c, d]) = be_value [a, b, c, d] := by
  unfold ntohl
  rw [store_load_4 big_endian a b c d ha hb hc hd]

theorem ntohs_bytes (big_endian : Bool) (a b : Nat) (ha : a < 256) (hb : b < 256) :
    ntohs big_endian (load_uint big_endian [a, b]) = be_value [a, b] := by
  unfold ntohs
  rw [store_load_2 big_endian a b ha hb]

theorem ntohll_list (big_endian : Bool) (bs : List Nat) (hl : bs.length = 8)
    (hb : ∀ b ∈ bs, b < 256) :
    ntohll big_endian (load_uint big_endian bs) = be_value bs := by
  have hget : ∀ i, i < 8 → bs.getD i 0 < 256 := by
    intro i hi
    rw [List.getD_eq_getElem _ _ (by omega)]
    exact hb _ (List.getElem_mem _)
  have e : bs = [bs.getD 0 0, bs.getD 1 0, bs.getD 2 0, bs.getD 3 0, bs.getD 4 0, bs.getD 5 0, bs.getD 6 0, bs.getD 7 0] := by
    apply List.ext_getElem
    · simp [hl]
    · intro n h1 h2
      rw [hl] at h1
      rw [← List.getD_eq_getElem bs 0 (by omega)]
      interval_cases n <;> rfl
  rw [e]
  exact ntohll_bytes big_endian (bs.getD 0 0) (bs.getD 1 0) (bs.getD 2 0) (bs.getD 3 0) (bs.getD 4 0) (bs.getD 5 0) (bs.getD 6 0) (bs.getD 7 0) (hget 0 (by omega)) (hget 1 (by omega)) (hget 2 (by omega)) (hget 3 (by omega)) (hget 4 (by omega)) (hget 5 (by omega)) (hget 6 (by omega)) (hget 7 (by omega))

theorem ntohl_list (big_endian : Bool) (bs : List Nat) (hl : bs.length = 4)
    (hb : ∀ b ∈ bs, b < 256) :
    ntohl big_endian (load_uint big_endian bs) = be_value bs := by
  have hget : ∀ i, i < 4 → bs.getD i 0 < 256 := by
    intro i hi
    rw [List.getD_eq_getElem _ _ (by omega)]
    exact hb _ (List.getElem_mem _)
  have e : bs = [bs.getD 0 0, bs.getD 1 0, bs.getD 2 0, bs.getD 3 0] := by
    apply List.ext_getElem
    · simp [hl]
    · intro n h1 h2
      rw [hl] at h1
      rw [← List.getD_eq_getElem bs 0 (by omega)]
      interval_cases n <;> rfl
  rw [e]
  exact ntohl_bytes big_endian (bs.getD 0 0) (bs.getD 1 0) (bs.getD 2 0) (bs.getD 3 0) (hget 0 (by omega)) (hget 1 (by omega)) (hget 2 (by omega)) (hget 3 (by omega))

theorem ntohs_list (big_endian : Bool) (bs : List Nat) (hl : bs.length = 2)
    (hb : ∀ b ∈ bs, b < 256) :
    ntohs big_endian (load_uint big_endian bs) = be_value bs := by
  have hget : ∀ i, i < 2 → bs.getD i 0 < 256 := by
    intro i hi
    rw [List.getD_eq_getElem _ _ (by omega)]
    exact hb _ (List.getElem_mem _)
  have e : bs = [bs.getD 0 0, bs.getD 1 0] := by
    apply List.ext_getElem
    · simp [hl]
    · intro n h1 h2
      rw [hl] at h1
      rw [← List.getD_eq_getElem bs 0 (by omega)]
      interval_cases n <;> rfl
  rw [e]
  exact ntohs_bytes big_endian (bs.getD 0 0) (bs.getD 1 0) (hget 0 (by omega)) (hget 1 (by omega))

theorem window_inside (body : List Nat) (heap : Nat → Nat) (p n : Nat)
    (h : p + n ≤ body.length) :
    window body heap p n = (body.drop p).take n := by
  have hb : body = body.take p ++ (body.drop p).take n ++ (body.drop p).drop n := by
    rw [List.append_assoc, List.take_append_drop, List.take_append_drop]
  have hp : (body.take p).length = p := by
    rw [List.length_take]; omega
  have := window_token (body.take p) ((body.drop p).take n) ((body.drop p).drop n) heap n
    (by rw [List.length_take, List.length_drop]; omega)
  rw [hp, ← hb] at this
  rw [this, List.take_take, Nat.min_self]

/-- C21: for a successful `_Cap` response whose body holds bytes, `exword_get_capacity`
sets, for a body of 24 bytes, `total` to the big-endian u64 at offset 8 and
`free` to the big-endian u64 at offset 16, and, for a body of 8 bytes, `total` to
the big-endian u32 at offset 0 and `free` to the big-endian u32 at offset 4, on
big-endian and little-endian hosts alike; `ntohll` applied to the number read
from eight bytes returns their big-endian interpretation on both. -/
theorem get_capacity_big_endian (big_endian : Bool) (self : exword_t)
    (cap : exword_capacity_t) (o : outcome) (heap : Nat → Nat)
    (hstatus : self.status &&& 0x06 = 0) (hconn : exword_is_connected self = true)
    (hobj : o.obj_ok = true)
    (hrsp : o.rsp = OBEX_RSP_SUCCESS ∨ o.rsp = OBEX_RSP_SUCCESS + 0x80)
    (hbytes : ∀ b ∈ o.hdr_body, b < 256) :
    (o.hdr_body.length = 24 →
      (exword_get_capacity_data big_endian self cap o heap).total = be_value ((o.hdr_body.drop 8).take 8) ∧
      (exword_get_capacity_data big_endian self cap o heap).free = be_value ((o.hdr_body.drop 16).take 8)) ∧
    (o.hdr_body.length = 8 →
      (exword_get_capacity_data big_endian self cap o heap).total = be_value (o.hdr_body.take 4) ∧
      (exword_get_capacity_data big_endian self cap o heap).free = be_value ((o.hdr_body.drop 4).take 4)) ∧
    (∀ bs : List Nat, bs.length = 8 → (∀ b ∈ bs, b < 256) →
      ntohll big_endian (load_uint big_endian bs) = be_value bs) := by
  have hsub : ∀ p n, ∀ b ∈ (o.hdr_body.drop p).take n, b < 256 :=
    fun p n b hb => hbytes b (List.mem_of_mem_drop (List.mem_of_mem_take hb))
  refine ⟨?_, ?_, fun bs hl hb => ntohll_list big_endian bs hl hb⟩
  · intro h24
    unfold exword_get_capacity_data
    rw [if_neg (by simp [hstatus]), if_neg (by simp [hconn]), if_neg (by simp [hobj]),
      if_pos hrsp, if_pos h24]
    rw [window_inside _ _ 8 8 (by omega), window_inside _ _ 16 8 (by omega)]
    exact ⟨ntohll_list _ _ (by simp [h24]) (hsub 8 8),
      ntohll_list _ _ (by simp [h24]) (hsub 16 8)⟩
  · intro h8
    unfold exword_get_capacity_data
    rw [if_neg (by simp [hstatus]), if_neg (by simp [hconn]), if_neg (by simp [hobj]),
      if_pos hrsp, if_neg (by omega)]
    rw [window_inside _ _ 0 4 (by omega), window_inside _ _ 4 4 (by omega)]
    exact ⟨ntohl_list _ _ (by simp [h8]) (hsub 0 4), ntohl_list _ _ (by simp [h8]) (hsub 4 4)⟩

/-- C21 witness: a little-endian host and a body of 24 bytes with the number 256 at
offset 8 and the number 128 at offset 16. -/
theorem get_capacity_big_endian_witness :
    (exword_get_capacity_data false connected_handle ⟨0, 0⟩ cap_outcome_example (fun _ => 0)).total
      = be_value ((cap_outcome_example.hdr_body.drop 8).take 8) ∧
    (exword_get_capacity_data false connected_handle ⟨0, 0⟩ cap_outcome_example (fun _ => 0)).free
      = be_value ((cap_outcome_example.hdr_body.drop 16).take 8) ∧
    be_value ((cap_outcome_example.hdr_body.drop 8).take 8) = 256 ∧
    be_value ((cap_outcome_example.hdr_body.drop 16).take 8) = 128 :=
  ⟨((get_capacity_big_endian false connected_handle ⟨0, 0⟩ cap_outcome_example (fun _ => 0)
      (by decide) (by decide) rfl (Or.inl rfl) (by decide)).1 rfl).1,
   ((get_capacity_big_endian false connected_handle ⟨0, 0⟩ cap_outcome_example (fun _ => 0)
      (by decide) (by decide) rfl (Or.inl rfl) (by decide)).1 rfl).2,
   by decide, by decide⟩

/-! ## The body of `exword_list` -/

theorem ntohs_be_u16 (big_endian : Bool) (v : Nat) (hv : v < 65536) :
    ntohs big_endian (load_uint big_endian (be_u16 v)) = v := by
  unfold be_u16
  rw [ntohs_bytes big_endian _ _ (Nat.mod_lt _ (by decide)) (Nat.mod_lt _ (by decide))]
  simp only [be_value, List.foldl_cons, List.foldl_nil]
  omega

theorem list_entries_eq (big_endian malloc0_null : Bool) (heap : Nat → Nat)
    (es : List list_entry) :
    ∀ A : List Nat, (∀ e ∈ es, list_entry_ok e) →
      list_entries big_endian malloc0_null (A ++ list_entry_bytes es) heap es.length A.length
        = some (es.map (fun e => ⟨e.name.length + 3, e.flags, some e.name⟩)) := by
  induction es with
  | nil => intro A _; rfl
  | cons e es ih =>
    intro A hes
    obtain ⟨hsize, hlast⟩ := hes e (List.mem_cons_self _ _)
    have hne : e.name ≠ [] := by
      intro h
      rw [h] at hlast
      simp at hlast
    have hlen : 0 < e.name.length := List.length_pos.mpr hne
    have hbody : A ++ list_entry_bytes (e :: es)
        = A ++ (be_u16 (e.name.length + 3) ++ [e.flags] ++ e.name) ++ list_entry_bytes es := by
      simp [list_entry_bytes]
    have hbody2 : A ++ list_entry_bytes (e :: es)
        = (A ++ (be_u16 (e.name.length + 3) ++ [e.flags])) ++ e.name ++ list_entry_bytes es := by
      simp [list_entry_bytes]
    have hw2 : window (A ++ list_entry_bytes (e :: es)) heap A.length 2
        = be_u16 (e.name.length + 3) := by
      rw [hbody, window_token A _ _ heap 2 (by simp [be_u16])]
      simp [be_u16]
    have hflags : peek (A ++ list_entry_bytes (e :: es)) heap (A.length + 2) = e.flags := by
      rw [hbody, peek_append A _ _ heap 2 (by simp [be_u16])]
      simp [be_u16]
    have hname : window (A ++ list_entry_bytes (e :: es)) heap (A.length + 3) e.name.length
        = e.name := by
      have := window_token (A ++ (be_u16 (e.name.length + 3) ++ [e.flags])) e.name
        (list_entry_bytes es) heap e.name.length (le_refl _)
      rw [← hbody2] at this
      have hl : (A ++ (be_u16 (e.name.length + 3) ++ [e.flags])).length = A.length + 3 := by
        simp [be_u16]
      rw [hl] at this
      rw [this, List.take_length]
    have hrec := ih (A ++ (be_u16 (e.name.length + 3) ++ [e.flags] ++ e.name))
      (fun x hx => hes x (List.mem_cons_of_mem _ hx))
    have hl2 : (A ++ (be_u16 (e.name.length + 3) ++ [e.flags] ++ e.name)).length
        = A.length + (e.name.length + 3) := by
      simp only [be_u16, List.length_append, List.length_cons, List.length_nil]
      omega
    rw [hl2, ← hbody] at hrec
    rw [List.length_cons, list_entries]
    simp only [hw2, ntohs_be_u16 big_endian _ hsize]
    rw [if_neg (by omega), hflags, hrec]
    have h3 : ¬ (e.name.length + 3 = 3 ∧ malloc0_null = true) := by omega
    simp only [h3, if_false, Nat.add_sub_cancel, hname]
    rfl

theorem free_list_eq (es : List list_entry) :
    exword_free_list
        (es.map (fun e => (⟨e.name.length + 3, e.flags, some e.name⟩ : exword_dirent_t)) ++
          [⟨0, 0, none⟩])
      = some (es.map (fun e => e.name)) := by
  induction es with
  | nil => rfl
  | cons e es ih =>
    rw [List.map_cons, List.cons_append, exword_free_list]
    simp only []
    rw [ih]
    rfl

/-- C22: for a `_List` body made of a big-endian u16 count `n` and `n` entries, each a
big-endian u16 size, one flags byte and the `size - 3` name bytes ending in NUL,
`exword_list` returns the count `n` and an array of the `n` entries with their
size, flags and name bytes in the same order, followed by one entry whose name
is NULL; `exword_free_list` frees the `n` names and stops at that entry. -/
theorem list_parses_body (big_endian malloc0_null : Bool) (self : exword_t) (o : outcome)
    (heap : Nat → Nat) (es : List list_entry)
    (hstatus : self.status &&& 0x06 = 0) (hconn : exword_is_connected self = true)
    (hobj : o.obj_ok = true)
    (hrsp : o.rsp = OBEX_RSP_SUCCESS ∨ o.rsp = OBEX_RSP_SUCCESS + 0x80)
    (hbody : o.hdr_body = list_body es) (hcount : es.length < 65536)
    (hes : ∀ e ∈ es, list_entry_ok e) :
    exword_list_data big_endian malloc0_null self o heap
      = some ⟨some (es.map (fun e => ⟨e.name.length + 3, e.flags, some e.name⟩) ++
          [⟨0, 0, none⟩]), es.length⟩ ∧
    exword_free_list
        (es.map (fun e => (⟨e.name.length + 3, e.flags, some e.name⟩ : exword_dirent_t)) ++
          [⟨0, 0, none⟩])
      = some (es.map (fun e => e.name)) ∧
    (es.map (fun e => e.name)).length = es.length := by
  refine ⟨?_, free_list_eq es, by simp⟩
  have hw : window (list_body es) heap 0 2 = be_u16 es.length := by
    have := window_token [] (be_u16 es.length) (list_entry_bytes es) heap 2 (by simp [be_u16])
    simp only [List.nil_append, List.length_nil] at this
    rw [list_body, this]
    simp [be_u16]
  have hrec := list_entries_eq big_endian malloc0_null heap es (be_u16 es.length) hes
  have hl : (be_u16 es.length).length = 2 := by simp [be_u16]
  rw [hl] at hrec
  unfold exword_list_data
  rw [if_neg (by simp [hstatus]), if_neg (by simp [hconn]), if_neg (by simp [hobj]),
    if_pos hrsp, hbody]
  simp only [hw, ntohs_be_u16 big_endian _ hcount]
  rw [list_body, hrec]
  rfl

/-- C22 witness: a body with the two entries `_SD_00` and `a.txt` on a little-endian
host. -/
theorem list_parses_body_witness :
    exword_list_data false false connected_handle
        ⟨true, true, true, 0x20, 0, list_body list_entries_example, true⟩ (fun _ => 0)
      = some ⟨some (list_entries_example.map
            (fun e => ⟨e.name.length + 3, e.flags, some e.name⟩) ++ [⟨0, 0, none⟩]),
          list_entries_example.length⟩ :=
  (list_parses_body false false connected_handle
    ⟨true, true, true, 0x20, 0, list_body list_entries_example, true⟩ (fun _ => 0)
    list_entries_example (by decide) (by decide) rfl (Or.inl rfl) rfl (by decide)
    (by decide)).1

/-! ## `content_auth` -/

/-- C23 (the code at the failing input): the list holds the one storage entry
`_SD_01` and every command succeeds.  Behind the internal-memory challenge
`content_auth` sets the path `\_SD_00`, not `\_SD_01`, in front of the repeated
AUTHCHALLENGE; no SETPATH to `\_SD_01` is issued.  When the challenge on the
entry fails, AUTHINFO follows it; when it succeeds, no AUTHINFO is issued. -/
theorem content_auth_sets_sd_00 :
    (content_auth connected_handle "alice".toList (some key_0x01_0x14)
        (auth_env_example "_SD_01" 0x20)).map (fun r => (r.ret, commands_of r.steps))
      = some (1, [command.setpath "\\_INTERNAL_00".toList false,
          command.authchallenge key_0x01_0x14, command.setpath [] false, command.list,
          command.setpath "\\_SD_00".toList false, command.authchallenge key_0x01_0x14,
          command.userid]) ∧
    (content_auth connected_handle "alice".toList (some key_0x01_0x14)
        (auth_env_example "_SD_01" 0x43)).map (fun r => (r.ret, commands_of r.steps))
      = some (1, [command.setpath "\\_INTERNAL_00".toList false,
          command.authchallenge key_0x01_0x14, command.setpath [] false, command.list,
          command.setpath "\\_SD_00".toList false, command.authchallenge key_0x01_0x14,
          command.authinfo, command.userid]) := by
  decide

end Exword
